import Mathlib

/-! # go-http-server: authentication core

A shallow embedding of `internal/auth/auth.go` and of the request handlers of
`internal/api/api.go` and `internal/api/handler-chirps.go`, together with the
library functions they call (packages `strings`, `unicode/utf8`, `encoding/hex`,
`encoding/base64`, `encoding/json`, `strconv`, `crypto/sha256`, `crypto/hmac`,
`crypto/rand`, `crypto/subtle`, `github.com/google/uuid`, `github.com/golang-jwt/jwt/v5`,
`golang.org/x/crypto/blowfish` and `golang.org/x/crypto/bcrypt`).

Conventions

* A Go `string` and a Go `[]byte` are both a finite sequence of bytes:
  `GoString = List Byte`, `Byte = Fin 256`.  The conversions `[]byte(s)` and
  `string(b)` are the identity.
* A Go `error` is a value of `GoError`; a function returning `(T, error)` returns
  `Except GoError T`, and a function returning only an `error` returns
  `Option GoError`.
* An instant is an integer number of nanoseconds since the Unix epoch.  Every
  call of `time.Now()` is an explicit argument of the function that makes it.
* The random source `rand.Reader` is an explicit argument of the function that
  reads from it: the outcome of its read, an error or the bytes it delivers.
  The buffer that is filled, and so the number of bytes taken, is the one the
  function makes.
* The store (package `internal/database`) is a parameter of the handlers: a
  handler takes the state of the store and returns the calls it has made on the
  response writer together with the next state.

Limits of the library models

* `encoding/json` is decoded for one object whose values are strings, integers,
  booleans or `null`; any other text is reported as malformed.
* Of the signing methods of the token library only HS256 is verified; a token
  that names another method is rejected.
* A date of a token is read as an integer number of seconds; the library reads
  it through a `float64`, which is exact up to 2^53 seconds.
* These limits concern token strings that `MakeJWT` does not write.  What
  `MakeJWT` writes, the model writes as the libraries do, byte for byte.
* `golang.org/x/crypto/bcrypt` is the package in its current form, in which
  `GenerateFromPassword` refuses a password of more than 72 bytes.  The message
  of a base64 error is written without its input position.
-/

namespace GoHttpServer

/-! ## Bytes and strings -/

/-- A byte. -/
abbrev Byte := Fin 256

/-- A Go string (equally a Go byte slice): a sequence of bytes. -/
abbrev GoString := List Byte

/-- The byte with value `n % 256`. -/
def byte (n : Nat) : Byte := Fin.ofNat n

/-- UTF-8 encoding of one Unicode scalar value, as the Go compiler stores a
string literal. -/
def utf8EncodeRune (c : Char) : GoString :=
  let n := c.toNat
  if n < 0x80 then [byte n]
  else if n < 0x800 then [byte (0xC0 + n / 64), byte (0x80 + n % 64)]
  else if n < 0x10000 then
    [byte (0xE0 + n / 4096), byte (0x80 + n / 64 % 64), byte (0x80 + n % 64)]
  else
    [byte (0xF0 + n / 262144), byte (0x80 + n / 4096 % 64), byte (0x80 + n / 64 % 64),
      byte (0x80 + n % 64)]

/-- A Go string literal. -/
def str (s : String) : GoString := s.data.flatMap utf8EncodeRune

/-- The Go errors that occur in the modelled code.  `Error` gives the message of
`err.Error()`. -/
inductive GoError where
  /-- An error made by `fmt.Errorf` or `errors.New` with this message. -/
  | msg (text : GoString)
  /-- Sentinel `jwt.ErrTokenMalformed`. -/
  | tokenMalformed
  /-- Sentinel `jwt.ErrTokenUnverifiable`. -/
  | tokenUnverifiable
  /-- Sentinel `jwt.ErrTokenSignatureInvalid`. -/
  | tokenSignatureInvalid
  /-- Sentinel `jwt.ErrTokenExpired`, wrapped in `jwt.ErrTokenInvalidClaims`. -/
  | tokenExpired
  /-- Sentinel `jwt.ErrTokenNotValidYet`, wrapped in `jwt.ErrTokenInvalidClaims`. -/
  | tokenNotValidYet
  /-- An error of `uuid.Parse`. -/
  | uuidInvalid
  deriving DecidableEq

/-- Method `Error()` of a Go error. -/
def GoError.Error : GoError → GoString
  | .msg t => t
  | .tokenMalformed => str "token is malformed"
  | .tokenUnverifiable => str "token is unverifiable"
  | .tokenSignatureInvalid => str "token signature is invalid"
  | .tokenExpired => str "token has invalid claims: token is expired"
  | .tokenNotValidYet => str "token has invalid claims: token is not valid yet"
  | .uuidInvalid => str "invalid UUID"

deriving instance DecidableEq for Except

/-! ## Package `unicode/utf8` and `unicode` -/

namespace utf8

/-- Constant `utf8.RuneError`. -/
def RuneError : Nat := 0xFFFD

/-- Constant `utf8.RuneSelf`. -/
def RuneSelf : Nat := 0x80

/-- Constant `utf8.UTFMax`. -/
def UTFMax : Nat := 4

/-- Function `utf8.DecodeRuneInString`: the first rune of `s` and its width in
bytes; `(RuneError, 0)` for the empty string and `(RuneError, 1)` for an invalid
encoding. -/
def DecodeRuneInString : GoString → Nat × Nat
  | [] => (RuneError, 0)
  | s0 :: rest =>
    if s0.val < RuneSelf then (s0.val, 1)
    else if s0.val < 0xC2 ∨ 0xF4 < s0.val then (RuneError, 1)
    else
      let sz : Nat := if s0.val < 0xE0 then 2 else if s0.val < 0xF0 then 3 else 4
      let lo : Nat := if s0.val = 0xE0 then 0xA0 else if s0.val = 0xF0 then 0x90 else 0x80
      let hi : Nat := if s0.val = 0xED then 0x9F else if s0.val = 0xF4 then 0x8F else 0xBF
      if rest.length + 1 < sz then (RuneError, 1)
      else
        match rest with
        | [] => (RuneError, 1)
        | s1 :: rest2 =>
          if s1.val < lo ∨ hi < s1.val then (RuneError, 1)
          else if sz ≤ 2 then ((s0.val % 32) * 64 + s1.val % 64, 2)
          else
            match rest2 with
            | [] => (RuneError, 1)
            | s2 :: rest3 =>
              if s2.val < 0x80 ∨ 0xBF < s2.val then (RuneError, 1)
              else if sz ≤ 3 then
                ((s0.val % 16) * 4096 + (s1.val % 64) * 64 + s2.val % 64, 3)
              else
                match rest3 with
                | [] => (RuneError, 1)
                | s3 :: _ =>
                  if s3.val < 0x80 ∨ 0xBF < s3.val then (RuneError, 1)
                  else
                    ((s0.val % 8) * 262144 + (s1.val % 64) * 4096 + (s2.val % 64) * 64
                      + s3.val % 64, 4)

/-- Function `utf8.RuneStart`: the byte is not a continuation byte. -/
def RuneStart (b : Byte) : Bool := decide (b.val / 64 ≠ 2)

/-- The loop of `DecodeLastRuneInString` that walks `start` down to `lim` and
stops at a rune start; `start` is `none` when the Go index has reached `-1`. -/
def lastRuneStart (s : GoString) (lim : Nat) : Nat → Option Nat → Option Nat
  | 0, start => start
  | _, none => none
  | fuel + 1, some start =>
    if start < lim then some start
    else if RuneStart (s.getD start 0) then some start
    else if start = 0 then none
    else lastRuneStart s lim fuel (some (start - 1))

/-- Function `utf8.DecodeLastRuneInString`: the last rune of `s` and its width. -/
def DecodeLastRuneInString (s : GoString) : Nat × Nat :=
  let stop := s.length
  if stop = 0 then (RuneError, 0)
  else
    let r := (s.getD (stop - 1) 0).val
    if r < RuneSelf then (r, 1)
    else
      let lim := stop - UTFMax
      let start :=
        if stop - 1 = 0 then 0
        else (lastRuneStart s lim (UTFMax + 1) (some (stop - 2))).getD 0
      let (r, size) := DecodeRuneInString (s.drop start)
      if start + size ≠ stop then (RuneError, 1) else (r, size)

/-- Function `utf8.RuneCountInString`: the number of runes, an invalid byte
counting as one rune. -/
def runeCount : Nat → GoString → Nat
  | 0, _ => 0
  | _, [] => 0
  | fuel + 1, s => 1 + runeCount fuel (s.drop (DecodeRuneInString s).2)

/-- Function `utf8.RuneCountInString`. -/
def RuneCountInString (s : GoString) : Nat := runeCount s.length s

end utf8

namespace unicode

/-- Function `unicode.IsSpace`: the Latin-1 white space and the code points with
the Unicode `White_Space` property. -/
def IsSpace (r : Nat) : Bool :=
  if r ≤ 0xFF then
    decide (r = 0x09 ∨ r = 0x0A ∨ r = 0x0B ∨ r = 0x0C ∨ r = 0x0D ∨ r = 0x20 ∨ r = 0x85
      ∨ r = 0xA0)
  else
    decide (r = 0x1680 ∨ (0x2000 ≤ r ∧ r ≤ 0x200A) ∨ r = 0x2028 ∨ r = 0x2029 ∨ r = 0x202F
      ∨ r = 0x205F ∨ r = 0x3000)

end unicode

/-! ## Package `strings` -/

namespace strings

/-- Function `strings.HasPrefix`. -/
def HasPrefix (s pre : GoString) : Bool :=
  decide (s.length ≥ pre.length) && decide (s.take pre.length = pre)

/-- Function `strings.Index`: the index of the first instance of `substr` in
`s`; `none` stands for Go's `-1`. -/
def Index : GoString → GoString → Option Nat
  | [], substr => if substr = [] then some 0 else none
  | c :: cs, substr =>
    if HasPrefix (c :: cs) substr then some 0
    else (Index cs substr).map (· + 1)

/-- The loop of `strings.Count` for a separator of two bytes or more. -/
def countLoop (substr : GoString) : Nat → GoString → Nat → Nat
  | 0, _, n => n
  | fuel + 1, s, n =>
    match Index s substr with
    | none => n
    | some i => countLoop substr fuel (s.drop (i + substr.length)) (n + 1)

/-- Function `strings.Count`: the number of non-overlapping instances of
`substr` in `s`. -/
def Count (s substr : GoString) : Nat :=
  match substr with
  | [] => utf8.RuneCountInString s + 1
  | [c] => s.count c
  | _ => countLoop substr (s.length + 1) s 0

/-- The replacement loop of `strings.Replace`: `k` replacements remain, `i` is
the loop counter, `start` the read position and `b` the builder. -/
def replaceLoop (s old new : GoString) : Nat → Nat → Nat → GoString → GoString
  | 0, _, start, b => b ++ s.drop start
  | k + 1, i, start, b =>
    let j : Nat :=
      if old.length = 0 then
        if i > 0 then start + (utf8.DecodeRuneInString (s.drop start)).2 else start
      else start + (Index (s.drop start) old).getD 0
    replaceLoop s old new k (i + 1) (j + old.length)
      (b ++ (s.drop start).take (j - start) ++ new)

/-- Function `strings.Replace`: a copy of `s` with the first `n` non-overlapping
instances of `old` replaced by `new`; all of them when `n < 0`. -/
def Replace (s old new : GoString) (n : Int) : GoString :=
  if old = new ∨ n = 0 then s
  else
    let m := Count s old
    if m = 0 then s
    else
      let n : Nat := if n < 0 ∨ (m : Int) < n then m else n.toNat
      replaceLoop s old new n 0 0 []

/-- Function `explode` of package `strings`: the UTF-8 sequences of `s`. -/
def explode : Nat → GoString → List GoString
  | 0, _ => []
  | _, [] => []
  | fuel + 1, s =>
    let size := (utf8.DecodeRuneInString s).2
    s.take size :: explode fuel (s.drop size)

/-- The loop of `strings.genSplit`. -/
def splitLoop (sep : GoString) : Nat → GoString → List GoString
  | 0, s => [s]
  | fuel + 1, s =>
    match Index s sep with
    | none => [s]
    | some m => s.take m :: splitLoop sep fuel (s.drop (m + sep.length))

/-- Function `strings.Split`: the substrings of `s` between the separators. -/
def Split (s sep : GoString) : List GoString :=
  if sep = [] then explode s.length s else splitLoop sep s.length s

/-- The loop of `strings.ToLower` over the runes of `s`.  An ASCII letter is
lowered, the two code points outside ASCII whose lower case is an ASCII letter
(U+0130 and U+212A) are mapped to it, an invalid byte becomes U+FFFD as in
`strings.Map`, and any other code point is left as it is: its lower case is not
modelled, and it is not an ASCII letter. -/
def toLowerLoop : Nat → GoString → GoString
  | 0, _ => []
  | _, [] => []
  | fuel + 1, b :: rest =>
    let (r, size) := utf8.DecodeRuneInString (b :: rest)
    (if r = utf8.RuneError ∧ size = 1 then [0xEF, 0xBF, 0xBD]
     else if 0x41 ≤ r ∧ r ≤ 0x5A then [byte (r + 32)]
     else if r = 0x130 then [0x69]
     else if r = 0x212A then [0x6B]
     else (b :: rest).take size) ++ toLowerLoop fuel (rest.drop (size - 1))

/-- Function `strings.ToLower`. -/
def ToLower (s : GoString) : GoString :=
  if s.all (fun b => decide (b.val < utf8.RuneSelf)) then
    s.map fun b => if 0x41 ≤ b.val ∧ b.val ≤ 0x5A then byte (b.val + 32) else b
  else toLowerLoop s.length s

/-- Function `strings.Join`. -/
def Join (elems : List GoString) (sep : GoString) : GoString := sep.intercalate elems

/-- Table `asciiSpace` of package `strings`: the ASCII white space bytes. -/
def asciiSpace (c : Byte) : Bool :=
  decide (c.val = 0x09 ∨ c.val = 0x0A ∨ c.val = 0x0B ∨ c.val = 0x0C ∨ c.val = 0x0D
    ∨ c.val = 0x20)

/-- Function `strings.indexFunc` with `truth = false` over the runes of `s`:
the remainder of `s` from the first rune that `f` rejects, `[]` when there is
none (this is `TrimLeftFunc`). -/
def trimLeftLoop (f : Nat → Bool) : Nat → GoString → GoString
  | 0, _ => []
  | _, [] => []
  | fuel + 1, s =>
    let (r, size) := utf8.DecodeRuneInString s
    if f r = false then s else trimLeftLoop f fuel (s.drop size)

/-- Function `strings.TrimLeftFunc`. -/
def TrimLeftFunc (s : GoString) (f : Nat → Bool) : GoString :=
  trimLeftLoop f s.length s

/-- Function `strings.lastIndexFunc` with `truth = false`: the index of the last
rune that `f` rejects, scanning `s[0:i]` backwards; `none` stands for `-1`. -/
def lastIndexFunc (s : GoString) (f : Nat → Bool) : Nat → Nat → Option Nat
  | 0, _ => none
  | fuel + 1, i =>
    if i = 0 then none
    else
      let (r, size) := utf8.DecodeLastRuneInString (s.take i)
      if f r = false then some (i - size) else lastIndexFunc s f fuel (i - size)

/-- Function `strings.TrimRightFunc`. -/
def TrimRightFunc (s : GoString) (f : Nat → Bool) : GoString :=
  match lastIndexFunc s f s.length s.length with
  | none => s.take 0
  | some i =>
    if (s.getD i 0).val ≥ utf8.RuneSelf then
      s.take (i + (utf8.DecodeRuneInString (s.drop i)).2)
    else s.take (i + 1)

/-- Function `strings.TrimFunc`. -/
def TrimFunc (s : GoString) (f : Nat → Bool) : GoString :=
  TrimRightFunc (TrimLeftFunc s f) f

/-- The second loop of `strings.TrimSpace`, over the reversed string: drops the
trailing ASCII spaces of `s[start:]`, and hands over to `TrimRightFunc` at a
non-ASCII byte. -/
def trimSpaceStop : GoString → GoString
  | [] => []
  | c :: rev =>
    if c.val ≥ utf8.RuneSelf then TrimRightFunc (c :: rev).reverse unicode.IsSpace
    else if asciiSpace c = false then (c :: rev).reverse
    else trimSpaceStop rev

/-- Function `strings.TrimSpace`: `s` without its leading and trailing white
space, as Unicode defines it. -/
def TrimSpace : GoString → GoString
  | [] => []
  | c :: cs =>
    if c.val ≥ utf8.RuneSelf then TrimFunc (c :: cs) unicode.IsSpace
    else if asciiSpace c = false then trimSpaceStop (c :: cs).reverse
    else TrimSpace cs

end strings

/-! ## Package `encoding/hex` -/

namespace hex

/-- Constant `hextable`. -/
def hextable : GoString := str "0123456789abcdef"

/-- Function `hex.EncodeToString`: two lower-case hexadecimal digits per byte. -/
def EncodeToString (src : GoString) : GoString :=
  src.flatMap fun v => [hextable.getD (v.val / 16) 0, hextable.getD (v.val % 16) 0]

/-- Table `reverseHexTable`: the value of a hexadecimal digit of either case,
`none` for any other byte. -/
def fromHexChar (c : Byte) : Option Nat :=
  if 0x30 ≤ c.val ∧ c.val ≤ 0x39 then some (c.val - 0x30)
  else if 0x61 ≤ c.val ∧ c.val ≤ 0x66 then some (c.val - 0x61 + 10)
  else if 0x41 ≤ c.val ∧ c.val ≤ 0x46 then some (c.val - 0x41 + 10)
  else none

/-- Function `hex.DecodeString`: the bytes that the hexadecimal string `s`
stands for; fails on a byte that is not a hexadecimal digit
(`InvalidByteError`) and on an odd length (`ErrLength`). -/
def DecodeString : GoString → Except GoError GoString
  | [] => .ok []
  | [p] =>
    match fromHexChar p with
    | none => .error (.msg (str "encoding/hex: invalid byte"))
    | some _ => .error (.msg (str "encoding/hex: odd length hex string"))
  | p :: q :: rest =>
    match fromHexChar p with
    | none => .error (.msg (str "encoding/hex: invalid byte"))
    | some a =>
      match fromHexChar q with
      | none => .error (.msg (str "encoding/hex: invalid byte"))
      | some b =>
        match DecodeString rest with
        | .error e => .error e
        | .ok dst => .ok (byte (a * 16 + b) :: dst)

end hex

/-! ## Package `github.com/google/uuid` -/

/-- Type `uuid.UUID`: an array of 16 bytes. -/
structure UUID where
  /-- The sixteen bytes. -/
  bytes : GoString
  /-- The array has length 16. -/
  size : bytes.length = 16
  deriving DecidableEq

namespace uuid

/-- Variable `uuid.Nil`: the all-zero UUID. -/
def Nil : UUID := ⟨List.replicate 16 0, rfl⟩

/-- Method `UUID.String`: the form `xxxxxxxx-xxxx-xxxx-xxxx-xxxxxxxxxxxx`. -/
def String (u : UUID) : GoString :=
  hex.EncodeToString (u.bytes.take 4) ++ str "-"
    ++ hex.EncodeToString ((u.bytes.drop 4).take 2) ++ str "-"
    ++ hex.EncodeToString ((u.bytes.drop 6).take 2) ++ str "-"
    ++ hex.EncodeToString ((u.bytes.drop 8).take 2) ++ str "-"
    ++ hex.EncodeToString (u.bytes.drop 10)

/-- Function `xtob`: the byte that two hexadecimal digits stand for. -/
def xtob (x1 x2 : Byte) : Option Byte :=
  match hex.fromHexChar x1, hex.fromHexChar x2 with
  | some b1, some b2 => some (byte (b1 * 16 + b2))
  | _, _ => none

/-- The bytes that the hexadecimal digits of `s` at the offsets `xs` and
`xs + 1` stand for. -/
def parseAt (s : GoString) : List Nat → Option GoString
  | [] => some []
  | x :: xs =>
    match xtob (s.getD x 0) (s.getD (x + 1) 0) with
    | none => none
    | some v => (parseAt s xs).map (v :: ·)

/-- ASCII lower case of a byte. -/
def toLowerASCII (c : Byte) : Byte :=
  if 0x41 ≤ c.val ∧ c.val ≤ 0x5A then byte (c.val + 32) else c

/-- The tail of `uuid.Parse`, for a string `s` of at least 36 bytes that must
have the form `xxxxxxxx-xxxx-xxxx-xxxx-xxxxxxxxxxxx`. -/
def parseCanonical (s : GoString) : Except GoError UUID :=
  if s.getD 8 0 ≠ 0x2D ∨ s.getD 13 0 ≠ 0x2D ∨ s.getD 18 0 ≠ 0x2D ∨ s.getD 23 0 ≠ 0x2D then
    .error .uuidInvalid
  else
    match parseAt s [0, 2, 4, 6, 9, 11, 14, 16, 19, 21, 24, 26, 28, 30, 32, 34] with
    | none => .error .uuidInvalid
    | some b => if h : b.length = 16 then .ok ⟨b, h⟩ else .error .uuidInvalid

/-- Function `uuid.Parse`: accepts the canonical form of 36 bytes, the same
after `urn:uuid:` (in any case), the same between two arbitrary bytes (braces),
and 32 hexadecimal digits without dashes. -/
def Parse (s : GoString) : Except GoError UUID :=
  if s.length = 36 then parseCanonical s
  else if s.length = 36 + 9 then
    if (s.take 9).map toLowerASCII ≠ str "urn:uuid:" then .error .uuidInvalid
    else parseCanonical (s.drop 9)
  else if s.length = 36 + 2 then parseCanonical (s.drop 1)
  else if s.length = 32 then
    match parseAt s [0, 2, 4, 6, 8, 10, 12, 14, 16, 18, 20, 22, 24, 26, 28, 30] with
    | none => .error .uuidInvalid
    | some b => if h : b.length = 16 then .ok ⟨b, h⟩ else .error .uuidInvalid
  else .error .uuidInvalid

end uuid

/-! ## Package `encoding/base64`: `RawURLEncoding` -/

namespace base64

/-- Constant `encodeURL`: the URL-safe alphabet. -/
def encodeURL : GoString :=
  str "ABCDEFGHIJKLMNOPQRSTUVWXYZabcdefghijklmnopqrstuvwxyz0123456789-_"

/-- The character of a six-bit value. -/
def enc (v : Nat) : Byte := encodeURL.getD (v % 64) 0

/-- Method `EncodeToString` of `base64.RawURLEncoding`: four characters for
every three bytes, two or three characters for a remainder of one or two bytes,
and no padding. -/
def EncodeToString : GoString → GoString
  | [] => []
  | [a] => [enc (a.val / 4), enc (a.val % 4 * 16)]
  | [a, b] => [enc (a.val / 4), enc (a.val % 4 * 16 + b.val / 16), enc (b.val % 16 * 4)]
  | a :: b :: c :: rest =>
    enc (a.val / 4) :: enc (a.val % 4 * 16 + b.val / 16)
      :: enc (b.val % 16 * 4 + c.val / 64) :: enc (c.val % 64) :: EncodeToString rest

/-- Table `decodeMap` of the URL-safe alphabet: the six-bit value of a
character, `none` (Go's `0xff`) for a byte outside the alphabet. -/
def decodeMap (c : Byte) : Option Nat :=
  if 0x41 ≤ c.val ∧ c.val ≤ 0x5A then some (c.val - 0x41)
  else if 0x61 ≤ c.val ∧ c.val ≤ 0x7A then some (c.val - 0x61 + 26)
  else if 0x30 ≤ c.val ∧ c.val ≤ 0x39 then some (c.val - 0x30 + 52)
  else if c.val = 0x2D then some 62
  else if c.val = 0x5F then some 63
  else none

/-- The six-bit values of the characters of `s`, skipping `\r` and `\n` as the
decoder does; fails on any other byte outside the alphabet (without padding the
character `=` is such a byte). -/
def sextets : GoString → Option (List Nat)
  | [] => some []
  | c :: cs =>
    match decodeMap c with
    | some v => (sextets cs).map (v :: ·)
    | none => if c.val = 0x0A ∨ c.val = 0x0D then sextets cs else none

/-- The bytes of a sequence of six-bit values: three bytes for each quantum of
four, one or two bytes for a last quantum of two or three (its unused low bits
are not checked, the encoding is not strict), and an error for a last quantum of
one. -/
def quanta : List Nat → Option GoString
  | [] => some []
  | [_] => none
  | [a, b] => some [byte (a * 4 + b / 16)]
  | [a, b, c] => some [byte (a * 4 + b / 16), byte (b % 16 * 16 + c / 4)]
  | a :: b :: c :: d :: rest =>
    (quanta rest).map fun t =>
      byte (a * 4 + b / 16) :: byte (b % 16 * 16 + c / 4) :: byte (c % 4 * 64 + d) :: t

/-- Method `DecodeString` of `base64.RawURLEncoding`. -/
def DecodeString (s : GoString) : Except GoError GoString :=
  match (sextets s).bind quanta with
  | none => .error (.msg (str "illegal base64 data"))
  | some b => .ok b

end base64

/-! ## Package `crypto/sha256` and `crypto/hmac` -/

namespace sha256

/-- The round constants of SHA-256. -/
def K : List Nat := [
  0x428a2f98, 0x71374491, 0xb5c0fbcf, 0xe9b5dba5, 0x3956c25b, 0x59f111f1, 0x923f82a4, 0xab1c5ed5,
  0xd807aa98, 0x12835b01, 0x243185be, 0x550c7dc3, 0x72be5d74, 0x80deb1fe, 0x9bdc06a7, 0xc19bf174,
  0xe49b69c1, 0xefbe4786, 0x0fc19dc6, 0x240ca1cc, 0x2de92c6f, 0x4a7484aa, 0x5cb0a9dc, 0x76f988da,
  0x983e5152, 0xa831c66d, 0xb00327c8, 0xbf597fc7, 0xc6e00bf3, 0xd5a79147, 0x06ca6351, 0x14292967,
  0x27b70a85, 0x2e1b2138, 0x4d2c6dfc, 0x53380d13, 0x650a7354, 0x766a0abb, 0x81c2c92e, 0x92722c85,
  0xa2bfe8a1, 0xa81a664b, 0xc24b8b70, 0xc76c51a3, 0xd192e819, 0xd6990624, 0xf40e3585, 0x106aa070,
  0x19a4c116, 0x1e376c08, 0x2748774c, 0x34b0bcb5, 0x391c0cb3, 0x4ed8aa4a, 0x5b9cca4f, 0x682e6ff3,
  0x748f82ee, 0x78a5636f, 0x84c87814, 0x8cc70208, 0x90befffa, 0xa4506ceb, 0xbef9a3f7, 0xc67178f2]

/-- The initial hash value of SHA-256. -/
def init : List Nat := [
  0x6a09e667, 0xbb67ae85, 0x3c6ef372, 0xa54ff53a, 0x510e527f, 0x9b05688c, 0x1f83d9ab, 0x5be0cd19]

/-- Constant `sha256.BlockSize`, in bytes. -/
def BlockSize : Nat := 64

/-- Rotation of a 32-bit word to the right. -/
def rotr (x n : Nat) : Nat := (x >>> n ||| x <<< (32 - n)) % 2 ^ 32

/-- Addition of 32-bit words. -/
def add32 (a b : Nat) : Nat := (a + b) % 2 ^ 32

/-- Complement of a 32-bit word. -/
def not32 (x : Nat) : Nat := 2 ^ 32 - 1 - x % 2 ^ 32

/-- The big-endian 32-bit words of a sequence of bytes. -/
def words : GoString → List Nat
  | a :: b :: c :: d :: rest =>
    (a.val * 2 ^ 24 + b.val * 2 ^ 16 + c.val * 2 ^ 8 + d.val) :: words rest
  | _ => []

/-- The message schedule: `n` further words appended to `w`. -/
def schedule : Nat → List Nat → List Nat
  | 0, w => w
  | n + 1, w =>
    let i := w.length
    let v1 := w.getD (i - 2) 0
    let v2 := w.getD (i - 15) 0
    let t1 := rotr v1 17 ^^^ rotr v1 19 ^^^ (v1 >>> 10)
    let t2 := rotr v2 7 ^^^ rotr v2 18 ^^^ (v2 >>> 3)
    schedule n (w ++ [add32 (add32 t1 (w.getD (i - 7) 0)) (add32 t2 (w.getD (i - 16) 0))])

/-- One round of the compression function on the working variables
`[a, b, c, d, e, f, g, h]`. -/
def round (kw : Nat) : List Nat → List Nat
  | [a, b, c, d, e, f, g, h] =>
    let t1 := add32 (add32 (add32 h (rotr e 6 ^^^ rotr e 11 ^^^ rotr e 25))
      ((e &&& f) ^^^ (not32 e &&& g))) kw
    let t2 := add32 (rotr a 2 ^^^ rotr a 13 ^^^ rotr a 22) ((a &&& b) ^^^ (a &&& c) ^^^ (b &&& c))
    [add32 t1 t2, a, b, c, add32 d t1, e, f, g]
  | v => v

/-- The compression function: the hash value after the block of 64 bytes `p`. -/
def block (h : List Nat) (p : GoString) : List Nat :=
  let w := schedule 48 (words p)
  let v := (List.zipWith add32 K w).foldl (fun v kw => round kw v) h
  List.zipWith add32 h v

/-- The hash value after all the blocks of 64 bytes of `p`. -/
def blocks : Nat → List Nat → GoString → List Nat
  | 0, h, _ => h
  | n + 1, h, p => blocks n (block h (p.take 64)) (p.drop 64)

/-- The big-endian bytes of the low `8 * n` bits of `v`. -/
def bigEndian : Nat → Nat → GoString
  | 0, _ => []
  | n + 1, v => byte (v / 2 ^ (8 * n)) :: bigEndian n v

/-- The padding of SHA-256: the byte `0x80`, zero bytes up to 56 modulo 64, and
the length of the message in bits as a big-endian 64-bit integer. -/
def padding (len : Nat) : GoString :=
  byte 0x80 :: List.replicate ((119 - len % 64) % 64) 0 ++ bigEndian 8 (len * 8 % 2 ^ 64)

/-- Function `sha256.Sum256`: the SHA-256 checksum of the data, 32 bytes. -/
def Sum256 (data : GoString) : GoString :=
  let p := data ++ padding data.length
  (blocks (p.length / 64) init p).flatMap (bigEndian 4)

end sha256

namespace hmac

/-- The key of one block that HMAC derives: a key longer than the block is
replaced by its checksum, and the key is then padded with zero bytes. -/
def blockKey (key : GoString) : GoString :=
  let k := if key.length > sha256.BlockSize then sha256.Sum256 key else key
  k ++ List.replicate (sha256.BlockSize - k.length) 0

/-- The MAC that `hmac.New(sha256.New, key)` computes for the message written to
it: `H(opad ++ H(ipad ++ message))`. -/
def Sum (key message : GoString) : GoString :=
  let k := blockKey key
  let ipad := k.map fun b => byte (b.val ^^^ 0x36)
  let opad := k.map fun b => byte (b.val ^^^ 0x5c)
  sha256.Sum256 (opad ++ sha256.Sum256 (ipad ++ message))

/-- Function `hmac.Equal`. -/
def Equal (mac1 mac2 : GoString) : Bool := decide (mac1 = mac2)

end hmac

/-! ## Package `time` -/

/-- Type `time.Time`: an instant, in nanoseconds since the Unix epoch. -/
abbrev Time := Int

namespace time

/-- Constant `time.Second`, in nanoseconds. -/
def Second : Int := 1000000000

/-- Constant `time.Hour`, in nanoseconds. -/
def Hour : Int := 3600 * Second

/-- Method `Time.Add`. -/
def Add (t : Time) (d : Int) : Time := t + d

/-- Method `Time.Truncate`: `t` rounded down to a multiple of `d`. -/
def Truncate (t : Time) (d : Int) : Time := if d ≤ 0 then t else t - t % d

/-- Method `Time.Unix`: the whole seconds since the Unix epoch. -/
def Unix (t : Time) : Int := t / Second

/-- Function `time.Unix(sec, 0)`. -/
def ofUnix (sec : Int) : Time := sec * Second

/-- Method `Time.Before`. -/
def Before (t u : Time) : Bool := decide (t < u)

/-- Function `time.Until(t)`, the duration from the clock reading `now` to `t`. -/
def Until (now t : Time) : Int := t - now

end time

/-! ## Package `strconv` -/

namespace strconv

/-- The decimal digit of a value below ten. -/
def digit (d : Nat) : Byte := byte (0x30 + d % 10)

/-- The loop of `formatBits` in base ten: the digits of `u` in front of `acc`. -/
def formatBits : Nat → Nat → GoString → GoString
  | 0, _, acc => acc
  | fuel + 1, u, acc =>
    if u < 10 then digit u :: acc
    else formatBits fuel (u / 10) (digit (u % 10) :: acc)

/-- Function `strconv.FormatInt(i, 10)`. -/
def FormatInt (i : Int) : GoString :=
  if i < 0 then byte 0x2D :: formatBits (i.natAbs + 1) i.natAbs []
  else formatBits (i.natAbs + 1) i.natAbs []

end strconv

/-! ## Package `encoding/json` -/

namespace json

/-- The lower-case hexadecimal digit of the low four bits of `n`. -/
def hexDigit (n : Nat) : Byte := hex.hextable.getD (n % 16) 0

/-- The loop of `appendString` with `escapeHTML` set: the body of the JSON
string for the bytes `src`. -/
def appendString : Nat → GoString → GoString
  | 0, _ => []
  | _, [] => []
  | fuel + 1, b :: rest =>
    if b.val < utf8.RuneSelf then
      (if b.val = 0x5C ∨ b.val = 0x22 then [byte 0x5C, b]
       else if b.val = 0x08 then str "\\b"
       else if b.val = 0x0C then str "\\f"
       else if b.val = 0x0A then str "\\n"
       else if b.val = 0x0D then str "\\r"
       else if b.val = 0x09 then str "\\t"
       else if b.val < 0x20 ∨ b.val = 0x3C ∨ b.val = 0x3E ∨ b.val = 0x26 then
         str "\\u00" ++ [hexDigit (b.val / 16), hexDigit b.val]
       else [b]) ++ appendString fuel rest
    else
      let (c, size) := utf8.DecodeRuneInString (b :: rest)
      if c = utf8.RuneError ∧ size = 1 then str "\\ufffd" ++ appendString fuel rest
      else if c = 0x2028 ∨ c = 0x2029 then
        str "\\u202" ++ [hexDigit c] ++ appendString fuel (rest.drop (size - 1))
      else (b :: rest).take size ++ appendString fuel (rest.drop (size - 1))

/-- The JSON text of a Go string. -/
def encodeString (s : GoString) : GoString :=
  str "\"" ++ appendString s.length s ++ str "\""

/-- The JSON text of a slice of strings. -/
def encodeStrings (l : List GoString) : GoString :=
  str "[" ++ (str ",").intercalate (l.map encodeString) ++ str "]"

/-- A JSON value of the shapes that the decoder of this model reads: a string, an
integer, `true`, `false` or `null`. -/
inductive Value where
  /-- A string. -/
  | string (s : GoString)
  /-- An integer. -/
  | number (n : Int)
  /-- A boolean. -/
  | bool (b : Bool)
  /-- The value `null`. -/
  | null
  deriving DecidableEq

/-- White space of JSON. -/
def isSpace (c : Byte) : Bool :=
  decide (c.val = 0x20 ∨ c.val = 0x09 ∨ c.val = 0x0A ∨ c.val = 0x0D)

/-- Skips white space. -/
def skipSpace : GoString → GoString
  | [] => []
  | c :: cs => if isSpace c then skipSpace cs else c :: cs

/-- The byte that the escape `\e` stands for; the escape `\u` is not read by this
model. -/
def unescape (e : Byte) : Option Byte :=
  if e.val = 0x22 ∨ e.val = 0x5C ∨ e.val = 0x2F then some e
  else if e.val = 0x62 then some 0x08
  else if e.val = 0x66 then some 0x0C
  else if e.val = 0x6E then some 0x0A
  else if e.val = 0x72 then some 0x0D
  else if e.val = 0x74 then some 0x09
  else none

/-- Reads a JSON string after its opening quote: the string and the input after
the closing quote. -/
def scanString : GoString → Option (GoString × GoString)
  | [] => none
  | c :: cs =>
    if c.val = 0x22 then some ([], cs)
    else if c.val = 0x5C then
      match cs with
      | [] => none
      | e :: cs2 =>
        match unescape e, scanString cs2 with
        | some b, some (v, r) => some (b :: v, r)
        | _, _ => none
    else if c.val < 0x20 then none
    else
      match scanString cs with
      | some (v, r) => some (c :: v, r)
      | none => none

/-- A decimal digit. -/
def isDigit (c : Byte) : Bool := decide (0x30 ≤ c.val ∧ c.val ≤ 0x39)

/-- The number that a sequence of decimal digits stands for. -/
def digitsValue (ds : GoString) : Nat := ds.foldl (fun acc d => acc * 10 + (d.val - 0x30)) 0

/-- Reads a JSON number that is an integer: an optional minus sign and decimal
digits without a superfluous leading zero.  A number with a fraction or an
exponent is not read by this model. -/
def scanNumber (s : GoString) : Option (Int × GoString) :=
  let neg : Bool := match s with
    | c :: _ => decide (c.val = 0x2D)
    | [] => false
  let s1 := if neg then s.drop 1 else s
  let ds := s1.takeWhile isDigit
  let rest := s1.dropWhile isDigit
  if ds = [] then none
  else if 1 < ds.length ∧ (ds.getD 0 0).val = 0x30 then none
  else if (match rest with
      | c :: _ => decide (c.val = 0x2E ∨ c.val = 0x65 ∨ c.val = 0x45)
      | [] => false) then none
  else some (if neg then - (digitsValue ds : Int) else (digitsValue ds : Int), rest)

/-- Reads one JSON value.  Arrays and objects are not read by this model. -/
def scanValue (s : GoString) : Option (Value × GoString) :=
  match s with
  | [] => none
  | c :: cs =>
    if c.val = 0x22 then
      match scanString cs with
      | some (v, r) => some (.string v, r)
      | none => none
    else if c.val = 0x2D ∨ isDigit c then
      match scanNumber s with
      | some (n, r) => some (.number n, r)
      | none => none
    else if strings.HasPrefix s (str "true") then some (.bool true, s.drop 4)
    else if strings.HasPrefix s (str "false") then some (.bool false, s.drop 5)
    else if strings.HasPrefix s (str "null") then some (.null, s.drop 4)
    else none

/-- Reads the members of a JSON object up to its closing brace, which must end
the input. -/
def scanMembers : Nat → GoString → Option (List (GoString × Value))
  | 0, _ => none
  | _, [] => none
  | fuel + 1, c :: cs =>
    if c.val ≠ 0x22 then none
    else
      match scanString cs with
      | none => none
      | some (k, r1) =>
        match skipSpace r1 with
        | [] => none
        | colon :: r2 =>
          if colon.val ≠ 0x3A then none
          else
            match scanValue (skipSpace r2) with
            | none => none
            | some (v, r3) =>
              match skipSpace r3 with
              | [] => none
              | d :: r4 =>
                if d.val = 0x2C then
                  match scanMembers fuel (skipSpace r4) with
                  | some ms => some ((k, v) :: ms)
                  | none => none
                else if d.val = 0x7D then
                  if skipSpace r4 = [] then some [(k, v)] else none
                else none

/-- The members of the JSON object `data`, in the order of the text.  This is
the part of `json.Unmarshal` that the model covers: one object whose values are
strings, integers, booleans or `null`.  Any other text is reported as an error,
also where `encoding/json` reads it (nested values, `\u` escapes, numbers with
a fraction or an exponent). -/
def scanObject (data : GoString) : Option (List (GoString × Value)) :=
  match skipSpace data with
  | [] => none
  | c :: r =>
    if c.val ≠ 0x7B then none
    else
      match skipSpace r with
      | [] => none
      | d :: r2 =>
        if d.val = 0x7D then (if skipSpace r2 = [] then some [] else none)
        else scanMembers data.length (d :: r2)

end json

/-! ## Package `github.com/golang-jwt/jwt/v5` -/

namespace jwt

/-- Type `jwt.NumericDate`: an instant truncated to `jwt.TimePrecision`, which is
one second. -/
abbrev NumericDate := Time

/-- Function `jwt.NewNumericDate`. -/
def NewNumericDate (t : Time) : NumericDate := time.Truncate t time.Second

/-- Type `jwt.RegisteredClaims`. -/
structure RegisteredClaims where
  /-- Claim `iss`. -/
  Issuer : GoString := []
  /-- Claim `sub`. -/
  Subject : GoString := []
  /-- Claim `aud`. -/
  Audience : List GoString := []
  /-- Claim `exp`. -/
  ExpiresAt : Option NumericDate := none
  /-- Claim `nbf`. -/
  NotBefore : Option NumericDate := none
  /-- Claim `iat`. -/
  IssuedAt : Option NumericDate := none
  /-- Claim `jti`. -/
  ID : GoString := []
  deriving DecidableEq

/-- Method `NumericDate.MarshalJSON` at the precision of one second: the decimal
Unix seconds. -/
def NumericDate.MarshalJSON (date : NumericDate) : GoString :=
  strconv.FormatInt (time.Unix (time.Truncate date time.Second))

/-- The JSON members of the claims, in the order of the struct fields, a field
with the tag `omitempty` being left out when it is empty. -/
def RegisteredClaims.members (c : RegisteredClaims) : List GoString :=
  (if c.Issuer = [] then [] else [str "\"iss\":" ++ json.encodeString c.Issuer])
  ++ (if c.Subject = [] then [] else [str "\"sub\":" ++ json.encodeString c.Subject])
  ++ (if c.Audience = [] then [] else [str "\"aud\":" ++ json.encodeStrings c.Audience])
  ++ (match c.ExpiresAt with
      | none => []
      | some d => [str "\"exp\":" ++ d.MarshalJSON])
  ++ (match c.NotBefore with
      | none => []
      | some d => [str "\"nbf\":" ++ d.MarshalJSON])
  ++ (match c.IssuedAt with
      | none => []
      | some d => [str "\"iat\":" ++ d.MarshalJSON])
  ++ (if c.ID = [] then [] else [str "\"jti\":" ++ json.encodeString c.ID])

/-- Function `json.Marshal` on a `jwt.RegisteredClaims`. -/
def RegisteredClaims.Marshal (c : RegisteredClaims) : GoString :=
  str "\x7b" ++ (str ",").intercalate c.members ++ str "\x7d"

/-- Function `json.Unmarshal` into a field of type `string`: a string is stored, a
`null` leaves the field as it is, and any other value is an error. -/
def unmarshalString (v : json.Value) (old : GoString) : Option GoString :=
  match v with
  | .string s => some s
  | .null => some old
  | _ => none

/-- Method `ClaimStrings.UnmarshalJSON`, for a string and for `null`. -/
def unmarshalClaimStrings (v : json.Value) : Option (List GoString) :=
  match v with
  | .string s => some [s]
  | .null => some []
  | _ => none

/-- Function `json.Unmarshal` into a field of type `*NumericDate`: a number is
read as Unix seconds (`NumericDate.UnmarshalJSON`), a `null` clears the field,
and any other value is an error. -/
def unmarshalNumericDate (v : json.Value) : Option (Option NumericDate) :=
  match v with
  | .number n => some (some (NewNumericDate (time.ofUnix n)))
  | .null => some none
  | _ => none

/-- Function `json.Unmarshal` into one field of a `jwt.RegisteredClaims`: the
member `k: v` is stored in the field whose JSON name equals `k` up to ASCII
case, a value of the wrong type is an error, and a member with another name is
ignored.  (The library also reads a date from a number with a fraction or
exponent and an audience from an array; the decoder of this model rejects those
texts before this point, and it rejects a name with a byte outside ASCII.) -/
def RegisteredClaims.setField (c : RegisteredClaims) (k : GoString) (v : json.Value) :
    Option RegisteredClaims :=
  let name := k.map uuid.toLowerASCII
  if name = str "iss" then (unmarshalString v c.Issuer).map fun s => { c with Issuer := s }
  else if name = str "sub" then (unmarshalString v c.Subject).map fun s => { c with Subject := s }
  else if name = str "aud" then (unmarshalClaimStrings v).map fun a => { c with Audience := a }
  else if name = str "exp" then (unmarshalNumericDate v).map fun d => { c with ExpiresAt := d }
  else if name = str "nbf" then (unmarshalNumericDate v).map fun d => { c with NotBefore := d }
  else if name = str "iat" then (unmarshalNumericDate v).map fun d => { c with IssuedAt := d }
  else if name = str "jti" then (unmarshalString v c.ID).map fun s => { c with ID := s }
  else if k.all (fun b => decide (b.val < utf8.RuneSelf)) then some c
  else none

/-- Function `json.Unmarshal` into a `jwt.RegisteredClaims`. -/
def RegisteredClaims.Unmarshal (data : GoString) (c : RegisteredClaims) :
    Option RegisteredClaims :=
  match json.scanObject data with
  | none => none
  | some ms => ms.foldlM (fun c kv => c.setField kv.1 kv.2) c

/-- The header of a token made by `jwt.NewWithClaims(jwt.SigningMethodHS256, _)`:
the map `{"typ": "JWT", "alg": "HS256"}`. -/
def newHeader : List (GoString × GoString) := [(str "typ", str "JWT"), (str "alg", str "HS256")]

/-- Byte-wise order of two strings: `a ≤ b`. -/
def lessEq : GoString → GoString → Bool
  | [], _ => true
  | _ :: _, [] => false
  | a :: as, b :: bs => if a.val < b.val then true else if b.val < a.val then false else lessEq as bs

/-- Inserts a member into a list of members sorted by key. -/
def insertSorted (kv : GoString × GoString) : List (GoString × GoString) →
    List (GoString × GoString)
  | [] => [kv]
  | x :: xs => if lessEq kv.1 x.1 then kv :: x :: xs else x :: insertSorted kv xs

/-- Function `json.Marshal` on the header map of `jwt.NewWithClaims`: the keys
of a map are written in sorted order. -/
def marshalHeader (h : List (GoString × GoString)) : GoString :=
  str "\x7b" ++ (str ",").intercalate
    ((h.foldr insertSorted []).map fun kv =>
      json.encodeString kv.1 ++ str ":" ++ json.encodeString kv.2) ++ str "\x7d"

/-- Type `jwt.Token`. -/
structure Token where
  /-- Field `Raw`. -/
  Raw : GoString := []
  /-- Field `Header`, as far as the member `alg` goes: the value of
  `Header["alg"].(string)`. -/
  alg : Option GoString := none
  /-- Field `Claims`. -/
  Claims : RegisteredClaims := {}
  /-- Field `Signature`. -/
  Signature : GoString := []
  /-- Field `Valid`. -/
  Valid : Bool := false

/-- Method `SigningMethodHMAC.Sign` of `jwt.SigningMethodHS256` with a key of
type `[]byte`. -/
def SigningMethodHS256.Sign (signingString key : GoString) : GoString :=
  hmac.Sum key signingString

/-- Method `SigningMethodHMAC.Verify` of `jwt.SigningMethodHS256` with a key of
type `[]byte`. -/
def SigningMethodHS256.Verify (signingString sig key : GoString) : Except GoError Unit :=
  if hmac.Equal sig (hmac.Sum key signingString) then .ok ()
  else .error .tokenSignatureInvalid

/-- Function `jwt.EncodeSegment`. -/
def EncodeSegment (seg : GoString) : GoString := base64.EncodeToString seg

/-- Method `Parser.DecodeSegment` of the default parser. -/
def DecodeSegment (seg : GoString) : Except GoError GoString := base64.DecodeString seg

/-- Method `Token.SigningString` of a token made by `jwt.NewWithClaims` with the
method HS256. -/
def SigningString (claims : RegisteredClaims) : GoString :=
  EncodeSegment (marshalHeader newHeader) ++ str "." ++ EncodeSegment claims.Marshal

/-- Method `Token.SignedString` of a token made by `jwt.NewWithClaims` with the
method HS256, for a key of type `[]byte`. -/
def SignedString (claims : RegisteredClaims) (key : GoString) : Except GoError GoString :=
  let sstr := SigningString claims
  let sig := SigningMethodHS256.Sign sstr key
  .ok (sstr ++ str "." ++ EncodeSegment sig)

/-- The names that `jwt.GetSigningMethod` knows besides HS256.  With a key of
type `[]byte` the methods other than HMAC fail to verify; the methods HS384 and
HS512 are not modelled and are made to fail as well. -/
def otherSigningMethods : List GoString :=
  [str "none", str "HS384", str "HS512", str "RS256", str "RS384", str "RS512", str "ES256",
    str "ES384", str "ES512", str "PS256", str "PS384", str "PS512", str "EdDSA"]

/-- The value of `token.Header["alg"].(string)` after `json.Unmarshal` of the
header segment into a map: the last member named `alg`, when it is a string. -/
def headerAlg (ms : List (GoString × json.Value)) : Option GoString :=
  match (ms.reverse).lookup (str "alg") with
  | some (.string a) => some a
  | _ => none

/-- The part of `Parser.ParseUnverified` after the split, for a token string of
three segments: the header and the claims are decoded and the signing method is
looked up. -/
def parseSegments (tokenString head payload : GoString) : Except GoError Token :=
  match DecodeSegment head with
  | .error _ => .error .tokenMalformed
  | .ok headerBytes =>
    match json.scanObject headerBytes with
    | none => .error .tokenMalformed
    | some header =>
      match DecodeSegment payload with
      | .error _ => .error .tokenMalformed
      | .ok claimBytes =>
        match RegisteredClaims.Unmarshal claimBytes {} with
        | none => .error .tokenMalformed
        | some claims =>
          match headerAlg header with
          | none => .error .tokenUnverifiable
          | some method =>
            if method = str "HS256" ∨ method ∈ otherSigningMethods then
              .ok { Raw := tokenString, alg := some method, Claims := claims }
            else .error .tokenUnverifiable

/-- Method `Parser.ParseUnverified` of the default parser: the token and its
three segments; a token string that does not have three segments is malformed. -/
def ParseUnverified (tokenString : GoString) : Except GoError (Token × List GoString) :=
  match strings.Split tokenString (str ".") with
  | [head, payload, signature] =>
    match parseSegments tokenString head payload with
    | .error e => .error e
    | .ok token => .ok (token, [head, payload, signature])
  | _ => .error .tokenMalformed

/-- Method `Validator.Validate` of the default validator at the clock reading
`now`: the expiry is checked with `now.Before(exp)` and the not-before time with
`!now.Before(nbf)`, each only when the claim is present; nothing else is
checked. -/
def Validate (claims : RegisteredClaims) (now : Time) : Except GoError Unit :=
  let expOk : Bool := match claims.ExpiresAt with
    | none => true
    | some exp => time.Before now exp
  let nbfOk : Bool := match claims.NotBefore with
    | none => true
    | some nbf => !(time.Before now nbf)
  if expOk = false then .error .tokenExpired
  else if nbfOk = false then .error .tokenNotValidYet
  else .ok ()

/-- Function `jwt.ParseWithClaims` with a `*jwt.RegisteredClaims` and the default
parser; `now` is the clock reading of the validator. -/
def ParseWithClaims (tokenString : GoString) (keyFunc : Token → Except GoError GoString)
    (now : Time) : Except GoError Token :=
  match ParseUnverified tokenString with
  | .error e => .error e
  | .ok (token, parts) =>
    match DecodeSegment (parts.getD 2 []) with
    | .error _ => .error .tokenMalformed
    | .ok sig =>
      let text := (str ".").intercalate (parts.take 2)
      match keyFunc token with
      | .error _ => .error .tokenUnverifiable
      | .ok key =>
        if token.alg ≠ some (str "HS256") then .error .tokenSignatureInvalid
        else
          match SigningMethodHS256.Verify text sig key with
          | .error _ => .error .tokenSignatureInvalid
          | .ok _ =>
            match Validate token.Claims now with
            | .error e => .error e
            | .ok _ => .ok { token with Signature := sig, Valid := true }

end jwt

/-! ## Package `crypto/rand` -/

namespace rand

/-- Variable `rand.Reader`, by the outcome of the read that a function makes
from it: the error of the source, or the bytes that the source delivers, the
first one at index 0. -/
abbrev Reader := Except GoError (Nat → Byte)

/-- Function `rand.Read(b)`, which is `io.ReadFull(rand.Reader, b)`: the buffer
`b` filled with the next `len(b)` bytes of the source and no error, or the error
of the source.  (After an error the callers do not look at the buffer; the model
leaves it as it was.) -/
def Read (reader : Reader) (b : GoString) : GoString × Option GoError :=
  match reader with
  | .error err => (b, some err)
  | .ok bytes => ((List.range b.length).map bytes, none)

end rand

/-! ## Package `crypto/subtle` -/

namespace subtle

/-- Function `subtle.ConstantTimeCompare`: 1 when the two slices have equal
contents, 0 otherwise; 0 at once when their lengths differ. -/
def ConstantTimeCompare (x y : GoString) : Nat :=
  if x.length ≠ y.length then 0
  else
    let v := (x.zip y).foldl (fun v xy => v ||| (xy.1.val ^^^ xy.2.val)) 0
    if v = 0 then 1 else 0

end subtle

/-! ## Package `golang.org/x/crypto/blowfish` -/

namespace blowfish

/-- Table `p` of `const.go`: the initial subkeys, the first 18 words of the fractional
part of pi. -/
def p : List Nat :=
  [0x243f6a88, 0x85a308d3, 0x13198a2e, 0x03707344, 0xa4093822, 0x299f31d0, 0x082efa98, 0xec4e6c89,
   0x452821e6, 0x38d01377, 0xbe5466cf, 0x34e90c6c, 0xc0ac29b7, 0xc97c50dd, 0x3f84d5b5, 0xb5470917,
   0x9216d5d9, 0x8979fb1b]

/-- Table `s0` of `const.go`: the first substitution box, the next 256 words of
the fractional part of pi. -/
def s0 : List Nat :=
  [0xd1310ba6, 0x98dfb5ac, 0x2ffd72db, 0xd01adfb7, 0xb8e1afed, 0x6a267e96, 0xba7c9045, 0xf12c7f99,
   0x24a19947, 0xb3916cf7, 0x0801f2e2, 0x858efc16, 0x636920d8, 0x71574e69, 0xa458fea3, 0xf4933d7e,
   0x0d95748f, 0x728eb658, 0x718bcd58, 0x82154aee, 0x7b54a41d, 0xc25a59b5, 0x9c30d539, 0x2af26013,
   0xc5d1b023, 0x286085f0, 0xca417918, 0xb8db38ef, 0x8e79dcb0, 0x603a180e, 0x6c9e0e8b, 0xb01e8a3e,
   0xd71577c1, 0xbd314b27, 0x78af2fda, 0x55605c60, 0xe65525f3, 0xaa55ab94, 0x57489862, 0x63e81440,
   0x55ca396a, 0x2aab10b6, 0xb4cc5c34, 0x1141e8ce, 0xa15486af, 0x7c72e993, 0xb3ee1411, 0x636fbc2a,
   0x2ba9c55d, 0x741831f6, 0xce5c3e16, 0x9b87931e, 0xafd6ba33, 0x6c24cf5c, 0x7a325381, 0x28958677,
   0x3b8f4898, 0x6b4bb9af, 0xc4bfe81b, 0x66282193, 0x61d809cc, 0xfb21a991, 0x487cac60, 0x5dec8032,
   0xef845d5d, 0xe98575b1, 0xdc262302, 0xeb651b88, 0x23893e81, 0xd396acc5, 0x0f6d6ff3, 0x83f44239,
   0x2e0b4482, 0xa4842004, 0x69c8f04a, 0x9e1f9b5e, 0x21c66842, 0xf6e96c9a, 0x670c9c61, 0xabd388f0,
   0x6a51a0d2, 0xd8542f68, 0x960fa728, 0xab5133a3, 0x6eef0b6c, 0x137a3be4, 0xba3bf050, 0x7efb2a98,
   0xa1f1651d, 0x39af0176, 0x66ca593e, 0x82430e88, 0x8cee8619, 0x456f9fb4, 0x7d84a5c3, 0x3b8b5ebe,
   0xe06f75d8, 0x85c12073, 0x401a449f, 0x56c16aa6, 0x4ed3aa62, 0x363f7706, 0x1bfedf72, 0x429b023d,
   0x37d0d724, 0xd00a1248, 0xdb0fead3, 0x49f1c09b, 0x075372c9, 0x80991b7b, 0x25d479d8, 0xf6e8def7,
   0xe3fe501a, 0xb6794c3b, 0x976ce0bd, 0x04c006ba, 0xc1a94fb6, 0x409f60c4, 0x5e5c9ec2, 0x196a2463,
   0x68fb6faf, 0x3e6c53b5, 0x1339b2eb, 0x3b52ec6f, 0x6dfc511f, 0x9b30952c, 0xcc814544, 0xaf5ebd09,
   0xbee3d004, 0xde334afd, 0x660f2807, 0x192e4bb3, 0xc0cba857, 0x45c8740f, 0xd20b5f39, 0xb9d3fbdb,
   0x5579c0bd, 0x1a60320a, 0xd6a100c6, 0x402c7279, 0x679f25fe, 0xfb1fa3cc, 0x8ea5e9f8, 0xdb3222f8,
   0x3c7516df, 0xfd616b15, 0x2f501ec8, 0xad0552ab, 0x323db5fa, 0xfd238760, 0x53317b48, 0x3e00df82,
   0x9e5c57bb, 0xca6f8ca0, 0x1a87562e, 0xdf1769db, 0xd542a8f6, 0x287effc3, 0xac6732c6, 0x8c4f5573,
   0x695b27b0, 0xbbca58c8, 0xe1ffa35d, 0xb8f011a0, 0x10fa3d98, 0xfd2183b8, 0x4afcb56c, 0x2dd1d35b,
   0x9a53e479, 0xb6f84565, 0xd28e49bc, 0x4bfb9790, 0xe1ddf2da, 0xa4cb7e33, 0x62fb1341, 0xcee4c6e8,
   0xef20cada, 0x36774c01, 0xd07e9efe, 0x2bf11fb4, 0x95dbda4d, 0xae909198, 0xeaad8e71, 0x6b93d5a0,
   0xd08ed1d0, 0xafc725e0, 0x8e3c5b2f, 0x8e7594b7, 0x8ff6e2fb, 0xf2122b64, 0x8888b812, 0x900df01c,
   0x4fad5ea0, 0x688fc31c, 0xd1cff191, 0xb3a8c1ad, 0x2f2f2218, 0xbe0e1777, 0xea752dfe, 0x8b021fa1,
   0xe5a0cc0f, 0xb56f74e8, 0x18acf3d6, 0xce89e299, 0xb4a84fe0, 0xfd13e0b7, 0x7cc43b81, 0xd2ada8d9,
   0x165fa266, 0x80957705, 0x93cc7314, 0x211a1477, 0xe6ad2065, 0x77b5fa86, 0xc75442f5, 0xfb9d35cf,
   0xebcdaf0c, 0x7b3e89a0, 0xd6411bd3, 0xae1e7e49, 0x00250e2d, 0x2071b35e, 0x226800bb, 0x57b8e0af,
   0x2464369b, 0xf009b91e, 0x5563911d, 0x59dfa6aa, 0x78c14389, 0xd95a537f, 0x207d5ba2, 0x02e5b9c5,
   0x83260376, 0x6295cfa9, 0x11c81968, 0x4e734a41, 0xb3472dca, 0x7b14a94a, 0x1b510052, 0x9a532915,
   0xd60f573f, 0xbc9bc6e4, 0x2b60a476, 0x81e67400, 0x08ba6fb5, 0x571be91f, 0xf296ec6b, 0x2a0dd915,
   0xb6636521, 0xe7b9f9b6, 0xff34052e, 0xc5855664, 0x53b02d5d, 0xa99f8fa1, 0x08ba4799, 0x6e85076a]

/-- Table `s1` of `const.go`: the second substitution box, the next 256 words of
the fractional part of pi. -/
def s1 : List Nat :=
  [0x4b7a70e9, 0xb5b32944, 0xdb75092e, 0xc4192623, 0xad6ea6b0, 0x49a7df7d, 0x9cee60b8, 0x8fedb266,
   0xecaa8c71, 0x699a17ff, 0x5664526c, 0xc2b19ee1, 0x193602a5, 0x75094c29, 0xa0591340, 0xe4183a3e,
   0x3f54989a, 0x5b429d65, 0x6b8fe4d6, 0x99f73fd6, 0xa1d29c07, 0xefe830f5, 0x4d2d38e6, 0xf0255dc1,
   0x4cdd2086, 0x8470eb26, 0x6382e9c6, 0x021ecc5e, 0x09686b3f, 0x3ebaefc9, 0x3c971814, 0x6b6a70a1,
   0x687f3584, 0x52a0e286, 0xb79c5305, 0xaa500737, 0x3e07841c, 0x7fdeae5c, 0x8e7d44ec, 0x5716f2b8,
   0xb03ada37, 0xf0500c0d, 0xf01c1f04, 0x0200b3ff, 0xae0cf51a, 0x3cb574b2, 0x25837a58, 0xdc0921bd,
   0xd19113f9, 0x7ca92ff6, 0x94324773, 0x22f54701, 0x3ae5e581, 0x37c2dadc, 0xc8b57634, 0x9af3dda7,
   0xa9446146, 0x0fd0030e, 0xecc8c73e, 0xa4751e41, 0xe238cd99, 0x3bea0e2f, 0x3280bba1, 0x183eb331,
   0x4e548b38, 0x4f6db908, 0x6f420d03, 0xf60a04bf, 0x2cb81290, 0x24977c79, 0x5679b072, 0xbcaf89af,
   0xde9a771f, 0xd9930810, 0xb38bae12, 0xdccf3f2e, 0x5512721f, 0x2e6b7124, 0x501adde6, 0x9f84cd87,
   0x7a584718, 0x7408da17, 0xbc9f9abc, 0xe94b7d8c, 0xec7aec3a, 0xdb851dfa, 0x63094366, 0xc464c3d2,
   0xef1c1847, 0x3215d908, 0xdd433b37, 0x24c2ba16, 0x12a14d43, 0x2a65c451, 0x50940002, 0x133ae4dd,
   0x71dff89e, 0x10314e55, 0x81ac77d6, 0x5f11199b, 0x043556f1, 0xd7a3c76b, 0x3c11183b, 0x5924a509,
   0xf28fe6ed, 0x97f1fbfa, 0x9ebabf2c, 0x1e153c6e, 0x86e34570, 0xeae96fb1, 0x860e5e0a, 0x5a3e2ab3,
   0x771fe71c, 0x4e3d06fa, 0x2965dcb9, 0x99e71d0f, 0x803e89d6, 0x5266c825, 0x2e4cc978, 0x9c10b36a,
   0xc6150eba, 0x94e2ea78, 0xa5fc3c53, 0x1e0a2df4, 0xf2f74ea7, 0x361d2b3d, 0x1939260f, 0x19c27960,
   0x5223a708, 0xf71312b6, 0xebadfe6e, 0xeac31f66, 0xe3bc4595, 0xa67bc883, 0xb17f37d1, 0x018cff28,
   0xc332ddef, 0xbe6c5aa5, 0x65582185, 0x68ab9802, 0xeecea50f, 0xdb2f953b, 0x2aef7dad, 0x5b6e2f84,
   0x1521b628, 0x29076170, 0xecdd4775, 0x619f1510, 0x13cca830, 0xeb61bd96, 0x0334fe1e, 0xaa0363cf,
   0xb5735c90, 0x4c70a239, 0xd59e9e0b, 0xcbaade14, 0xeecc86bc, 0x60622ca7, 0x9cab5cab, 0xb2f3846e,
   0x648b1eaf, 0x19bdf0ca, 0xa02369b9, 0x655abb50, 0x40685a32, 0x3c2ab4b3, 0x319ee9d5, 0xc021b8f7,
   0x9b540b19, 0x875fa099, 0x95f7997e, 0x623d7da8, 0xf837889a, 0x97e32d77, 0x11ed935f, 0x16681281,
   0x0e358829, 0xc7e61fd6, 0x96dedfa1, 0x7858ba99, 0x57f584a5, 0x1b227263, 0x9b83c3ff, 0x1ac24696,
   0xcdb30aeb, 0x532e3054, 0x8fd948e4, 0x6dbc3128, 0x58ebf2ef, 0x34c6ffea, 0xfe28ed61, 0xee7c3c73,
   0x5d4a14d9, 0xe864b7e3, 0x42105d14, 0x203e13e0, 0x45eee2b6, 0xa3aaabea, 0xdb6c4f15, 0xfacb4fd0,
   0xc742f442, 0xef6abbb5, 0x654f3b1d, 0x41cd2105, 0xd81e799e, 0x86854dc7, 0xe44b476a, 0x3d816250,
   0xcf62a1f2, 0x5b8d2646, 0xfc8883a0, 0xc1c7b6a3, 0x7f1524c3, 0x69cb7492, 0x47848a0b, 0x5692b285,
   0x095bbf00, 0xad19489d, 0x1462b174, 0x23820e00, 0x58428d2a, 0x0c55f5ea, 0x1dadf43e, 0x233f7061,
   0x3372f092, 0x8d937e41, 0xd65fecf1, 0x6c223bdb, 0x7cde3759, 0xcbee7460, 0x4085f2a7, 0xce77326e,
   0xa6078084, 0x19f8509e, 0xe8efd855, 0x61d99735, 0xa969a7aa, 0xc50c06c2, 0x5a04abfc, 0x800bcadc,
   0x9e447a2e, 0xc3453484, 0xfdd56705, 0x0e1e9ec9, 0xdb73dbd3, 0x105588cd, 0x675fda79, 0xe3674340,
   0xc5c43465, 0x713e38d8, 0x3d28f89e, 0xf16dff20, 0x153e21e7, 0x8fb03d4a, 0xe6e39f2b, 0xdb83adf7]

/-- Table `s2` of `const.go`: the third substitution box, the next 256 words of
the fractional part of pi. -/
def s2 : List Nat :=
  [0xe93d5a68, 0x948140f7, 0xf64c261c, 0x94692934, 0x411520f7, 0x7602d4f7, 0xbcf46b2e, 0xd4a20068,
   0xd4082471, 0x3320f46a, 0x43b7d4b7, 0x500061af, 0x1e39f62e, 0x97244546, 0x14214f74, 0xbf8b8840,
   0x4d95fc1d, 0x96b591af, 0x70f4ddd3, 0x66a02f45, 0xbfbc09ec, 0x03bd9785, 0x7fac6dd0, 0x31cb8504,
   0x96eb27b3, 0x55fd3941, 0xda2547e6, 0xabca0a9a, 0x28507825, 0x530429f4, 0x0a2c86da, 0xe9b66dfb,
   0x68dc1462, 0xd7486900, 0x680ec0a4, 0x27a18dee, 0x4f3ffea2, 0xe887ad8c, 0xb58ce006, 0x7af4d6b6,
   0xaace1e7c, 0xd3375fec, 0xce78a399, 0x406b2a42, 0x20fe9e35, 0xd9f385b9, 0xee39d7ab, 0x3b124e8b,
   0x1dc9faf7, 0x4b6d1856, 0x26a36631, 0xeae397b2, 0x3a6efa74, 0xdd5b4332, 0x6841e7f7, 0xca7820fb,
   0xfb0af54e, 0xd8feb397, 0x454056ac, 0xba489527, 0x55533a3a, 0x20838d87, 0xfe6ba9b7, 0xd096954b,
   0x55a867bc, 0xa1159a58, 0xcca92963, 0x99e1db33, 0xa62a4a56, 0x3f3125f9, 0x5ef47e1c, 0x9029317c,
   0xfdf8e802, 0x04272f70, 0x80bb155c, 0x05282ce3, 0x95c11548, 0xe4c66d22, 0x48c1133f, 0xc70f86dc,
   0x07f9c9ee, 0x41041f0f, 0x404779a4, 0x5d886e17, 0x325f51eb, 0xd59bc0d1, 0xf2bcc18f, 0x41113564,
   0x257b7834, 0x602a9c60, 0xdff8e8a3, 0x1f636c1b, 0x0e12b4c2, 0x02e1329e, 0xaf664fd1, 0xcad18115,
   0x6b2395e0, 0x333e92e1, 0x3b240b62, 0xeebeb922, 0x85b2a20e, 0xe6ba0d99, 0xde720c8c, 0x2da2f728,
   0xd0127845, 0x95b794fd, 0x647d0862, 0xe7ccf5f0, 0x5449a36f, 0x877d48fa, 0xc39dfd27, 0xf33e8d1e,
   0x0a476341, 0x992eff74, 0x3a6f6eab, 0xf4f8fd37, 0xa812dc60, 0xa1ebddf8, 0x991be14c, 0xdb6e6b0d,
   0xc67b5510, 0x6d672c37, 0x2765d43b, 0xdcd0e804, 0xf1290dc7, 0xcc00ffa3, 0xb5390f92, 0x690fed0b,
   0x667b9ffb, 0xcedb7d9c, 0xa091cf0b, 0xd9155ea3, 0xbb132f88, 0x515bad24, 0x7b9479bf, 0x763bd6eb,
   0x37392eb3, 0xcc115979, 0x8026e297, 0xf42e312d, 0x6842ada7, 0xc66a2b3b, 0x12754ccc, 0x782ef11c,
   0x6a124237, 0xb79251e7, 0x06a1bbe6, 0x4bfb6350, 0x1a6b1018, 0x11caedfa, 0x3d25bdd8, 0xe2e1c3c9,
   0x44421659, 0x0a121386, 0xd90cec6e, 0xd5abea2a, 0x64af674e, 0xda86a85f, 0xbebfe988, 0x64e4c3fe,
   0x9dbc8057, 0xf0f7c086, 0x60787bf8, 0x6003604d, 0xd1fd8346, 0xf6381fb0, 0x7745ae04, 0xd736fccc,
   0x83426b33, 0xf01eab71, 0xb0804187, 0x3c005e5f, 0x77a057be, 0xbde8ae24, 0x55464299, 0xbf582e61,
   0x4e58f48f, 0xf2ddfda2, 0xf474ef38, 0x8789bdc2, 0x5366f9c3, 0xc8b38e74, 0xb475f255, 0x46fcd9b9,
   0x7aeb2661, 0x8b1ddf84, 0x846a0e79, 0x915f95e2, 0x466e598e, 0x20b45770, 0x8cd55591, 0xc902de4c,
   0xb90bace1, 0xbb8205d0, 0x11a86248, 0x7574a99e, 0xb77f19b6, 0xe0a9dc09, 0x662d09a1, 0xc4324633,
   0xe85a1f02, 0x09f0be8c, 0x4a99a025, 0x1d6efe10, 0x1ab93d1d, 0x0ba5a4df, 0xa186f20f, 0x2868f169,
   0xdcb7da83, 0x573906fe, 0xa1e2ce9b, 0x4fcd7f52, 0x50115e01, 0xa70683fa, 0xa002b5c4, 0x0de6d027,
   0x9af88c27, 0x773f8641, 0xc3604c06, 0x61a806b5, 0xf0177a28, 0xc0f586e0, 0x006058aa, 0x30dc7d62,
   0x11e69ed7, 0x2338ea63, 0x53c2dd94, 0xc2c21634, 0xbbcbee56, 0x90bcb6de, 0xebfc7da1, 0xce591d76,
   0x6f05e409, 0x4b7c0188, 0x39720a3d, 0x7c927c24, 0x86e3725f, 0x724d9db9, 0x1ac15bb4, 0xd39eb8fc,
   0xed545578, 0x08fca5b5, 0xd83d7cd3, 0x4dad0fc4, 0x1e50ef5e, 0xb161e6f8, 0xa28514d9, 0x6c51133c,
   0x6fd5c7e7, 0x56e14ec4, 0x362abfce, 0xddc6c837, 0xd79a3234, 0x92638212, 0x670efa8e, 0x406000e0]

/-- Table `s3` of `const.go`: the fourth substitution box, the next 256 words of
the fractional part of pi. -/
def s3 : List Nat :=
  [0x3a39ce37, 0xd3faf5cf, 0xabc27737, 0x5ac52d1b, 0x5cb0679e, 0x4fa33742, 0xd3822740, 0x99bc9bbe,
   0xd5118e9d, 0xbf0f7315, 0xd62d1c7e, 0xc700c47b, 0xb78c1b6b, 0x21a19045, 0xb26eb1be, 0x6a366eb4,
   0x5748ab2f, 0xbc946e79, 0xc6a376d2, 0x6549c2c8, 0x530ff8ee, 0x468dde7d, 0xd5730a1d, 0x4cd04dc6,
   0x2939bbdb, 0xa9ba4650, 0xac9526e8, 0xbe5ee304, 0xa1fad5f0, 0x6a2d519a, 0x63ef8ce2, 0x9a86ee22,
   0xc089c2b8, 0x43242ef6, 0xa51e03aa, 0x9cf2d0a4, 0x83c061ba, 0x9be96a4d, 0x8fe51550, 0xba645bd6,
   0x2826a2f9, 0xa73a3ae1, 0x4ba99586, 0xef5562e9, 0xc72fefd3, 0xf752f7da, 0x3f046f69, 0x77fa0a59,
   0x80e4a915, 0x87b08601, 0x9b09e6ad, 0x3b3ee593, 0xe990fd5a, 0x9e34d797, 0x2cf0b7d9, 0x022b8b51,
   0x96d5ac3a, 0x017da67d, 0xd1cf3ed6, 0x7c7d2d28, 0x1f9f25cf, 0xadf2b89b, 0x5ad6b472, 0x5a88f54c,
   0xe029ac71, 0xe019a5e6, 0x47b0acfd, 0xed93fa9b, 0xe8d3c48d, 0x283b57cc, 0xf8d56629, 0x79132e28,
   0x785f0191, 0xed756055, 0xf7960e44, 0xe3d35e8c, 0x15056dd4, 0x88f46dba, 0x03a16125, 0x0564f0bd,
   0xc3eb9e15, 0x3c9057a2, 0x97271aec, 0xa93a072a, 0x1b3f6d9b, 0x1e6321f5, 0xf59c66fb, 0x26dcf319,
   0x7533d928, 0xb155fdf5, 0x03563482, 0x8aba3cbb, 0x28517711, 0xc20ad9f8, 0xabcc5167, 0xccad925f,
   0x4de81751, 0x3830dc8e, 0x379d5862, 0x9320f991, 0xea7a90c2, 0xfb3e7bce, 0x5121ce64, 0x774fbe32,
   0xa8b6e37e, 0xc3293d46, 0x48de5369, 0x6413e680, 0xa2ae0810, 0xdd6db224, 0x69852dfd, 0x09072166,
   0xb39a460a, 0x6445c0dd, 0x586cdecf, 0x1c20c8ae, 0x5bbef7dd, 0x1b588d40, 0xccd2017f, 0x6bb4e3bb,
   0xdda26a7e, 0x3a59ff45, 0x3e350a44, 0xbcb4cdd5, 0x72eacea8, 0xfa6484bb, 0x8d6612ae, 0xbf3c6f47,
   0xd29be463, 0x542f5d9e, 0xaec2771b, 0xf64e6370, 0x740e0d8d, 0xe75b1357, 0xf8721671, 0xaf537d5d,
   0x4040cb08, 0x4eb4e2cc, 0x34d2466a, 0x0115af84, 0xe1b00428, 0x95983a1d, 0x06b89fb4, 0xce6ea048,
   0x6f3f3b82, 0x3520ab82, 0x011a1d4b, 0x277227f8, 0x611560b1, 0xe7933fdc, 0xbb3a792b, 0x344525bd,
   0xa08839e1, 0x51ce794b, 0x2f32c9b7, 0xa01fbac9, 0xe01cc87e, 0xbcc7d1f6, 0xcf0111c3, 0xa1e8aac7,
   0x1a908749, 0xd44fbd9a, 0xd0dadecb, 0xd50ada38, 0x0339c32a, 0xc6913667, 0x8df9317c, 0xe0b12b4f,
   0xf79e59b7, 0x43f5bb3a, 0xf2d519ff, 0x27d9459c, 0xbf97222c, 0x15e6fc2a, 0x0f91fc71, 0x9b941525,
   0xfae59361, 0xceb69ceb, 0xc2a86459, 0x12baa8d1, 0xb6c1075e, 0xe3056a0c, 0x10d25065, 0xcb03a442,
   0xe0ec6e0e, 0x1698db3b, 0x4c98a0be, 0x3278e964, 0x9f1f9532, 0xe0d392df, 0xd3a0342b, 0x8971f21e,
   0x1b0a7441, 0x4ba3348c, 0xc5be7120, 0xc37632d8, 0xdf359f8d, 0x9b992f2e, 0xe60b6f47, 0x0fe3f11d,
   0xe54cda54, 0x1edad891, 0xce6279cf, 0xcd3e7e6f, 0x1618b166, 0xfd2c1d05, 0x848fd2c5, 0xf6fb2299,
   0xf523f357, 0xa6327623, 0x93a83531, 0x56cccd02, 0xacf08162, 0x5a75ebb5, 0x6e163697, 0x88d273cc,
   0xde966292, 0x81b949d0, 0x4c50901b, 0x71c65614, 0xe6c6c7bd, 0x327a140a, 0x45e1d006, 0xc3f27b9a,
   0xc9aa53fd, 0x62a80f00, 0xbb25bfe2, 0x35bdd2f6, 0x71126905, 0xb2040222, 0xb6cbcf7c, 0xcd769c2b,
   0x53113ec0, 0x1640e3d3, 0x38abbd60, 0x2547adf0, 0xba38209c, 0xf746ce76, 0x77afa1c5, 0x20756060,
   0x85cbfe4e, 0x8ae88dd8, 0x7aaaf9b0, 0x4cf9aa7e, 0x1948c25c, 0x02fb8a8c, 0x01c36ae4, 0xd6ebe1f9,
   0x90d4f869, 0xa65cdea0, 0x3f09252d, 0xc208e69f, 0xb74e6132, 0xce77e25b, 0x578fdfe3, 0x3ac372e6]

/-- Type `blowfish.Cipher`: the 18 subkeys and the four substitution boxes, of
32-bit words. -/
structure Cipher where
  /-- Field `p`. -/
  p : List Nat
  /-- Field `s0`. -/
  s0 : List Nat
  /-- Field `s1`. -/
  s1 : List Nat
  /-- Field `s2`. -/
  s2 : List Nat
  /-- Field `s3`. -/
  s3 : List Nat

/-- Type `KeySizeError`, by its message. -/
def KeySizeError (k : Nat) : GoError :=
  .msg (str "crypto/blowfish: invalid key size " ++ strconv.FormatInt k)

/-- Function `initCipher`: the cipher of the tables. -/
def initCipher : Cipher := { p := p, s0 := s0, s1 := s1, s2 := s2, s3 := s3 }

/-- The expression
`((c.s0[byte(x>>24)] + c.s1[byte(x>>16)]) ^ c.s2[byte(x>>8)]) + c.s3[byte(x)]`
of `encryptBlock`, in 32-bit arithmetic. -/
def mix (c : Cipher) (x : Nat) : Nat :=
  (((c.s0.getD ((x >>> 24) % 256) 0 + c.s1.getD ((x >>> 16) % 256) 0) % 2 ^ 32
      ^^^ c.s2.getD ((x >>> 8) % 256) 0) + c.s3.getD (x % 256) 0) % 2 ^ 32

/-- Function `encryptBlock` of `block.go`: the sixteen rounds on the halves `l`
and `r` of a block. -/
def encryptBlock (l r : Nat) (c : Cipher) : Nat × Nat :=
  let xl := l
  let xr := r
  let xl := xl ^^^ c.p.getD 0 0
  let xr := xr ^^^ (mix c xl ^^^ c.p.getD 1 0)
  let xl := xl ^^^ (mix c xr ^^^ c.p.getD 2 0)
  let xr := xr ^^^ (mix c xl ^^^ c.p.getD 3 0)
  let xl := xl ^^^ (mix c xr ^^^ c.p.getD 4 0)
  let xr := xr ^^^ (mix c xl ^^^ c.p.getD 5 0)
  let xl := xl ^^^ (mix c xr ^^^ c.p.getD 6 0)
  let xr := xr ^^^ (mix c xl ^^^ c.p.getD 7 0)
  let xl := xl ^^^ (mix c xr ^^^ c.p.getD 8 0)
  let xr := xr ^^^ (mix c xl ^^^ c.p.getD 9 0)
  let xl := xl ^^^ (mix c xr ^^^ c.p.getD 10 0)
  let xr := xr ^^^ (mix c xl ^^^ c.p.getD 11 0)
  let xl := xl ^^^ (mix c xr ^^^ c.p.getD 12 0)
  let xr := xr ^^^ (mix c xl ^^^ c.p.getD 13 0)
  let xl := xl ^^^ (mix c xr ^^^ c.p.getD 14 0)
  let xr := xr ^^^ (mix c xl ^^^ c.p.getD 15 0)
  let xl := xl ^^^ (mix c xr ^^^ c.p.getD 16 0)
  let xr := xr ^^^ c.p.getD 17 0
  (xr, xl)

/-- One turn of the loop of `getNextWord`: the word `w` takes the byte `b[j]`,
and `j` moves on, back to 0 at the end of `b`. -/
def nextByte (b : GoString) (wj : Nat × Nat) : Nat × Nat :=
  let w := (wj.1 <<< 8) % 2 ^ 32 ||| (b.getD wj.2 0).val
  let j := wj.2 + 1
  (w, if j ≥ b.length then 0 else j)

/-- Function `getNextWord` of `block.go`: the next four bytes of `b` from the
position `pos` on, read cyclically, as a big-endian word, and the position
after them.  (The source panics on an empty `b`; its callers pass none.) -/
def getNextWord (b : GoString) (pos : Nat) : Nat × Nat :=
  nextByte b (nextByte b (nextByte b (nextByte b (0, pos))))

/-- The first loop of `ExpandKey` and of `expandKeyWithSalt`: `n` turns from the
index `i`, each of which XORs the next word of the key into `p[i]`. -/
def xorKey (key : GoString) : Nat → Nat → Nat → List Nat → List Nat
  | 0, _, _, p => p
  | n + 1, i, j, p =>
    let (d, j) := getNextWord key j
    xorKey key n (i + 1) j (p.set i (p.getD i 0 ^^^ d))

/-- The assignment `t[i], t[i+1] = l, r`. -/
def setPair (t : List Nat) (i l r : Nat) : List Nat := (t.set i l).set (i + 1) r

/-- A loop of `ExpandKey` that refills a table: `n` turns from the index `i`;
each turn encrypts `(l, r)` with the cipher as it is by then and stores the
result in the table through `put`. -/
def refill (put : Cipher → Nat → Nat → Nat → Cipher) :
    Nat → Nat → Nat × Nat × Cipher → Nat × Nat × Cipher
  | 0, _, st => st
  | n + 1, i, (l, r, c) =>
    let (l, r) := encryptBlock l r c
    refill put n (i + 2) (l, r, put c i l r)

/-- A loop of `expandKeyWithSalt` that refills a table: as `refill`, but each
turn first XORs the next two words of the salt into `l` and `r`; `j` is the
position in the salt. -/
def refillSalted (salt : GoString) (put : Cipher → Nat → Nat → Nat → Cipher) :
    Nat → Nat → Nat × Nat × Nat × Cipher → Nat × Nat × Nat × Cipher
  | 0, _, st => st
  | n + 1, i, (j, l, r, c) =>
    let (w, j) := getNextWord salt j
    let l := l ^^^ w
    let (w, j) := getNextWord salt j
    let r := r ^^^ w
    let (l, r) := encryptBlock l r c
    refillSalted salt put n (i + 2) (j, l, r, put c i l r)

/-- The store into the subkeys. -/
def putP (c : Cipher) (i l r : Nat) : Cipher := { c with p := setPair c.p i l r }

/-- The store into the box `s0`. -/
def putS0 (c : Cipher) (i l r : Nat) : Cipher := { c with s0 := setPair c.s0 i l r }

/-- The store into the box `s1`. -/
def putS1 (c : Cipher) (i l r : Nat) : Cipher := { c with s1 := setPair c.s1 i l r }

/-- The store into the box `s2`. -/
def putS2 (c : Cipher) (i l r : Nat) : Cipher := { c with s2 := setPair c.s2 i l r }

/-- The store into the box `s3`. -/
def putS3 (c : Cipher) (i l r : Nat) : Cipher := { c with s3 := setPair c.s3 i l r }

/-- Function `ExpandKey` of `block.go`: the key schedule. -/
def ExpandKey (key : GoString) (c : Cipher) : Cipher :=
  let c := { c with p := xorKey key 18 0 0 c.p }
  let st := refill putP 9 0 (0, 0, c)
  let st := refill putS0 128 0 st
  let st := refill putS1 128 0 st
  let st := refill putS2 128 0 st
  let st := refill putS3 128 0 st
  st.2.2

/-- Function `expandKeyWithSalt` of `block.go`: the key schedule with a salt. -/
def expandKeyWithSalt (key salt : GoString) (c : Cipher) : Cipher :=
  let c := { c with p := xorKey key 18 0 0 c.p }
  let st := refillSalted salt putP 9 0 (0, 0, 0, c)
  let st := refillSalted salt putS0 128 0 st
  let st := refillSalted salt putS1 128 0 st
  let st := refillSalted salt putS2 128 0 st
  let st := refillSalted salt putS3 128 0 st
  st.2.2.2

/-- Function `NewCipher` of `cipher.go`. -/
def NewCipher (key : GoString) : Except GoError Cipher :=
  let k := key.length
  if k < 1 ∨ k > 56 then .error (KeySizeError k)
  else .ok (ExpandKey key initCipher)

/-- Function `NewSaltedCipher` of `cipher.go`. -/
def NewSaltedCipher (key salt : GoString) : Except GoError Cipher :=
  if salt.length = 0 then NewCipher key
  else
    let k := key.length
    if k < 1 then .error (KeySizeError k)
    else .ok (expandKeyWithSalt key salt initCipher)

/-- Method `Cipher.Encrypt` of `cipher.go`: the encryption of the block of eight
bytes `src`. -/
def Encrypt (c : Cipher) (src : GoString) : GoString :=
  let l := (src.getD 0 0).val <<< 24 ||| (src.getD 1 0).val <<< 16 ||| (src.getD 2 0).val <<< 8
    ||| (src.getD 3 0).val
  let r := (src.getD 4 0).val <<< 24 ||| (src.getD 5 0).val <<< 16 ||| (src.getD 6 0).val <<< 8
    ||| (src.getD 7 0).val
  let (l, r) := encryptBlock l r c
  [byte (l >>> 24), byte (l >>> 16), byte (l >>> 8), byte l,
   byte (r >>> 24), byte (r >>> 16), byte (r >>> 8), byte r]

end blowfish

/-! ## Package `golang.org/x/crypto/bcrypt` -/

namespace strconv

/-- Function `strconv.Atoi` on a string of one to eighteen bytes (its fast path):
an optional sign and decimal digits.  The message of the error quotes the input;
the model writes the input between quotes as it is.  A longer or empty string is
not read: the callers below pass two bytes. -/
def Atoi (s : GoString) : Except GoError Int :=
  let syntaxError : GoError :=
    .msg (str "strconv.Atoi: parsing \"" ++ s ++ str "\": invalid syntax")
  if s.length = 0 ∨ s.length ≥ 19 then .error syntaxError
  else
    let signed := decide ((s.getD 0 0).val = 0x2D ∨ (s.getD 0 0).val = 0x2B)
    let digits := if signed then s.drop 1 else s
    if digits.length < 1 then .error syntaxError
    else if digits.all fun ch => decide (0x30 ≤ ch.val ∧ ch.val ≤ 0x39) then
      let n : Int := digits.foldl (fun n ch => n * 10 + (ch.val - 0x30 : Nat)) 0
      .ok (if (s.getD 0 0).val = 0x2D then -n else n)
    else .error syntaxError

end strconv

namespace bcrypt

/-- Constant `MinCost`. -/
def MinCost : Int := 4

/-- Constant `MaxCost`. -/
def MaxCost : Int := 31

/-- Constant `DefaultCost`. -/
def DefaultCost : Int := 10

/-- Constant `majorVersion`. -/
def majorVersion : Byte := 0x32

/-- Constant `minorVersion`. -/
def minorVersion : Byte := 0x61

/-- Constant `maxSaltSize`. -/
def maxSaltSize : Nat := 16

/-- Constant `maxCryptedHashSize`. -/
def maxCryptedHashSize : Nat := 23

/-- Constant `encodedSaltSize`. -/
def encodedSaltSize : Nat := 22

/-- Constant `encodedHashSize`. -/
def encodedHashSize : Nat := 31

/-- Constant `minHashSize`. -/
def minHashSize : Nat := 59

/-- Error `ErrMismatchedHashAndPassword`. -/
def ErrMismatchedHashAndPassword : GoError :=
  .msg (str "crypto/bcrypt: hashedPassword is not the hash of the given password")

/-- Error `ErrHashTooShort`. -/
def ErrHashTooShort : GoError :=
  .msg (str "crypto/bcrypt: hashedSecret too short to be a bcrypted password")

/-- Error `ErrPasswordTooLong`. -/
def ErrPasswordTooLong : GoError := .msg (str "bcrypt: password length exceeds 72 bytes")

/-- The verb `%c` of `fmt` on a byte: the UTF-8 encoding of the code point. -/
def formatChar (b : Byte) : GoString := utf8EncodeRune (Char.ofNat b.val)

/-- Type `HashVersionTooNewError`, by its message. -/
def HashVersionTooNewError (hv : Byte) : GoError :=
  .msg (str "crypto/bcrypt: bcrypt algorithm version '" ++ formatChar hv
    ++ str "' requested is newer than current version '" ++ formatChar majorVersion ++ str "'")

/-- Type `InvalidHashPrefixError`, by its message. -/
def InvalidHashPrefixError (ih : Byte) : GoError :=
  .msg (str "crypto/bcrypt: bcrypt hashes must start with '$', but hashedSecret started with '"
    ++ formatChar ih ++ str "'")

/-- Type `InvalidCostError`, by its message. -/
def InvalidCostError (ic : Int) : GoError :=
  .msg (str "crypto/bcrypt: cost " ++ strconv.FormatInt ic
    ++ str " is outside allowed inclusive range " ++ strconv.FormatInt MinCost ++ str ".."
    ++ strconv.FormatInt MaxCost)

/-- Type `base64.CorruptInputError`; the input position of its message is not
modelled. -/
def CorruptInputError : GoError := .msg (str "illegal base64 data")

/-- Constant `alphabet` of `base64.go`. -/
def alphabet : GoString :=
  str "./ABCDEFGHIJKLMNOPQRSTUVWXYZabcdefghijklmnopqrstuvwxyz0123456789"

/-- The character of a six-bit value in `bcEncoding`. -/
def enc (v : Nat) : Byte := alphabet.getD (v % 64) 0

/-- Table `decodeMap` of `bcEncoding`: the six-bit value of a character, `none`
(Go's `0xff`) for a byte outside the alphabet. -/
def decodeMap (c : Byte) : Option Nat :=
  let i := alphabet.indexOf c
  if i < 64 then some i else none

/-- Method `Encode` of `bcEncoding`, an encoding with the padding character `=`:
four characters for every three bytes, and a padded quantum for a remainder of
one or two bytes. -/
def Encode : GoString → GoString
  | [] => []
  | [a] => [enc (a.val / 4), enc (a.val % 4 * 16), 0x3D, 0x3D]
  | [a, b] => [enc (a.val / 4), enc (a.val % 4 * 16 + b.val / 16), enc (b.val % 16 * 4), 0x3D]
  | a :: b :: c :: rest =>
    enc (a.val / 4) :: enc (a.val % 4 * 16 + b.val / 16)
      :: enc (b.val % 16 * 4 + c.val / 64) :: enc (c.val % 64) :: Encode rest

/-- The loops of `decodeQuantum` that skip over newlines. -/
def skipNewlines : GoString → GoString
  | [] => []
  | c :: cs => if c.val = 0x0A ∨ c.val = 0x0D then skipNewlines cs else c :: cs

/-- Method `Decode` of `bcEncoding` (not strict, with padding), as the loop over
`decodeQuantum`: `dbuf` holds the six-bit values of the quantum that is being
read, and `none` stands for a `CorruptInputError`.  A quantum is four characters
of the alphabet, or, as the last one, two of them and `==` or three of them and
`=`; newlines are skipped, and nothing but newlines may follow the padding. -/
def decodeLoop : List Nat → GoString → Option GoString
  | dbuf, [] => if dbuf = [] then some [] else none
  | dbuf, ch :: rest =>
    match decodeMap ch with
    | some v =>
      match dbuf with
      | [a, b, c] =>
        (decodeLoop [] rest).map fun t =>
          byte (a * 4 + b / 16) :: byte (b % 16 * 16 + c / 4) :: byte (c % 4 * 64 + v) :: t
      | _ => decodeLoop (dbuf ++ [v]) rest
    | none =>
      if ch.val = 0x0A ∨ ch.val = 0x0D then decodeLoop dbuf rest
      else if ch.val ≠ 0x3D then none
      else
        match dbuf with
        | [a, b] =>
          match skipNewlines rest with
          | [] => none
          | pad :: rest =>
            if pad.val ≠ 0x3D then none
            else if skipNewlines rest ≠ [] then none
            else some [byte (a * 4 + b / 16)]
        | [a, b, c] =>
          if skipNewlines rest ≠ [] then none
          else some [byte (a * 4 + b / 16), byte (b % 16 * 16 + c / 4)]
        | _ => none

/-- Function `base64Encode` of `base64.go`: the encoding without its trailing
`=`.  (The source panics on an empty `src`; its callers pass none.) -/
def base64Encode (src : GoString) : GoString :=
  ((Encode src).reverse.dropWhile fun ch => decide (ch.val = 0x3D)).reverse

/-- Function `base64Decode` of `base64.go`: `4 - len(src) % 4` characters `=` are
appended before decoding. -/
def base64Decode (src : GoString) : Except GoError GoString :=
  let numOfEquals := 4 - src.length % 4
  let src := src ++ List.replicate numOfEquals 0x3D
  match decodeLoop [] src with
  | none => .error CorruptInputError
  | some dst => .ok dst

/-- Type `hashed`. -/
structure hashed where
  /-- Field `hash`. -/
  hash : GoString
  /-- Field `salt`: the salt in its encoded form. -/
  salt : GoString
  /-- Field `cost`. -/
  cost : Int
  /-- Field `major`. -/
  major : Byte
  /-- Field `minor`. -/
  minor : Byte
  deriving DecidableEq

/-- Variable `magicCipherData`: the text `OrpheanBeholderScryDoubt`. -/
def magicCipherData : GoString := str "OrpheanBeholderScryDoubt"

/-- Function `checkCost`. -/
def checkCost (cost : Int) : Option GoError :=
  if cost < MinCost ∨ cost > MaxCost then some (InvalidCostError cost) else none

/-- The loop `for i = 0; i < rounds; i++` of `expensiveBlowfishSetup`, with
`rounds` turns left. -/
def expandRounds (ckey csalt : GoString) : Nat → blowfish.Cipher → blowfish.Cipher
  | 0, c => c
  | rounds + 1, c =>
    expandRounds ckey csalt rounds (blowfish.ExpandKey csalt (blowfish.ExpandKey ckey c))

/-- Function `expensiveBlowfishSetup`; `cost` is a `uint32`.  The key is the
password followed by a zero byte. -/
def expensiveBlowfishSetup (key : GoString) (cost : Nat) (salt : GoString) :
    Except GoError blowfish.Cipher :=
  match base64Decode salt with
  | .error err => .error err
  | .ok csalt =>
    let ckey := key ++ [0]
    match blowfish.NewSaltedCipher ckey csalt with
    | .error err => .error err
    | .ok c =>
      let rounds := (1 <<< cost) % 2 ^ 64
      .ok (expandRounds ckey csalt rounds c)

/-- The loop `for j := 0; j < 64; j++` of `bcrypt`, with `n` turns left: the
block of eight bytes is encrypted in place. -/
def encryptRepeated (c : blowfish.Cipher) : Nat → GoString → GoString
  | 0, block => block
  | n + 1, block => encryptRepeated c n (blowfish.Encrypt c block)

/-- The body of the loop `for i := 0; i < 24; i += 8` of `bcrypt`: the block
`cipherData[i:i+8]` is encrypted 64 times in place. -/
def encryptAt (c : blowfish.Cipher) (cipherData : GoString) (i : Nat) : GoString :=
  cipherData.take i ++ encryptRepeated c 64 ((cipherData.drop i).take 8)
    ++ cipherData.drop (i + 8)

set_option linter.dupNamespace false in
/-- Function `bcrypt`: the encoded first 23 bytes of the encrypted magic text. -/
def bcrypt (password : GoString) (cost : Int) (salt : GoString) : Except GoError GoString :=
  let cipherData := magicCipherData
  match expensiveBlowfishSetup password (cost % 2 ^ 32).toNat salt with
  | .error err => .error err
  | .ok c =>
    let cipherData := encryptAt c cipherData 0
    let cipherData := encryptAt c cipherData 8
    let cipherData := encryptAt c cipherData 16
    let hsh := base64Encode (cipherData.take maxCryptedHashSize)
    .ok hsh

/-- The verb `%02d` of `fmt`: the decimal digits of `n`, padded with zeros to a
width of two, the sign included. -/
def formatCost (n : Int) : GoString :=
  let digits := strconv.FormatInt n.natAbs
  if n < 0 then byte 0x2D :: (List.replicate (1 - digits.length) 0x30 ++ digits)
  else List.replicate (2 - digits.length) 0x30 ++ digits

/-- The statement `copy(arr[n:], src)`. -/
def copyAt (arr : GoString) (n : Nat) (src : GoString) : GoString :=
  arr.take n ++ src.take (arr.length - n) ++ arr.drop (n + src.length)

/-- Method `hashed.Hash`: the text `$2a$cost$` followed by the salt and the hash,
written into an array of 60 bytes. -/
def hashed.Hash (p : hashed) : GoString :=
  let arr : GoString := List.replicate 60 0
  let arr := arr.set 0 0x24
  let arr := arr.set 1 p.major
  let n := 2
  let (arr, n) := if p.minor ≠ 0 then (arr.set 2 p.minor, 3) else (arr, n)
  let arr := arr.set n 0x24
  let n := n + 1
  let arr := copyAt arr n (formatCost p.cost)
  let n := n + 2
  let arr := arr.set n 0x24
  let n := n + 1
  let arr := copyAt arr n p.salt
  let n := n + encodedSaltSize
  let arr := copyAt arr n p.hash
  let n := n + encodedHashSize
  arr.take n

/-- Method `hashed.decodeVersion`: the version bytes of `sbytes` and the number
of bytes read. -/
def decodeVersion (sbytes : GoString) : Except GoError (Byte × Byte × Nat) :=
  if (sbytes.getD 0 0).val ≠ 0x24 then .error (InvalidHashPrefixError (sbytes.getD 0 0))
  else if (sbytes.getD 1 0).val > majorVersion.val then
    .error (HashVersionTooNewError (sbytes.getD 1 0))
  else
    let major := sbytes.getD 1 0
    if (sbytes.getD 2 0).val ≠ 0x24 then .ok (major, sbytes.getD 2 0, 4)
    else .ok (major, 0, 3)

/-- Method `hashed.decodeCost`: the cost of `sbytes` and the number of bytes
read. -/
def decodeCost (sbytes : GoString) : Except GoError (Int × Nat) :=
  match strconv.Atoi (sbytes.take 2) with
  | .error err => .error err
  | .ok cost =>
    match checkCost cost with
    | some err => .error err
    | none => .ok (cost, 3)

/-- Function `newFromHash`. -/
def newFromHash (hashedSecret : GoString) : Except GoError hashed :=
  if hashedSecret.length < minHashSize then .error ErrHashTooShort
  else
    match decodeVersion hashedSecret with
    | .error err => .error err
    | .ok (major, minor, n) =>
      let hashedSecret := hashedSecret.drop n
      match decodeCost hashedSecret with
      | .error err => .error err
      | .ok (cost, n) =>
        let hashedSecret := hashedSecret.drop n
        let salt := hashedSecret.take encodedSaltSize
        let hashedSecret := hashedSecret.drop encodedSaltSize
        .ok { hash := hashedSecret, salt := salt, cost := cost, major := major, minor := minor }

/-- Function `newFromPassword`; `reader` is the random source, from which
`io.ReadFull(rand.Reader, unencodedSalt)` fills the buffer of `maxSaltSize`
bytes. -/
def newFromPassword (password : GoString) (cost : Int) (reader : rand.Reader) :
    Except GoError hashed :=
  let cost := if cost < MinCost then DefaultCost else cost
  match checkCost cost with
  | some err => .error err
  | none =>
    let unencodedSalt : GoString := List.replicate maxSaltSize 0
    match rand.Read reader unencodedSalt with
    | (_, some err) => .error err
    | (unencodedSalt, none) =>
      let salt := base64Encode unencodedSalt
      match bcrypt password cost salt with
      | .error err => .error err
      | .ok hash =>
        .ok { hash := hash, salt := salt, cost := cost, major := majorVersion,
              minor := minorVersion }

/-- Function `GenerateFromPassword`; `reader` is the random source. -/
def GenerateFromPassword (password : GoString) (cost : Int) (reader : rand.Reader) :
    Except GoError GoString :=
  if password.length > 72 then .error ErrPasswordTooLong
  else
    match newFromPassword password cost reader with
    | .error err => .error err
    | .ok p => .ok p.Hash

/-- Function `CompareHashAndPassword`. -/
def CompareHashAndPassword (hashedPassword password : GoString) : Option GoError :=
  match newFromHash hashedPassword with
  | .error err => some err
  | .ok p =>
    match bcrypt password p.cost p.salt with
    | .error err => some err
    | .ok otherHash =>
      let otherP : hashed :=
        { hash := otherHash, salt := p.salt, cost := p.cost, major := p.major, minor := p.minor }
      if subtle.ConstantTimeCompare p.Hash otherP.Hash = 1 then none
      else some ErrMismatchedHashAndPassword

end bcrypt

/-! ## Package `net/http`: headers -/

/-- Type `http.Header`: the values of each header, keyed by canonical name. -/
abbrev Header := List (GoString × List GoString)

/-- Method `Header.Get` for a key in canonical form: the first value of the
header, `""` when there is none. -/
def Header.Get (h : Header) (key : GoString) : GoString :=
  match h.lookup key with
  | some (v :: _) => v
  | _ => []

/-! ## Package `internal/auth` (`auth.go`) -/

namespace auth

/-- Function `HashPassword` of `auth.go`; `reader` is the random source, from
which the library reads the salt. -/
def HashPassword (password : GoString) (reader : rand.Reader) : Except GoError GoString :=
  match bcrypt.GenerateFromPassword password 0 reader with
  | .error err => .error err
  | .ok hashed => .ok hashed

/-- Function `CheckPasswordHash` of `auth.go`. -/
def CheckPasswordHash (password hash : GoString) : Option GoError :=
  let err := bcrypt.CompareHashAndPassword hash password
  err

/-- Function `MakeJWT` of `auth.go`.  The two calls of `time.Now()` are the
arguments `nowIat` (for the claim `iat`) and `nowExp` (for the claim `exp`). -/
def MakeJWT (userID : UUID) (tokenSecret : GoString) (nowIat nowExp : Time) :
    Except GoError GoString :=
  let claims : jwt.RegisteredClaims := {
    Issuer := str "chirpy"
    IssuedAt := some (jwt.NewNumericDate nowIat)
    ExpiresAt := some (jwt.NewNumericDate (time.Add nowExp (time.Hour * 1)))
    Subject := uuid.String userID }
  match jwt.SignedString claims tokenSecret with
  | .error err => .error err
  | .ok signed => .ok signed

/-- Function `ValidateJWT` of `auth.go`; `now` is the clock reading of the
validator of the token library. -/
def ValidateJWT (tokenString tokenSecret : GoString) (now : Time) : Except GoError UUID :=
  match jwt.ParseWithClaims tokenString (fun _ => .ok tokenSecret) now with
  | .error err => .error err
  | .ok token =>
    let val := token.Claims.Subject
    match uuid.Parse val with
    | .error err => .error err
    | .ok res => .ok res

/-- Function `GetBearerToken` of `auth.go`. -/
def GetBearerToken (headers : Header) : Except GoError GoString :=
  let s := headers.Get (str "Authorization")
  let token := strings.TrimSpace (strings.Replace s (str "Bearer") (str "") 1)
  if token = str "" then .error (.msg (str "Token not provided"))
  else .ok token

/-- Function `GetApiKey` of `auth.go`. -/
def GetApiKey (header : Header) : Except GoError GoString :=
  let s := header.Get (str "Authorization")
  let key := strings.TrimSpace (strings.Replace s (str "ApiKey") (str "") 1)
  if key = str "" then .error (.msg (str "Key not found"))
  else .ok key

/-- Function `MakeRefreshToken` of `auth.go`; `reader` is the random source, from
which `rand.Read` fills the buffer of 32 bytes. -/
def MakeRefreshToken (reader : rand.Reader) : Except GoError GoString :=
  let random : GoString := List.replicate 32 0
  match rand.Read reader random with
  | (_, some err) => .error err
  | (random, none) => .ok (hex.EncodeToString random)

end auth

/-! ## Package `internal/database` and the request model -/

/-- A `time.Time` read from the store, by what the handlers observe of it: its
instant, the result of its method `MarshalJSON` and the result of its method
`String`. -/
structure StoredTime where
  /-- The instant. -/
  instant : Time
  /-- The result of `MarshalJSON`. -/
  MarshalJSON : Except GoError GoString
  /-- The result of `String`. -/
  String : GoString
  deriving DecidableEq

/-- Type `sql.NullTime`. -/
structure NullTime where
  /-- Field `Time`. -/
  Time : StoredTime
  /-- Field `Valid`: the column is not NULL. -/
  Valid : Bool
  deriving DecidableEq

/-- Type `sql.NullBool`. -/
structure NullBool where
  /-- Field `Valid`: the column is not NULL. -/
  Valid : Bool
  /-- Field `Bool`. -/
  Bool : Bool
  deriving DecidableEq

namespace database

/-- Modelled from the spec: the type `database.Chirp` of the package
`internal/database`, which is not among the sources; its fields are those the
handlers read. -/
structure Chirp where
  /-- Field `ID`. -/
  ID : UUID
  /-- Field `CreatedAt`. -/
  CreatedAt : StoredTime
  /-- Field `UpdatedAt`. -/
  UpdatedAt : StoredTime
  /-- Field `Body`. -/
  Body : GoString
  /-- Field `UserID`: the identity of the creator. -/
  UserID : UUID
  deriving DecidableEq

/-- Modelled from the spec: the type `database.User` of the package
`internal/database`, which is not among the sources. -/
structure User where
  /-- Field `ID`. -/
  ID : UUID
  /-- Field `CreatedAt`. -/
  CreatedAt : StoredTime
  /-- Field `UpdatedAt`. -/
  UpdatedAt : StoredTime
  /-- Field `Email`. -/
  Email : GoString
  /-- Field `HashedPassword`. -/
  HashedPassword : GoString
  /-- Field `IsChirpyRed`. -/
  IsChirpyRed : NullBool
  deriving DecidableEq

/-- Modelled from the spec: the type `database.RefreshToken` of the package
`internal/database`, which is not among the sources: the token, its owning
identity, its expiry time and its optional revocation time. -/
structure RefreshToken where
  /-- Field `Token`. -/
  Token : GoString
  /-- Field `CreatedAt`. -/
  CreatedAt : StoredTime
  /-- Field `UpdatedAt`. -/
  UpdatedAt : StoredTime
  /-- Field `UserID`. -/
  UserID : UUID
  /-- Field `ExpiresAt`. -/
  ExpiresAt : StoredTime
  /-- Field `RevokedAt`. -/
  RevokedAt : NullTime
  deriving DecidableEq

/-- Type `database.CreateChirpParams`. -/
structure CreateChirpParams where
  /-- Field `Body`. -/
  Body : GoString
  /-- Field `UserID`. -/
  UserID : UUID

/-- Type `database.CreateUserParams`. -/
structure CreateUserParams where
  /-- Field `Email`. -/
  Email : GoString
  /-- Field `HashedPassword`. -/
  HashedPassword : GoString

/-- Type `database.CreateRefreshTokenParams`. -/
structure CreateRefreshTokenParams where
  /-- Field `Token`. -/
  Token : GoString
  /-- Field `UserID`. -/
  UserID : UUID

/-- Type `database.UpdateUserEmailAndPasswordByIdParams`. -/
structure UpdateUserEmailAndPasswordByIdParams where
  /-- Field `ID`. -/
  ID : UUID
  /-- Field `Email`. -/
  Email : GoString
  /-- Field `HashedPassword`. -/
  HashedPassword : GoString

/-- Modelled from the spec: the queries of the package `internal/database`
(type `database.Queries`), which is not among the sources.  The handlers are
stated for every store: `σ` is the type of its states, a query that reads takes
the state, and a query that writes also returns the next state.  A query
returns a Go error or its result; `CreateChirp` returns both, because its
caller goes on to use the row after an error. -/
structure Queries (σ : Type) where
  /-- Query `CreateChirp`. -/
  CreateChirp : σ → CreateChirpParams → (Chirp × Option GoError) × σ
  /-- Query `GetAllChirps`. -/
  GetAllChirps : σ → Except GoError (List Chirp)
  /-- Query `GetAllChirpsByAuthorId`. -/
  GetAllChirpsByAuthorId : σ → UUID → Except GoError (List Chirp)
  /-- Query `GetChirpById`. -/
  GetChirpById : σ → UUID → Except GoError Chirp
  /-- Query `DeleteChirpById`. -/
  DeleteChirpById : σ → UUID → Option GoError × σ
  /-- Query `CreateUser`. -/
  CreateUser : σ → CreateUserParams → Except GoError User × σ
  /-- Query `GetUserByEmail`. -/
  GetUserByEmail : σ → GoString → Except GoError User
  /-- Query `UpdateUserEmailAndPasswordById`. -/
  UpdateUserEmailAndPasswordById : σ → UpdateUserEmailAndPasswordByIdParams →
    Except GoError User × σ
  /-- Query `UpgradeUserById`. -/
  UpgradeUserById : σ → UUID → Except GoError User × σ
  /-- Query `DeleteAllUsers`. -/
  DeleteAllUsers : σ → Option GoError × σ
  /-- Query `CreateRefreshToken`. -/
  CreateRefreshToken : σ → CreateRefreshTokenParams → Except GoError RefreshToken × σ
  /-- Query `GetRefreshTokenByToken`. -/
  GetRefreshTokenByToken : σ → GoString → Except GoError RefreshToken
  /-- Query `RefreshTokenByToken`. -/
  RefreshTokenByToken : σ → GoString → Option GoError × σ
  /-- Query `RevokeRefreshTokenByToken`. -/
  RevokeRefreshTokenByToken : σ → GoString → Option GoError × σ

end database

namespace api

/-- Type `config` of `api.go`, without the hit counter of the file server, which
no handler below reads. -/
structure config (σ : Type) where
  /-- Field `Db`. -/
  Db : database.Queries σ
  /-- Field `Platform`. -/
  Platform : GoString
  /-- Field `Secret`. -/
  Secret : GoString
  /-- Field `PolkaKey`. -/
  PolkaKey : GoString

/-- The body parameters of the webhook: `event` and `data.user_id`. -/
structure WebhookParameters where
  /-- Field `Event`. -/
  Event : GoString
  /-- Field `Data.UserId`. -/
  UserId : GoString

/-- The body parameters of the user handlers: `email` and `password`. -/
structure UserParameters where
  /-- Field `Email`. -/
  Email : GoString
  /-- Field `Password`. -/
  Password : GoString

/-- A `*http.Request`, by what the handlers observe of it: its headers, its path
values, its query values, and the result of decoding its JSON body into the
parameters struct of each handler. -/
structure Request where
  /-- Field `Header`. -/
  Header : Header
  /-- Method `PathValue`. -/
  PathValue : GoString → GoString
  /-- Method `URL.Query().Get`. -/
  Query : GoString → GoString
  /-- The result of `Decode` into `parameters` of `handlerCreateChirp`: the field
  `Body`. -/
  decodeChirp : Except GoError GoString
  /-- The result of `Decode` into `parameters` of the user handlers. -/
  decodeUser : Except GoError UserParameters
  /-- The result of `Decode` into `parameters` of the webhook handler. -/
  decodeWebhook : Except GoError WebhookParameters

/-- One call on an `http.ResponseWriter`. -/
inductive Call where
  /-- The call `rw.Header().Set(key, value)`. -/
  | HeaderSet (key value : GoString)
  /-- The call `rw.WriteHeader(code)`. -/
  | WriteHeader (code : Nat)
  /-- The call `rw.Write(data)`. -/
  | Write (data : GoString)
  deriving DecidableEq

/-- An `http.ResponseWriter`: the calls made on it, the first one first. -/
abbrev ResponseWriter := List Call

/-- The status code that the client receives: the code of the first
`WriteHeader`, or 200 when a `Write` comes first; `none` when neither was
called. -/
def status : ResponseWriter → Option Nat
  | [] => none
  | .WriteHeader code :: _ => some code
  | .Write _ :: _ => some 200
  | .HeaderSet _ _ :: rest => status rest

/-- The data that the handler has passed to `Write`. -/
def written : ResponseWriter → GoString
  | [] => []
  | .Write data :: rest => data ++ written rest
  | _ :: rest => written rest

/-- The number of calls of `WriteHeader`. -/
def writeHeaderCalls (rw : ResponseWriter) : Nat :=
  (rw.filter fun c => match c with
    | .WriteHeader _ => true
    | _ => false).length

/-- Type `ChirpJSON` of `handler-chirps.go`. -/
structure ChirpJSON where
  /-- Field `Id`. -/
  Id : UUID
  /-- Field `CreatedAt`. -/
  CreatedAt : StoredTime
  /-- Field `UpdatedAt`. -/
  UpdatedAt : StoredTime
  /-- Field `Body`. -/
  Body : GoString
  /-- Field `UserId`. -/
  UserId : UUID

/-- The payloads that the handlers pass to `respondWithJSON`. -/
inductive Payload where
  /-- A `ChirpJSON`. -/
  | chirp (c : ChirpJSON)
  /-- A slice of `ChirpJSON`. -/
  | chirps (cs : List ChirpJSON)
  /-- The `jsonBody` of `handlerRefreshToken`: the field `Token`. -/
  | token (Token : GoString)
  /-- The `responseBody` of `handlerUpdateUser`. -/
  | user (Id : UUID) (Email : GoString) (IsChirpyRed : Bool)
  /-- The `userJson` of `handlerLogin`. -/
  | session (Id CreatedAt UpdatedAt Email Token RefreshToken : GoString) (IsChirpyRed : Bool)

/-- Function `json.Marshal` on a `ChirpJSON`; it fails when a time stamp does. -/
def marshalChirp (c : ChirpJSON) : Except GoError GoString :=
  match c.CreatedAt.MarshalJSON with
  | .error e => .error e
  | .ok created =>
    match c.UpdatedAt.MarshalJSON with
    | .error e => .error e
    | .ok updated =>
      .ok (str "\x7b\"id\":" ++ json.encodeString (uuid.String c.Id)
        ++ str ",\"created_at\":" ++ created ++ str ",\"updated_at\":" ++ updated
        ++ str ",\"body\":" ++ json.encodeString c.Body
        ++ str ",\"user_id\":" ++ json.encodeString (uuid.String c.UserId) ++ str "\x7d")

/-- Function `json.Marshal` on the elements of a slice of `ChirpJSON`. -/
def marshalChirps : List ChirpJSON → Except GoError (List GoString)
  | [] => .ok []
  | c :: cs =>
    match marshalChirp c with
    | .error e => .error e
    | .ok d =>
      match marshalChirps cs with
      | .error e => .error e
      | .ok ds => .ok (d :: ds)

/-- Function `cleanChirp` of `api.go`. -/
def cleanChirp (text : GoString) : GoString × Option GoError :=
  let profane := [str "kerfuffle", str "sharbert", str "fornax"]
  let words := strings.Split text (str " ")
  let words := words.map fun word =>
    if profane.contains (strings.ToLower word) then str "****" else word
  (strings.Join words (str " "), none)

/-- Function `marshalError` of `api.go`: `json.Marshal` on a struct with the one
string field `error`, which does not fail. -/
def marshalError (message : GoString) : Except GoError GoString :=
  .ok (str "\x7b\"error\":" ++ json.encodeString message ++ str "\x7d")

/-- Function `isValidChirp` of `api.go`. -/
def isValidChirp (text : GoString) : Bool :=
  if text.length > 140 then false else true

/-- Function `respondWithError` of `api.go`. -/
def respondWithError (rw : ResponseWriter) (code : Nat) (msg : GoString) : ResponseWriter :=
  let rw := rw ++ [.WriteHeader code]
  let rw := rw ++ [.HeaderSet (str "Content-Type") (str "application/json")]
  match marshalError msg with
  | .error _ => rw
  | .ok data => rw ++ [.Write data]

/-- Function `marshallJSON` of `api.go`: `json.Marshal` on the payload. -/
def marshallJSON (payload : Payload) : Except GoError GoString :=
  match payload with
  | .chirp c => marshalChirp c
  | .chirps cs =>
    match marshalChirps cs with
    | .error e => .error e
    | .ok ds => .ok (str "[" ++ (str ",").intercalate ds ++ str "]")
  | .token t => .ok (str "\x7b\"token\":" ++ json.encodeString t ++ str "\x7d")
  | .user id email red =>
    .ok (str "\x7b\"id\":" ++ json.encodeString (uuid.String id)
      ++ str ",\"email\":" ++ json.encodeString email
      ++ str ",\"is_chirpy_red\":" ++ (if red then str "true" else str "false") ++ str "\x7d")
  | .session id created updated email token refreshToken red =>
    .ok (str "\x7b\"id\":" ++ json.encodeString id
      ++ str ",\"created_at\":" ++ json.encodeString created
      ++ str ",\"updated_at\":" ++ json.encodeString updated
      ++ str ",\"email\":" ++ json.encodeString email
      ++ str ",\"token\":" ++ json.encodeString token
      ++ str ",\"refresh_token\":" ++ json.encodeString refreshToken
      ++ str ",\"is_chirpy_red\":" ++ (if red then str "true" else str "false") ++ str "\x7d")

/-- Function `respondWithJSON` of `api.go`. -/
def respondWithJSON (rw : ResponseWriter) (code : Nat) (payload : Payload) : ResponseWriter :=
  let rw := rw ++ [.HeaderSet (str "Content-Type") (str "application/json")]
  match marshallJSON payload with
  | .error _ => rw ++ [.WriteHeader 500]
  | .ok data => rw ++ [.WriteHeader code] ++ [.Write data]

/-- Function `handlerCreateChirp` of `handler-chirps.go`; `now` is the clock
reading of `ValidateJWT`.  After a failure of `CreateChirp` the error response
is written and the function goes on to `respondWithJSON`: there is no
`return`. -/
def handlerCreateChirp {σ : Type} (cfg : config σ) (db : σ) (rw : ResponseWriter)
    (req : Request) (now : Time) : ResponseWriter × σ :=
  let rw := rw ++ [.HeaderSet (str "Content-Type") (str "application/json")]
  match req.decodeChirp with
  | .error _ => (respondWithError rw 400 (str "Something went wrong"), db)
  | .ok body =>
    if !(isValidChirp body) then (respondWithError rw 400 (str "Chirp is too long"), db)
    else
      let cleanedBody := (cleanChirp body).1
      match auth.GetBearerToken req.Header with
      | .error _ => (respondWithError rw 401 (str "Unauthorized"), db)
      | .ok token =>
        match auth.ValidateJWT token cfg.Secret now with
        | .error _ => (respondWithError rw 401 (str "Unauthorized"), db)
        | .ok jwtUUID =>
          let ((chirp, err), db) := cfg.Db.CreateChirp db { Body := cleanedBody, UserID := jwtUUID }
          let rw := match err with
            | some err => respondWithError rw 500 err.Error
            | none => rw
          (respondWithJSON rw 201 (.chirp {
            Id := chirp.ID
            CreatedAt := chirp.CreatedAt
            UpdatedAt := chirp.UpdatedAt
            Body := chirp.Body
            UserId := chirp.UserID }), db)

/-- Function `handlerDeleteChirp` of `handler-chirps.go`; `now` is the clock
reading of `ValidateJWT`. -/
def handlerDeleteChirp {σ : Type} (cfg : config σ) (db : σ) (rw : ResponseWriter)
    (req : Request) (now : Time) : ResponseWriter × σ :=
  match auth.GetBearerToken req.Header with
  | .error _ => (respondWithError rw 401 (str "Unauthorized"), db)
  | .ok jwtToken =>
    let chirpId := req.PathValue (str "chirpId")
    if chirpId = str "" then (respondWithError rw 404 (str "Chirp not found"), db)
    else
      match uuid.Parse chirpId with
      | .error _ => (respondWithError rw 500 (str "Invalid chirp"), db)
      | .ok chirpUUID =>
        match cfg.Db.GetChirpById db chirpUUID with
        | .error _ => (respondWithError rw 404 (str "Chirp not found"), db)
        | .ok chirp =>
          match auth.ValidateJWT jwtToken cfg.Secret now with
          | .error _ => (respondWithError rw 403 (str "Unauthorized"), db)
          | .ok userId =>
            if userId ≠ chirp.UserID then (respondWithError rw 403 (str "Unauthorized"), db)
            else
              match cfg.Db.DeleteChirpById db chirpUUID with
              | (some err, db) => (respondWithError rw 500 err.Error, db)
              | (none, db) => (rw ++ [.WriteHeader 204], db)

/-- Function `handlerUpdateUser` of `api.go`; `now` is the clock reading of
`ValidateJWT`, and `hashPassword` is the function `auth.HashPassword`. -/
def handlerUpdateUser {σ : Type} (cfg : config σ)
    (hashPassword : GoString → Except GoError GoString) (db : σ) (rw : ResponseWriter)
    (req : Request) (now : Time) : ResponseWriter × σ :=
  match auth.GetBearerToken req.Header with
  | .error _ => (respondWithError rw 401 (str "Invalid token"), db)
  | .ok token =>
    match auth.ValidateJWT token cfg.Secret now with
    | .error _ => (respondWithError rw 401 (str "Invalid token"), db)
    | .ok userUUID =>
      match req.decodeUser with
      | .error _ => (respondWithError rw 500 (str "Could not decode request body."), db)
      | .ok params =>
        match hashPassword params.Password with
        | .error _ => (respondWithError rw 500 (str "Password could not be hashed"), db)
        | .ok hashedPassword =>
          match cfg.Db.UpdateUserEmailAndPasswordById db
              { ID := userUUID, Email := params.Email, HashedPassword := hashedPassword } with
          | (.error err, db) => (respondWithError rw 500 err.Error, db)
          | (.ok user, db) =>
            (respondWithJSON rw 200 (.user user.ID user.Email user.IsChirpyRed.Bool), db)

/-- Function `handlerUserUpgradeWebhook` of `api.go`. -/
def handlerUserUpgradeWebhook {σ : Type} (cfg : config σ) (db : σ) (rw : ResponseWriter)
    (req : Request) : ResponseWriter × σ :=
  match auth.GetApiKey req.Header with
  | .error err => (respondWithError rw 401 err.Error, db)
  | .ok key =>
    if key ≠ cfg.PolkaKey then (respondWithError rw 401 (str "Unauthorized"), db)
    else
      match req.decodeWebhook with
      | .error _ => (respondWithError rw 500 (str "Could not decode request body"), db)
      | .ok params =>
        if params.Event ≠ str "user.upgraded" then
          (respondWithError rw 204 (str "Bad event"), db)
        else
          match uuid.Parse params.UserId with
          | .error _ => (respondWithError rw 500 (str "Could not parse user id"), db)
          | .ok parsedId =>
            match cfg.Db.UpgradeUserById db parsedId with
            | (.error err, db) => (respondWithError rw 404 err.Error, db)
            | (.ok _, db) => (rw ++ [.WriteHeader 204], db)

/-- What a run of a handler that can mint a session token leaves behind: the
calls on the response writer, the state of the store, and the session token that
its call of `MakeJWT` has returned, when the run has reached that call. -/
structure Minting (σ : Type) where
  /-- The calls on the response writer. -/
  rw : ResponseWriter
  /-- The state of the store. -/
  db : σ
  /-- The session token minted by `MakeJWT`, if any. -/
  minted : Option GoString

/-- Function `handlerRefreshToken` of `api.go`; `now` is the clock reading of
`time.Until`, and `nowIat`, `nowExp` are the clock readings of `MakeJWT`. -/
def handlerRefreshToken {σ : Type} (cfg : config σ) (db : σ) (rw : ResponseWriter)
    (req : Request) (now nowIat nowExp : Time) : Minting σ :=
  match auth.GetBearerToken req.Header with
  | .error _ => ⟨respondWithError rw 401 (str "Missing token"), db, none⟩
  | .ok refreshToken =>
    match cfg.Db.GetRefreshTokenByToken db refreshToken with
    | .error _ => ⟨respondWithError rw 401 (str "Missing token"), db, none⟩
    | .ok dbRefreshToken =>
      if dbRefreshToken.RevokedAt.Valid = true
          ∨ time.Until now dbRefreshToken.ExpiresAt.instant ≤ 0 then
        ⟨respondWithError rw 401 (str "Missing token"), db, none⟩
      else
        match auth.MakeJWT dbRefreshToken.UserID cfg.Secret nowIat nowExp with
        | .error _ => ⟨respondWithError rw 500 (str "Could not generate JWT token"), db, none⟩
        | .ok jwtToken =>
          match cfg.Db.RefreshTokenByToken db refreshToken with
          | (some err, db) => ⟨respondWithError rw 500 err.Error, db, some jwtToken⟩
          | (none, db) => ⟨respondWithJSON rw 200 (.token jwtToken), db, some jwtToken⟩

/-- Function `handlerLogin` of `api.go`; `nowIat`, `nowExp` are the clock
readings of `MakeJWT`, and `reader` is the random source of
`MakeRefreshToken`. -/
def handlerLogin {σ : Type} (cfg : config σ) (db : σ) (rw : ResponseWriter)
    (req : Request) (nowIat nowExp : Time) (reader : rand.Reader) : Minting σ :=
  match req.decodeUser with
  | .error _ => ⟨respondWithError rw 500 (str "Failed to decode request"), db, none⟩
  | .ok params =>
    match cfg.Db.GetUserByEmail db params.Email with
    | .error _ => ⟨respondWithError rw 401 (str "Incorrect email or password"), db, none⟩
    | .ok user =>
      match auth.CheckPasswordHash params.Password user.HashedPassword with
      | some _ => ⟨respondWithError rw 401 (str "Incorrect email or password"), db, none⟩
      | none =>
        match auth.MakeJWT user.ID cfg.Secret nowIat nowExp with
        | .error err => ⟨respondWithError rw 500 err.Error, db, none⟩
        | .ok token =>
          match auth.MakeRefreshToken reader with
          | .error err => ⟨respondWithError rw 500 err.Error, db, some token⟩
          | .ok refreshToken =>
            match cfg.Db.CreateRefreshToken db { Token := refreshToken, UserID := user.ID } with
            | (.error err, db) => ⟨respondWithError rw 500 err.Error, db, some token⟩
            | (.ok _, db) =>
              ⟨respondWithJSON rw 200 (.session (uuid.String user.ID) user.CreatedAt.String
                user.UpdatedAt.String user.Email token refreshToken user.IsChirpyRed.Bool), db,
                some token⟩

/-- Function `handlerRevokeToken` of `api.go`. -/
def handlerRevokeToken {σ : Type} (cfg : config σ) (db : σ) (rw : ResponseWriter)
    (req : Request) : ResponseWriter × σ :=
  match auth.GetBearerToken req.Header with
  | .error _ => (respondWithError rw 401 (str "Token not found"), db)
  | .ok token =>
    match cfg.Db.RevokeRefreshTokenByToken db token with
    | (some err, db) => (respondWithError rw 500 err.Error, db)
    | (none, db) => (rw ++ [.WriteHeader 204], db)

/-- The end of `handlerGetAllChirps`, from `response := make([]ChirpJSON, 0)` on:
the chirps are copied into the response, which is reversed when the query value
`sort` is `desc`, and written with the status 200. -/
def respondWithChirps (rw : ResponseWriter) (req : Request) (chirps : List database.Chirp) :
    ResponseWriter :=
  let response : List ChirpJSON := chirps.map fun chirp => {
    Id := chirp.ID
    CreatedAt := chirp.CreatedAt
    UpdatedAt := chirp.UpdatedAt
    Body := chirp.Body
    UserId := chirp.UserID }
  let sorting := req.Query (str "sort")
  let response := if sorting = str "desc" then response.reverse else response
  respondWithJSON rw 200 (.chirps response)

/-- Function `handlerGetAllChirps` of `handler-chirps.go`; its queries only
read the store. -/
def handlerGetAllChirps {σ : Type} (cfg : config σ) (db : σ) (rw : ResponseWriter)
    (req : Request) : ResponseWriter :=
  let authorId := req.Query (str "author_id")
  if authorId = str "" then
    match cfg.Db.GetAllChirps db with
    | .error err => respondWithError rw 500 err.Error
    | .ok chirpsDB => respondWithChirps rw req chirpsDB
  else
    match uuid.Parse authorId with
    | .error err => respondWithError rw 500 err.Error
    | .ok authorUUID =>
      match cfg.Db.GetAllChirpsByAuthorId db authorUUID with
      | .error err => respondWithError rw 500 err.Error
      | .ok chirpsDB => respondWithChirps rw req chirpsDB

/-- Function `handlerGetChirp` of `handler-chirps.go`; its query only reads the
store. -/
def handlerGetChirp {σ : Type} (cfg : config σ) (db : σ) (rw : ResponseWriter)
    (req : Request) : ResponseWriter :=
  let chirpId := req.PathValue (str "chirpId")
  if chirpId = str "" then respondWithError rw 404 (str "Missing chirp id")
  else
    match uuid.Parse chirpId with
    | .error err => respondWithError rw 500 err.Error
    | .ok id =>
      match cfg.Db.GetChirpById db id with
      | .error err => respondWithError rw 404 err.Error
      | .ok chirp =>
        respondWithJSON rw 200 (.chirp {
          Id := chirp.ID
          CreatedAt := chirp.CreatedAt
          UpdatedAt := chirp.UpdatedAt
          Body := chirp.Body
          UserId := chirp.UserID })

end api

/-! ## An in-memory store -/

/-- The state of the in-memory store: its rows and its clock. -/
structure Store where
  /-- Table `chirps`. -/
  chirps : List database.Chirp := []
  /-- Table `users`. -/
  users : List database.User := []
  /-- Table `refresh_tokens`. -/
  refreshTokens : List database.RefreshToken := []
  /-- The clock of the store, for `NOW()`. -/
  now : Time := 0

/-- A time stamp of the in-memory store.  Its two text forms are stand-ins (the
decimal nanoseconds): the layouts of `time.Time` are not modelled. -/
def memoryTime (t : Time) : StoredTime :=
  { instant := t
    MarshalJSON := .ok (str "\"" ++ strconv.FormatInt t ++ str "\"")
    String := strconv.FormatInt t }

/-- The error `sql.ErrNoRows`. -/
def ErrNoRows : GoError := .msg (str "sql: no rows in result set")

/-- The identity that the in-memory store gives to its `n`-th row. -/
def rowID (n : Nat) : UUID :=
  ⟨[0, 0, 0, 0, 0, 0, 0, 0, 0, 0, 0, 0, 0, 0, 0, byte n], rfl⟩

/-- Modelled from the spec: an in-memory store with the contracts that section 6
of the specification asks of the user store, the refresh token store and the
resource store; the queries of the package `internal/database` are not among
the sources.  A refresh token is inserted with an expiry of sixty days and no
revocation time, is found by exact match, and is revoked by setting its
revocation time to the clock of the store. -/
def memoryStore : database.Queries Store where
  CreateChirp s arg :=
    let row : database.Chirp := {
      ID := rowID s.chirps.length
      CreatedAt := memoryTime s.now
      UpdatedAt := memoryTime s.now
      Body := arg.Body
      UserID := arg.UserID }
    ((row, none), { s with chirps := s.chirps ++ [row] })
  GetAllChirps s := .ok s.chirps
  GetAllChirpsByAuthorId s author := .ok (s.chirps.filter fun c => decide (c.UserID = author))
  GetChirpById s id :=
    match s.chirps.find? fun c => decide (c.ID = id) with
    | some c => .ok c
    | none => .error ErrNoRows
  DeleteChirpById s id :=
    (none, { s with chirps := s.chirps.filter fun c => decide (c.ID ≠ id) })
  CreateUser s arg :=
    let row : database.User := {
      ID := rowID s.users.length
      CreatedAt := memoryTime s.now
      UpdatedAt := memoryTime s.now
      Email := arg.Email
      HashedPassword := arg.HashedPassword
      IsChirpyRed := { Bool := false, Valid := true } }
    (.ok row, { s with users := s.users ++ [row] })
  GetUserByEmail s email :=
    match s.users.find? fun u => decide (u.Email = email) with
    | some u => .ok u
    | none => .error ErrNoRows
  UpdateUserEmailAndPasswordById s arg :=
    match s.users.find? fun u => decide (u.ID = arg.ID) with
    | none => (.error ErrNoRows, s)
    | some u =>
      let row : database.User := { u with
        Email := arg.Email
        HashedPassword := arg.HashedPassword
        UpdatedAt := memoryTime s.now }
      (.ok row, { s with users := s.users.map fun v => if v.ID = arg.ID then row else v })
  UpgradeUserById s id :=
    match s.users.find? fun u => decide (u.ID = id) with
    | none => (.error ErrNoRows, s)
    | some u =>
      let row : database.User := { u with
        IsChirpyRed := { Bool := true, Valid := true }
        UpdatedAt := memoryTime s.now }
      (.ok row, { s with users := s.users.map fun v => if v.ID = id then row else v })
  DeleteAllUsers s := (none, { s with users := [] })
  CreateRefreshToken s arg :=
    let row : database.RefreshToken := {
      Token := arg.Token
      CreatedAt := memoryTime s.now
      UpdatedAt := memoryTime s.now
      UserID := arg.UserID
      ExpiresAt := memoryTime (s.now + 60 * 24 * time.Hour)
      RevokedAt := { Time := memoryTime 0, Valid := false } }
    (.ok row, { s with refreshTokens := s.refreshTokens ++ [row] })
  GetRefreshTokenByToken s token :=
    match s.refreshTokens.find? fun t => decide (t.Token = token) with
    | some t => .ok t
    | none => .error ErrNoRows
  RefreshTokenByToken s token :=
    (none, { s with refreshTokens := s.refreshTokens.map fun t =>
      if t.Token = token then { t with UpdatedAt := memoryTime s.now } else t })
  RevokeRefreshTokenByToken s token :=
    (none, { s with refreshTokens := s.refreshTokens.map fun t =>
      if t.Token = token then
        { t with RevokedAt := { Time := memoryTime s.now, Valid := true },
                 UpdatedAt := memoryTime s.now }
      else t })

/-- A store that behaves as the in-memory store, except that the update of a
refresh token fails. -/
def failingRefreshStore : database.Queries Store :=
  { memoryStore with
    RefreshTokenByToken := fun s _ => (some (.msg (str "driver: bad connection")), s) }

/-- A configuration over the in-memory store. -/
def exampleConfig : api.config Store :=
  { Db := memoryStore, Platform := str "dev", Secret := str "secret", PolkaKey := str "f271c81ff7" }

/-- The configuration `exampleConfig` over the store whose refresh update
fails. -/
def failingConfig : api.config Store := { exampleConfig with Db := failingRefreshStore }

/-- A store state with one chirp, of identity `rowID 0` and owner `rowID 1`, and
one refresh token `abc` of the same owner, not revoked, that expires at the
instant 100. -/
def exampleDb : Store :=
  { chirps := [{ ID := rowID 0, CreatedAt := memoryTime 0, UpdatedAt := memoryTime 0,
                 Body := str "hello", UserID := rowID 1 }]
    refreshTokens := [{ Token := str "abc", CreatedAt := memoryTime 0, UpdatedAt := memoryTime 0,
                        UserID := rowID 1, ExpiresAt := memoryTime 100,
                        RevokedAt := { Time := memoryTime 0, Valid := false } }] }

/-- A request with the given Authorization header values, the given path value
`chirpId`, and a body that decodes to no parameters struct. -/
def exampleRequest (authorization : List GoString) (chirpId : GoString) : api.Request :=
  { Header := [(str "Authorization", authorization)]
    PathValue := fun name => if name = str "chirpId" then chirpId else []
    Query := fun _ => []
    decodeChirp := .error (.msg (str "EOF"))
    decodeUser := .error (.msg (str "EOF"))
    decodeWebhook := .error (.msg (str "EOF")) }

/-- The token that `MakeJWT` returns (it does not fail). -/
def sessionToken (userID : UUID) (tokenSecret : GoString) (nowIat nowExp : Time) : GoString :=
  match auth.MakeJWT userID tokenSecret nowIat nowExp with
  | .ok token => token
  | .error _ => []

/-- The zero value of `time.Time`, as a time stamp. -/
def zeroTime : StoredTime :=
  { instant := -62135596800 * time.Second
    MarshalJSON := .ok (str "\"0001-01-01T00:00:00Z\"")
    String := str "0001-01-01 00:00:00 +0000 UTC" }

/-- The zero value of `database.Chirp`, which a query returns with its error. -/
def zeroChirp : database.Chirp :=
  { ID := uuid.Nil, CreatedAt := zeroTime, UpdatedAt := zeroTime, Body := str "",
    UserID := uuid.Nil }

/-- A store that behaves as the in-memory store, except that its writes of
chirps and of refresh tokens fail with the error `err` and change nothing. -/
def brokenStore (err : GoError) : database.Queries Store :=
  { memoryStore with
    CreateChirp := fun s _ => ((zeroChirp, some err), s)
    CreateRefreshToken := fun s _ => (.error err, s)
    RefreshTokenByToken := fun s _ => (some err, s)
    RevokeRefreshTokenByToken := fun s _ => (some err, s) }

/-- The configuration `exampleConfig` over the store whose writes fail with
`err`. -/
def brokenConfig (err : GoError) : api.config Store :=
  { exampleConfig with Db := brokenStore err }

/-- The hash that `HashPassword` returns for a password of at most 72 bytes when
the random source delivers `bytes` (it does not fail). -/
def hashedPassword (password : GoString) (bytes : Nat → Byte) : GoString :=
  match auth.HashPassword password (.ok bytes) with
  | .ok hash => hash
  | .error _ => []

/-- A store state with one user, `ada@example.com` of identity `rowID 1`, whose
stored hash is that of the password `hunter2` under the all-zero salt, and the
refresh token `abc` of `exampleDb`. -/
def accountDb : Store :=
  { exampleDb with
    users := [{ ID := rowID 1, CreatedAt := memoryTime 0, UpdatedAt := memoryTime 0,
                Email := str "ada@example.com",
                HashedPassword := hashedPassword (str "hunter2") (fun _ => 0),
                IsChirpyRed := { Valid := true, Bool := false } }] }

/-- A store state with one user, `ada@example.com`, whose stored password hash
is not a bcrypt hash (the text `hunter2`), so that no password matches it. -/
def legacyDb : Store :=
  { users := [{ ID := rowID 1, CreatedAt := memoryTime 0, UpdatedAt := memoryTime 0,
                Email := str "ada@example.com", HashedPassword := str "hunter2",
                IsChirpyRed := { Valid := true, Bool := false } }] }

/-- A login request: a body that decodes to the given email and password. -/
def loginRequest (email password : GoString) : api.Request :=
  { exampleRequest [] [] with decodeUser := .ok { Email := email, Password := password } }

/-- A request to create a chirp: the given Authorization header values and a
body that decodes to the given text. -/
def chirpRequest (authorization : List GoString) (body : GoString) : api.Request :=
  { exampleRequest authorization [] with decodeChirp := .ok body }

/-! ## Specification-level definitions -/

/-- The words of the specification, "the value with only its first occurrence of
the literal removed": scan from the left, and drop the literal where it first
starts. -/
def removeFirstOccurrence (literal : GoString) : GoString → GoString
  | [] => []
  | c :: cs =>
    if literal <+: c :: cs then (c :: cs).drop literal.length
    else c :: removeFirstOccurrence literal cs

/-- A byte that `encoding/json` writes into a string as it is and reads back as it
is: printable ASCII other than the quote, the backslash and the three characters
that are escaped for HTML. -/
def plainByte (b : Byte) : Prop :=
  0x20 ≤ b.val ∧ b.val < 0x80 ∧ b.val ≠ 0x22 ∧ b.val ≠ 0x5C ∧ b.val ≠ 0x3C ∧ b.val ≠ 0x3E
    ∧ b.val ≠ 0x26

instance (b : Byte) : Decidable (plainByte b) := by
  unfold plainByte
  infer_instance

/-- The text `vt` is read as the JSON value `v` in front of a comma or a closing
brace. -/
def ValueText (vt : GoString) (v : json.Value) : Prop :=
  ∀ (c : Byte) (r : GoString), c.val = 0x2C ∨ c.val = 0x7D →
    json.skipSpace (vt ++ c :: r) = vt ++ c :: r
    ∧ json.scanValue (vt ++ c :: r) = some (v, c :: r)

/-- The claims that `MakeJWT` signs for the identity `userID`, with the issue
time `iat` and the expiry time `exp`. -/
def sessionClaims (userID : UUID) (iat exp : jwt.NumericDate) : jwt.RegisteredClaims :=
  { Issuer := str "chirpy"
    IssuedAt := some iat
    ExpiresAt := some exp
    Subject := uuid.String userID }

/-- The words that the first loop of `ExpandKey` reads from the key: `n` words
from the position `j` on, each of four bytes of the key read cyclically. -/
def keyWords (key : GoString) : Nat → Nat → List Nat
  | 0, _ => []
  | n + 1, j => (blowfish.getNextWord key j).1 :: keyWords key n (blowfish.getNextWord key j).2

/-! # Theorems -/

/-! ## Package `strings` -/

theorem hasPrefix_iff (s pre : GoString) : strings.HasPrefix s pre = true ↔ pre <+: s := by
  simp only [strings.HasPrefix, Bool.and_eq_true, decide_eq_true_eq]
  constructor
  · rintro ⟨_, h⟩
    rw [← h]
    exact List.take_prefix _ _
  · rintro ⟨t, rfl⟩
    simp

theorem index_none_iff (old s : GoString) (hold : old ≠ []) :
    strings.Index s old = none ↔ ¬ old <:+: s := by
  induction s with
  | nil => simp [strings.Index, hold]
  | cons c cs ih =>
    rw [strings.Index]
    by_cases hp : strings.HasPrefix (c :: cs) old = true
    · simp only [hp, if_true]
      simp only [reduceCtorEq, false_iff, not_not]
      exact ((hasPrefix_iff _ _).1 hp).isInfix
    · simp only [hp, Bool.false_eq_true, if_false, Option.map_eq_none', ih]
      rw [List.infix_cons_iff]
      have : ¬ old <+: c :: cs := fun h => hp ((hasPrefix_iff _ _).2 h)
      tauto

theorem removeFirstOccurrence_of_index_none (old s : GoString)
    (h : strings.Index s old = none) : removeFirstOccurrence old s = s := by
  induction s with
  | nil => rfl
  | cons c cs ih =>
    rw [strings.Index] at h
    by_cases hp : strings.HasPrefix (c :: cs) old = true
    · simp [hp] at h
    · simp only [hp, Bool.false_eq_true, if_false, Option.map_eq_none'] at h
      have : ¬ old <+: c :: cs := fun h => hp ((hasPrefix_iff _ _).2 h)
      rw [removeFirstOccurrence, if_neg this, ih h]

theorem removeFirstOccurrence_of_index_some (old s : GoString) (i : Nat)
    (h : strings.Index s old = some i) :
    removeFirstOccurrence old s = s.take i ++ s.drop (i + old.length) := by
  induction s generalizing i with
  | nil =>
    rw [strings.Index] at h
    split at h
    · simp [removeFirstOccurrence]
    · simp at h
  | cons c cs ih =>
    rw [strings.Index] at h
    by_cases hp : strings.HasPrefix (c :: cs) old = true
    · simp only [hp, if_true, Option.some.injEq] at h
      subst h
      rw [removeFirstOccurrence, if_pos ((hasPrefix_iff _ _).1 hp)]
      simp
    · simp only [hp, Bool.false_eq_true, if_false, Option.map_eq_some'] at h
      obtain ⟨j, hj, rfl⟩ := h
      have : ¬ old <+: c :: cs := fun h => hp ((hasPrefix_iff _ _).2 h)
      rw [removeFirstOccurrence, if_neg this, ih j hj]
      have e : j + 1 + old.length = (j + old.length) + 1 := by omega
      rw [e]
      simp

/-- The call `strings.Replace(s, old, "", 1)` removes the first occurrence of `old`, for
every `old` of two bytes or more. -/
theorem replace_one_eq_removeFirstOccurrence (s : GoString) (a b : Byte) (rest : GoString) :
    strings.Replace s (a :: b :: rest) [] 1 = removeFirstOccurrence (a :: b :: rest) s := by
  simp only [strings.Replace, reduceCtorEq, one_ne_zero, or_self, if_false, strings.Count]
  cases hidx : strings.Index s (a :: b :: rest) with
  | none =>
    simp [strings.countLoop, hidx, removeFirstOccurrence_of_index_none _ _ hidx]
  | some i =>
    have hm : strings.countLoop (a :: b :: rest) (s.length + 1) s 0 ≠ 0 := by
      simp only [strings.countLoop, hidx]
      generalize s.length = fuel
      generalize List.drop _ s = t
      have : ∀ fuel t n, n ≤ strings.countLoop (a :: b :: rest) fuel t n := by
        intro fuel
        induction fuel with
        | zero => intro t n; simp [strings.countLoop]
        | succ k ih =>
          intro t n
          rw [strings.countLoop]
          split
          · exact le_refl _
          · exact le_trans (Nat.le_succ n) (ih _ _)
      have := this fuel t (0 + 1)
      omega
    rw [if_neg hm]
    have hn : (if (1 : Int) < 0 ∨
        ((strings.countLoop (a :: b :: rest) (s.length + 1) s 0 : Nat) : Int) < 1
        then strings.countLoop (a :: b :: rest) (s.length + 1) s 0 else (1 : Int).toNat) = 1 := by
      rw [if_neg]
      · rfl
      · omega
    simp only [hn, strings.replaceLoop, removeFirstOccurrence_of_index_some _ _ _ hidx]
    simp [hidx]

theorem str_Bearer : str "Bearer" = [66, 101, 97, 114, 101, 114] := by decide

theorem str_ApiKey : str "ApiKey" = [65, 112, 105, 75, 101, 121] := by decide

theorem str_empty : str "" = [] := rfl

/-! ## Credential extractors -/

theorem getBearerToken_eq (headers : Header) :
    auth.GetBearerToken headers =
      if strings.TrimSpace
          (removeFirstOccurrence (str "Bearer") (headers.Get (str "Authorization"))) = []
      then .error (.msg (str "Token not provided"))
      else .ok (strings.TrimSpace
          (removeFirstOccurrence (str "Bearer") (headers.Get (str "Authorization")))) := by
  have hB : ∀ s, strings.Replace s (str "Bearer") [] 1
      = removeFirstOccurrence (str "Bearer") s := by
    intro s
    rw [str_Bearer]
    exact replace_one_eq_removeFirstOccurrence s _ _ _
  simp only [auth.GetBearerToken, str_empty, hB]

theorem getApiKey_eq (headers : Header) :
    auth.GetApiKey headers =
      if strings.TrimSpace
          (removeFirstOccurrence (str "ApiKey") (headers.Get (str "Authorization"))) = []
      then .error (.msg (str "Key not found"))
      else .ok (strings.TrimSpace
          (removeFirstOccurrence (str "ApiKey") (headers.Get (str "Authorization")))) := by
  have hA : ∀ s, strings.Replace s (str "ApiKey") [] 1
      = removeFirstOccurrence (str "ApiKey") s := by
    intro s
    rw [str_ApiKey]
    exact replace_one_eq_removeFirstOccurrence s _ _ _
  simp only [auth.GetApiKey, str_empty, hA]

/-- C4: for every header set, with `v` the value of the Authorization header
(empty when absent), `GetBearerToken` returns `TrimSpace` of `v` with only its
first occurrence of the literal `Bearer` removed, and fails exactly when that
result is empty; `GetApiKey` does the same with the literal `ApiKey`. -/
theorem extractors_remove_first_literal_and_trim (headers : Header) :
    (auth.GetBearerToken headers =
        if strings.TrimSpace
            (removeFirstOccurrence (str "Bearer") (headers.Get (str "Authorization"))) = []
        then .error (.msg (str "Token not provided"))
        else .ok (strings.TrimSpace
            (removeFirstOccurrence (str "Bearer") (headers.Get (str "Authorization")))))
    ∧ ((∃ e, auth.GetBearerToken headers = .error e) ↔
        strings.TrimSpace
          (removeFirstOccurrence (str "Bearer") (headers.Get (str "Authorization"))) = [])
    ∧ (auth.GetApiKey headers =
        if strings.TrimSpace
            (removeFirstOccurrence (str "ApiKey") (headers.Get (str "Authorization"))) = []
        then .error (.msg (str "Key not found"))
        else .ok (strings.TrimSpace
            (removeFirstOccurrence (str "ApiKey") (headers.Get (str "Authorization")))))
    ∧ ((∃ e, auth.GetApiKey headers = .error e) ↔
        strings.TrimSpace
          (removeFirstOccurrence (str "ApiKey") (headers.Get (str "Authorization"))) = []) := by
  refine ⟨getBearerToken_eq headers, ?_, getApiKey_eq headers, ?_⟩
  · rw [getBearerToken_eq]
    split <;> simp [*]
  · rw [getApiKey_eq]
    split <;> simp [*]

/-- C5, as stated, fails: the header value `" Bearer"` does not start with
`Bearer` and its trimmed content `Bearer` is not empty, yet `GetBearerToken`
fails; the value `"xBearer y"` does not start with `Bearer` either, and the
extractor returns `x y`, not the trimmed content `xBearer y`.  `GetApiKey`
fails in the same way on `" ApiKey"`. -/
theorem passthrough_without_leading_literal_fails :
    (strings.HasPrefix (str " Bearer") (str "Bearer") = false
      ∧ strings.TrimSpace (str " Bearer") = str "Bearer"
      ∧ auth.GetBearerToken [(str "Authorization", [str " Bearer"])]
          = .error (.msg (str "Token not provided")))
    ∧ (strings.HasPrefix (str "xBearer y") (str "Bearer") = false
      ∧ strings.TrimSpace (str "xBearer y") = str "xBearer y"
      ∧ auth.GetBearerToken [(str "Authorization", [str "xBearer y"])] = .ok (str "x y"))
    ∧ (strings.HasPrefix (str " ApiKey") (str "ApiKey") = false
      ∧ strings.TrimSpace (str " ApiKey") = str "ApiKey"
      ∧ auth.GetApiKey [(str "Authorization", [str " ApiKey"])]
          = .error (.msg (str "Key not found"))) := by
  decide

/-- C5, amended: for every header set whose Authorization value does not contain
the literal (`Bearer` for `GetBearerToken`, `ApiKey` for `GetApiKey`) anywhere
and whose trimmed content is not empty, the extractor succeeds and returns
exactly the trimmed content of the value. -/
theorem passthrough_without_literal (headers : Header) :
    (¬ str "Bearer" <:+: headers.Get (str "Authorization") →
      strings.TrimSpace (headers.Get (str "Authorization")) ≠ [] →
      auth.GetBearerToken headers = .ok (strings.TrimSpace (headers.Get (str "Authorization"))))
    ∧ (¬ str "ApiKey" <:+: headers.Get (str "Authorization") →
      strings.TrimSpace (headers.Get (str "Authorization")) ≠ [] →
      auth.GetApiKey headers = .ok (strings.TrimSpace (headers.Get (str "Authorization")))) := by
  have h1 := getBearerToken_eq headers
  have h2 := getApiKey_eq headers
  constructor
  · intro hno hne
    have hidx := (index_none_iff (str "Bearer") _ (by decide)).2 hno
    rw [h1, removeFirstOccurrence_of_index_none _ _ hidx, if_neg hne]
  · intro hno hne
    have hidx := (index_none_iff (str "ApiKey") _ (by decide)).2 hno
    rw [h2, removeFirstOccurrence_of_index_none _ _ hidx, if_neg hne]

/-- A witness of the amended C5: the header value `" abc "` contains neither
literal, and both extractors return its trimmed content `abc`. -/
theorem passthrough_without_literal_witness :
    auth.GetBearerToken [(str "Authorization", [str " abc "])] = .ok (str "abc")
    ∧ auth.GetApiKey [(str "Authorization", [str " abc "])] = .ok (str "abc") :=
  ⟨(passthrough_without_literal [(str "Authorization", [str " abc "])]).1
      (by decide) (by decide),
    (passthrough_without_literal [(str "Authorization", [str " abc "])]).2
      (by decide) (by decide)⟩

/-! ## Hexadecimal digits and UUIDs -/

theorem fromHexChar_hextable (n : Fin 16) :
    hex.fromHexChar (hex.hextable.getD n.val 0) = some n.val := by
  revert n
  decide

theorem xtob_encode (v : Byte) :
    uuid.xtob (hex.hextable.getD (v.val / 16) 0) (hex.hextable.getD (v.val % 16) 0) = some v := by
  have h1 := fromHexChar_hextable ⟨v.val / 16, by omega⟩
  have h2 := fromHexChar_hextable ⟨v.val % 16, by omega⟩
  simp only at h1 h2
  simp only [uuid.xtob, h1, h2, byte]
  congr 1
  apply Fin.ext
  simp only [Fin.ofNat, Fin.val_mk]
  omega

theorem length_eq_sixteen {α : Type} (l : List α) (h : l.length = 16) :
    ∃ b0 b1 b2 b3 b4 b5 b6 b7 b8 b9 b10 b11 b12 b13 b14 b15,
      l = [b0, b1, b2, b3, b4, b5, b6, b7, b8, b9, b10, b11, b12, b13, b14, b15] := by
  match l, h with
  | [b0, b1, b2, b3, b4, b5, b6, b7, b8, b9, b10, b11, b12, b13, b14, b15], _ =>
    exact ⟨b0, b1, b2, b3, b4, b5, b6, b7, b8, b9, b10, b11, b12, b13, b14, b15, rfl⟩

theorem str_dash : str "-" = [0x2D] := by decide

/-- The function `uuid.Parse` reads back what `UUID.String` writes. -/
theorem uuid_parse_string (u : UUID) : uuid.Parse (uuid.String u) = .ok u := by
  obtain ⟨bytes, hlen⟩ := u
  obtain ⟨b0, b1, b2, b3, b4, b5, b6, b7, b8, b9, b10, b11, b12, b13, b14, b15, rfl⟩ :=
    length_eq_sixteen bytes hlen
  simp only [uuid.String, hex.EncodeToString, str_dash, List.take, List.drop, List.flatMap_cons,
    List.flatMap_nil, List.cons_append, List.nil_append, List.append_nil]
  simp only [uuid.Parse, List.length_cons, List.length_nil, Nat.reduceAdd, if_true,
    uuid.parseCanonical, List.getD_cons_zero, List.getD_cons_succ, ne_eq, not_true_eq_false,
    or_self, if_false, uuid.parseAt, xtob_encode, Option.map_some', dif_pos]

/-! ## Base64 -/

theorem decodeMap_enc (v : Fin 64) : base64.decodeMap (base64.enc v.val) = some v.val := by
  revert v
  decide

theorem decodeMap_enc_lt (v : Nat) (h : v < 64) : base64.decodeMap (base64.enc v) = some v :=
  decodeMap_enc ⟨v, h⟩

theorem enc_ne_dot (v : Nat) : (base64.enc v).val ≠ 0x2E := by
  have : ∀ w : Fin 64, (base64.enc w.val).val ≠ 0x2E := by decide
  have h := this ⟨v % 64, Nat.mod_lt _ (by decide)⟩
  simpa [base64.enc] using h

theorem sextets_encode (bs : GoString) :
    ∃ vs, base64.sextets (base64.EncodeToString bs) = some vs ∧ base64.quanta vs = some bs := by
  induction bs using base64.EncodeToString.induct with
  | case1 => exact ⟨[], rfl, rfl⟩
  | case2 a =>
    refine ⟨[a.val / 4, a.val % 4 * 16], ?_, ?_⟩
    · simp only [base64.EncodeToString, base64.sextets]
      rw [decodeMap_enc_lt _ (by omega), decodeMap_enc_lt _ (by omega)]
      rfl
    · simp only [base64.quanta, byte]
      congr 2
      apply Fin.ext
      simp only [Fin.ofNat, Fin.val_mk]
      omega
  | case3 a b =>
    refine ⟨[a.val / 4, a.val % 4 * 16 + b.val / 16, b.val % 16 * 4], ?_, ?_⟩
    · simp only [base64.EncodeToString, base64.sextets]
      rw [decodeMap_enc_lt _ (by omega), decodeMap_enc_lt _ (by omega),
        decodeMap_enc_lt _ (by omega)]
      rfl
    · simp only [base64.quanta, byte]
      congr 2
      · apply Fin.ext
        simp only [Fin.ofNat, Fin.val_mk]
        omega
      · congr 1
        apply Fin.ext
        simp only [Fin.ofNat, Fin.val_mk]
        omega
  | case4 a b c rest ih =>
    obtain ⟨vs, h1, h2⟩ := ih
    refine ⟨a.val / 4 :: (a.val % 4 * 16 + b.val / 16) :: (b.val % 16 * 4 + c.val / 64)
      :: c.val % 64 :: vs, ?_, ?_⟩
    · simp only [base64.EncodeToString, base64.sextets]
      rw [decodeMap_enc_lt _ (by omega), decodeMap_enc_lt _ (by omega),
        decodeMap_enc_lt _ (by omega), decodeMap_enc_lt _ (by omega)]
      simp [h1]
    · simp only [base64.quanta, h2, Option.map_some', byte]
      congr 2
      · apply Fin.ext
        simp only [Fin.ofNat, Fin.val_mk]
        omega
      · congr 1
        · apply Fin.ext
          simp only [Fin.ofNat, Fin.val_mk]
          omega
        · congr 1
          apply Fin.ext
          simp only [Fin.ofNat, Fin.val_mk]
          omega

/-- The method `DecodeString` of the raw URL encoding reads back what `EncodeToString`
writes. -/
theorem base64_decode_encode (bs : GoString) :
    base64.DecodeString (base64.EncodeToString bs) = .ok bs := by
  obtain ⟨vs, h1, h2⟩ := sextets_encode bs
  simp [base64.DecodeString, h1, h2]

theorem base64_no_dot (bs : GoString) : ∀ c ∈ base64.EncodeToString bs, c.val ≠ 0x2E := by
  induction bs using base64.EncodeToString.induct with
  | case1 => simp [base64.EncodeToString]
  | case2 a =>
    intro c hc
    simp only [base64.EncodeToString, List.mem_cons, List.mem_singleton, List.not_mem_nil,
      or_false] at hc
    rcases hc with rfl | rfl <;> exact enc_ne_dot _
  | case3 a b =>
    intro c hc
    simp only [base64.EncodeToString, List.mem_cons, List.mem_singleton, List.not_mem_nil,
      or_false] at hc
    rcases hc with rfl | rfl | rfl <;> exact enc_ne_dot _
  | case4 a b c rest ih =>
    intro x hx
    simp only [base64.EncodeToString, List.mem_cons] at hx
    rcases hx with rfl | rfl | rfl | rfl | hx
    · exact enc_ne_dot _
    · exact enc_ne_dot _
    · exact enc_ne_dot _
    · exact enc_ne_dot _
    · exact ih x hx

/-! ## Splitting at a one-byte separator -/

theorem index_single_none (d : Byte) (a : GoString) (ha : ∀ c ∈ a, c ≠ d) :
    strings.Index a [d] = none := by
  induction a with
  | nil => simp [strings.Index]
  | cons x xs ih =>
    have hx : x ≠ d := ha x (List.mem_cons_self _ _)
    have hp : strings.HasPrefix (x :: xs) [d] = false := by
      simp [strings.HasPrefix, hx]
    rw [strings.Index, hp]
    simp [ih (fun c hc => ha c (List.mem_cons_of_mem _ hc))]

theorem index_single_append (d : Byte) (a rest : GoString) (ha : ∀ c ∈ a, c ≠ d) :
    strings.Index (a ++ d :: rest) [d] = some a.length := by
  induction a with
  | nil => simp [strings.Index, strings.HasPrefix]
  | cons x xs ih =>
    have hx : x ≠ d := ha x (List.mem_cons_self _ _)
    have hp : strings.HasPrefix (x :: (xs ++ d :: rest)) [d] = false := by
      simp [strings.HasPrefix, hx]
    rw [List.cons_append, strings.Index, hp]
    simp [ih (fun c hc => ha c (List.mem_cons_of_mem _ hc))]

theorem splitLoop_step (d : Byte) (fuel : Nat) (a rest : GoString) (ha : ∀ c ∈ a, c ≠ d) :
    strings.splitLoop [d] (fuel + 1) (a ++ d :: rest) = a :: strings.splitLoop [d] fuel rest := by
  rw [strings.splitLoop, index_single_append d a rest ha]
  simp

theorem splitLoop_last (d : Byte) (fuel : Nat) (a : GoString) (ha : ∀ c ∈ a, c ≠ d) :
    strings.splitLoop [d] fuel a = [a] := by
  cases fuel with
  | zero => rfl
  | succ n => rw [strings.splitLoop, index_single_none d a ha]

/-- The result of `strings.Split` on three segments joined by a one-byte separator that does
not occur in them. -/
theorem split_three (d : Byte) (a b c : GoString) (ha : ∀ x ∈ a, x ≠ d) (hb : ∀ x ∈ b, x ≠ d)
    (hc : ∀ x ∈ c, x ≠ d) :
    strings.Split (a ++ d :: b ++ d :: c) [d] = [a, b, c] := by
  have hlen : (a ++ d :: b ++ d :: c).length = (a.length + b.length + c.length) + 1 + 1 := by
    simp only [List.length_append, List.length_cons]
    omega
  have e : a ++ d :: b ++ d :: c = a ++ d :: (b ++ d :: c) := by simp
  rw [strings.Split, if_neg (by simp), hlen, e, splitLoop_step d _ a _ ha,
    splitLoop_step d _ b _ hb, splitLoop_last d _ c hc]

/-! ## JSON strings and numbers -/

theorem appendString_plain (s : GoString) (hs : ∀ b ∈ s, plainByte b) (fuel : Nat)
    (hf : s.length ≤ fuel) : json.appendString fuel s = s := by
  induction s generalizing fuel with
  | nil => cases fuel <;> rfl
  | cons b rest ih =>
    cases fuel with
    | zero => simp at hf
    | succ n =>
      obtain ⟨h1, h2, h3, h4, h5, h6, h7⟩ := hs b (List.mem_cons_self _ _)
      have hr := ih (fun c hc => hs c (List.mem_cons_of_mem _ hc)) n
        (by simp only [List.length_cons] at hf; omega)
      have e1 : ¬ (b.val = 0x5C ∨ b.val = 0x22) := by omega
      have e2 : ¬ (b.val < 0x20 ∨ b.val = 0x3C ∨ b.val = 0x3E ∨ b.val = 0x26) := by omega
      have e3 : b.val ≠ 0x08 := by omega
      have e4 : b.val ≠ 0x0C := by omega
      have e5 : b.val ≠ 0x0A := by omega
      have e6 : b.val ≠ 0x0D := by omega
      have e7 : b.val ≠ 0x09 := by omega
      have e0 : b.val < utf8.RuneSelf := h2
      rw [json.appendString, if_pos e0, if_neg e1, if_neg e3, if_neg e4, if_neg e5, if_neg e6,
        if_neg e7, if_neg e2, hr]
      rfl

theorem str_quote : str "\"" = [0x22] := by decide

theorem encodeString_plain (s : GoString) (hs : ∀ b ∈ s, plainByte b) :
    json.encodeString s = 0x22 :: s ++ [0x22] := by
  rw [json.encodeString, appendString_plain s hs _ (le_refl _), str_quote]
  rfl

theorem scanString_plain (s r : GoString) (hs : ∀ b ∈ s, plainByte b) :
    json.scanString (s ++ 0x22 :: r) = some (s, r) := by
  induction s with
  | nil =>
    rw [List.nil_append, json.scanString.eq_def]
    exact if_pos rfl
  | cons b rest ih =>
    obtain ⟨h1, h2, h3, h4, h5, h6, h7⟩ := hs b (List.mem_cons_self _ _)
    have hr := ih (fun c hc => hs c (List.mem_cons_of_mem _ hc))
    have e1 : ¬ b.val < 0x20 := by omega
    rw [List.cons_append, json.scanString.eq_def]
    simp only [if_neg h3, if_neg h4, if_neg e1, hr]

theorem digitsValue_append (ds : GoString) (d : Byte) :
    json.digitsValue (ds ++ [d]) = json.digitsValue ds * 10 + (d.val - 0x30) := by
  simp [json.digitsValue, List.foldl_append]

theorem digit_val (d : Nat) : (strconv.digit d).val = 0x30 + d % 10 := by
  simp only [strconv.digit, byte, Fin.ofNat, Fin.val_mk]
  omega

theorem isDigit_digit (d : Nat) : json.isDigit (strconv.digit d) = true := by
  simp only [json.isDigit, digit_val, decide_eq_true_eq]
  omega

/-- The digits that `formatBits` writes. -/
theorem formatBits_spec (u : Nat) : ∀ (fuel : Nat), u < fuel → ∀ acc : GoString,
    ∃ ds : GoString, strconv.formatBits fuel u acc = ds ++ acc ∧ ds ≠ []
      ∧ (∀ d ∈ ds, json.isDigit d = true) ∧ json.digitsValue ds = u
      ∧ (u ≠ 0 → (ds.getD 0 0).val ≠ 0x30) ∧ (u = 0 → ds.length = 1) := by
  induction u using Nat.strongRecOn with
  | _ u ih =>
    intro fuel hf acc
    cases fuel with
    | zero => omega
    | succ n =>
      rw [strconv.formatBits]
      by_cases hu : u < 10
      · rw [if_pos hu]
        refine ⟨[strconv.digit u], rfl, by simp, ?_, ?_, ?_, ?_⟩
        · intro d hd
          rw [List.mem_singleton] at hd
          rw [hd]
          exact isDigit_digit u
        · simp only [json.digitsValue, List.foldl_cons, List.foldl_nil, digit_val]
          omega
        · intro h0
          simp only [List.getD_cons_zero, digit_val]
          omega
        · intro _
          rfl
      · rw [if_neg hu]
        obtain ⟨ds, h1, h2, h3, h4, h5, h6⟩ :=
          ih (u / 10) (by omega) n (by omega) (strconv.digit (u % 10) :: acc)
        refine ⟨ds ++ [strconv.digit (u % 10)], by simp [h1], by simp, ?_, ?_, ?_, ?_⟩
        · intro d hd
          rw [List.mem_append, List.mem_singleton] at hd
          rcases hd with hd | hd
          · exact h3 d hd
          · rw [hd]
            exact isDigit_digit _
        · rw [digitsValue_append, h4, digit_val]
          omega
        · intro _
          have hne : u / 10 ≠ 0 := by omega
          have := h5 hne
          cases ds with
          | nil => exact absurd rfl h2
          | cons x xs => simpa using this
        · intro h0
          omega

theorem takeWhile_digits (ds : GoString) (c : Byte) (r : GoString)
    (hds : ∀ d ∈ ds, json.isDigit d = true) (hc : json.isDigit c = false) :
    (ds ++ c :: r).takeWhile json.isDigit = ds
    ∧ (ds ++ c :: r).dropWhile json.isDigit = c :: r := by
  induction ds with
  | nil => simp [List.takeWhile, List.dropWhile, hc]
  | cons x xs ih =>
    have hx := hds x (List.mem_cons_self _ _)
    obtain ⟨i1, i2⟩ := ih (fun d hd => hds d (List.mem_cons_of_mem _ hd))
    simp [List.takeWhile, List.dropWhile, hx, i1, i2]

/-- The function `scanNumber` reads back what `strconv.FormatInt` writes, in front of a comma
or a closing brace. -/
theorem scanNumber_formatInt (n : Int) (c : Byte) (r : GoString)
    (hc : c.val = 0x2C ∨ c.val = 0x7D) :
    json.scanNumber (strconv.FormatInt n ++ c :: r) = some (n, c :: r) := by
  obtain ⟨ds, h1, h2, h3, h4, h5, h6⟩ :=
    formatBits_spec n.natAbs (n.natAbs + 1) (Nat.lt_succ_self _) []
  rw [List.append_nil] at h1
  have hcd : json.isDigit c = false := by
    simp only [json.isDigit, decide_eq_false_iff_not]
    omega
  obtain ⟨t1, t2⟩ := takeWhile_digits ds c r h3 hcd
  have hlead : ¬ (1 < ds.length ∧ (ds.getD 0 0).val = 0x30) := by
    rintro ⟨hl, hz⟩
    by_cases h0 : n.natAbs = 0
    · have := h6 h0
      omega
    · exact h5 h0 hz
  have hrest : decide (c.val = 0x2E ∨ c.val = 0x65 ∨ c.val = 0x45) = false := by
    simp only [decide_eq_false_iff_not]
    omega
  obtain ⟨x, xs, rfl⟩ : ∃ x xs, ds = x :: xs := by
    cases ds with
    | nil => exact absurd rfl h2
    | cons x xs => exact ⟨x, xs, rfl⟩
  have hxd : json.isDigit x = true := h3 x (List.mem_cons_self _ _)
  have hx : x.val ≠ 0x2D := by
    simp only [json.isDigit, decide_eq_true_eq] at hxd
    omega
  by_cases hn : n < 0
  · have hneg : (byte 0x2D).val = 0x2D := by decide
    simp only [strconv.FormatInt, if_pos hn, h1, json.scanNumber, List.cons_append, hneg,
      decide_True, if_true, List.drop_succ_cons, List.drop_zero]
    rw [← List.cons_append, t1, t2]
    simp only [hrest, hlead, if_false, Bool.false_eq_true, reduceCtorEq, h4]
    congr 2
    omega
  · simp only [strconv.FormatInt, if_neg hn, h1, json.scanNumber, List.cons_append, hx,
      decide_False, Bool.false_eq_true, if_false]
    rw [← List.cons_append, t1, t2]
    simp only [hrest, hlead, if_false, Bool.false_eq_true, reduceCtorEq, h4]
    congr 2
    omega

theorem valueText_string (s : GoString) (hs : ∀ b ∈ s, plainByte b) :
    ValueText (0x22 :: s ++ [0x22]) (.string s) := by
  intro c r _
  constructor
  · rfl
  · have e : (0x22 :: s ++ [0x22]) ++ c :: r = 0x22 :: (s ++ 0x22 :: c :: r) := by simp
    rw [e, json.scanValue]
    simp only [show ((0x22 : Byte).val = 0x22) from rfl, if_true, scanString_plain s _ hs]

theorem formatInt_head (n : Int) : ∃ x xs, strconv.FormatInt n = x :: xs
    ∧ (x.val = 0x2D ∨ json.isDigit x = true) := by
  obtain ⟨ds, h1, h2, h3, -, -, -⟩ :=
    formatBits_spec n.natAbs (n.natAbs + 1) (Nat.lt_succ_self _) []
  rw [List.append_nil] at h1
  by_cases hn : n < 0
  · exact ⟨byte 0x2D, ds, by simp [strconv.FormatInt, hn, h1], Or.inl (by decide)⟩
  · cases ds with
    | nil => exact absurd rfl h2
    | cons x xs =>
      exact ⟨x, xs, by simp [strconv.FormatInt, hn, h1], Or.inr (h3 x (List.mem_cons_self _ _))⟩

theorem valueText_number (n : Int) : ValueText (strconv.FormatInt n) (.number n) := by
  intro c r hc
  obtain ⟨x, xs, hx, hd⟩ := formatInt_head n
  have hnum := scanNumber_formatInt n c r hc
  rw [hx] at hnum ⊢
  have hsp : json.isSpace x = false := by
    simp only [json.isSpace, decide_eq_false_iff_not]
    rcases hd with hd | hd
    · omega
    · simp only [json.isDigit, decide_eq_true_eq] at hd
      omega
  have hq : x.val ≠ 0x22 := by
    rcases hd with hd | hd
    · omega
    · simp only [json.isDigit, decide_eq_true_eq] at hd
      omega
  constructor
  · rw [List.cons_append, json.skipSpace, hsp]
    rfl
  · rw [List.cons_append] at hnum ⊢
    rw [json.scanValue]
    simp only [if_neg hq]
    have hd2 : x.val = 0x2D ∨ json.isDigit x = true := hd
    simp only [hd2, if_true, hnum]

theorem skipSpace_cons (c : Byte) (r : GoString) (h : json.isSpace c = false) :
    json.skipSpace (c :: r) = c :: r := by
  rw [json.skipSpace, h]
  rfl

/-- One member of an object, followed by a comma and a further member. -/
theorem scanMembers_comma (fuel : Nat) (k vt : GoString) (v : json.Value) (more : GoString)
    (hk : ∀ b ∈ k, plainByte b) (hv : ValueText vt v) :
    json.scanMembers (fuel + 1) (0x22 :: (k ++ 0x22 :: 0x3A :: vt ++ 0x2C :: 0x22 :: more))
      = match json.scanMembers fuel (0x22 :: more) with
        | some ms => some ((k, v) :: ms)
        | none => none := by
  have e : (0x22 :: (k ++ 0x22 :: 0x3A :: vt ++ 0x2C :: 0x22 :: more) : GoString)
      = 0x22 :: (k ++ 0x22 :: (0x3A :: (vt ++ 0x2C :: 0x22 :: more))) := by simp
  obtain ⟨hv1, hv2⟩ := hv 0x2C (0x22 :: more) (Or.inl rfl)
  rw [e, json.scanMembers]
  simp only [show ((0x22 : Byte).val = 0x22) from rfl, ne_eq, not_true_eq_false, if_false,
    scanString_plain k _ hk]
  rw [skipSpace_cons 0x3A _ (by decide)]
  simp only [show ((0x3A : Byte).val = 0x3A) from rfl, ne_eq, not_true_eq_false, if_false,
    hv1, hv2]
  rw [skipSpace_cons 0x2C _ (by decide)]
  simp only [show ((0x2C : Byte).val = 0x2C) from rfl, if_true]
  rw [skipSpace_cons 0x22 _ (by decide)]

/-- The last member of an object, followed by the closing brace and nothing
else. -/
theorem scanMembers_close (fuel : Nat) (k vt : GoString) (v : json.Value)
    (hk : ∀ b ∈ k, plainByte b) (hv : ValueText vt v) :
    json.scanMembers (fuel + 1) (0x22 :: (k ++ 0x22 :: 0x3A :: vt ++ [0x7D]))
      = some [(k, v)] := by
  have e : (0x22 :: (k ++ 0x22 :: 0x3A :: vt ++ [0x7D]) : GoString)
      = 0x22 :: (k ++ 0x22 :: (0x3A :: (vt ++ 0x7D :: []))) := by simp
  obtain ⟨hv1, hv2⟩ := hv 0x7D [] (Or.inr rfl)
  rw [e, json.scanMembers]
  simp only [show ((0x22 : Byte).val = 0x22) from rfl, ne_eq, not_true_eq_false, if_false,
    scanString_plain k _ hk]
  rw [skipSpace_cons 0x3A _ (by decide)]
  simp only [show ((0x3A : Byte).val = 0x3A) from rfl, ne_eq, not_true_eq_false, if_false,
    hv1, hv2]
  rw [skipSpace_cons 0x7D _ (by decide)]
  simp only [show ((0x7D : Byte).val = 0x7D) from rfl, if_true, json.skipSpace]
  rw [if_neg (by decide)]

/-! ## The claims of a session token -/

theorem plain_hextable (n : Fin 16) : plainByte (hex.hextable.getD n.val 0) := by
  revert n
  decide

theorem plain_hex (n : Nat) (h : n < 16) : plainByte (hex.hextable.getD n 0) :=
  plain_hextable ⟨n, h⟩

theorem plain_uuid_string (u : UUID) : ∀ b ∈ uuid.String u, plainByte b := by
  obtain ⟨bytes, hlen⟩ := u
  obtain ⟨b0, b1, b2, b3, b4, b5, b6, b7, b8, b9, b10, b11, b12, b13, b14, b15, rfl⟩ :=
    length_eq_sixteen bytes hlen
  have hd : plainByte 0x2D := by decide
  have hh : ∀ v : Byte, plainByte (hex.hextable.getD (v.val / 16) 0) := fun v =>
    plain_hex _ (by omega)
  have hl : ∀ v : Byte, plainByte (hex.hextable.getD (v.val % 16) 0) := fun v =>
    plain_hex _ (by omega)
  intro b hb
  simp only [uuid.String, hex.EncodeToString, str_dash, List.take, List.drop, List.flatMap_cons,
    List.flatMap_nil, List.cons_append, List.nil_append, List.append_nil, List.mem_cons,
    List.not_mem_nil, or_false] at hb
  rcases hb with h | h | h | h | h | h | h | h | h | h | h | h | h | h | h | h | h | h | h | h
    | h | h | h | h | h | h | h | h | h | h | h | h | h | h | h | h <;> rw [h] <;>
    first | exact hd | exact hh _ | exact hl _

theorem uuid_string_ne_nil (u : UUID) : uuid.String u ≠ [] := by
  obtain ⟨bytes, hlen⟩ := u
  obtain ⟨b0, b1, b2, b3, b4, b5, b6, b7, b8, b9, b10, b11, b12, b13, b14, b15, rfl⟩ :=
    length_eq_sixteen bytes hlen
  simp [uuid.String, hex.EncodeToString]

theorem truncate_second (t : Time) : time.Truncate t time.Second = t - t % 1000000000 := by
  simp [time.Truncate, time.Second]

theorem numericDate_roundtrip (t : Time) :
    jwt.NewNumericDate (time.ofUnix (time.Unix (time.Truncate (jwt.NewNumericDate t)
      time.Second))) = jwt.NewNumericDate t := by
  simp only [jwt.NewNumericDate, truncate_second]
  simp only [time.ofUnix, time.Unix, time.Second]
  show ((_ : Int) = _)
  omega

set_option maxRecDepth 100000 in
theorem plain_chirpy : ∀ b ∈ str "chirpy", plainByte b := by decide

set_option maxRecDepth 100000 in
theorem plain_iss : ∀ b ∈ str "iss", plainByte b := by decide

set_option maxRecDepth 100000 in
theorem plain_sub : ∀ b ∈ str "sub", plainByte b := by decide

set_option maxRecDepth 100000 in
theorem plain_exp : ∀ b ∈ str "exp", plainByte b := by decide

set_option maxRecDepth 100000 in
theorem plain_iat : ∀ b ∈ str "iat", plainByte b := by decide

/-- The JSON text of the claims of a session token. -/
theorem sessionClaims_marshal (u : UUID) (iat exp : Time) :
    (sessionClaims u iat exp).Marshal
      = 0x7B :: 0x22 :: (str "iss" ++ 0x22 :: 0x3A :: (0x22 :: str "chirpy" ++ [0x22]) ++ 0x2C
        :: 0x22 :: (str "sub" ++ 0x22 :: 0x3A :: (0x22 :: uuid.String u ++ [0x22]) ++ 0x2C
        :: 0x22 :: (str "exp" ++ 0x22 :: 0x3A
            :: strconv.FormatInt (time.Unix (time.Truncate exp time.Second)) ++ 0x2C
        :: 0x22 :: (str "iat" ++ 0x22 :: 0x3A
            :: strconv.FormatInt (time.Unix (time.Truncate iat time.Second)) ++ [0x7D])))) := by
  have h1 : str "chirpy" ≠ [] := by decide
  simp only [jwt.RegisteredClaims.Marshal, jwt.RegisteredClaims.members, sessionClaims,
    if_neg h1, if_neg (uuid_string_ne_nil u), if_true, encodeString_plain _ plain_chirpy,
    encodeString_plain _ (plain_uuid_string u), jwt.NumericDate.MarshalJSON]
  simp only [show str "\x7b" = [0x7B] from by decide, show str "\x7d" = [0x7D] from by decide,
    show str "," = [0x2C] from by decide,
    show str "\"iss\":" = 0x22 :: str "iss" ++ [0x22, 0x3A] from by decide,
    show str "\"sub\":" = 0x22 :: str "sub" ++ [0x22, 0x3A] from by decide,
    show str "\"exp\":" = 0x22 :: str "exp" ++ [0x22, 0x3A] from by decide,
    show str "\"iat\":" = 0x22 :: str "iat" ++ [0x22, 0x3A] from by decide]
  simp [List.intercalate]

theorem scanObject_members (r : GoString) :
    json.scanObject (0x7B :: 0x22 :: r) = json.scanMembers (r.length + 2) (0x22 :: r) := by
  rw [json.scanObject, skipSpace_cons 0x7B _ (by decide)]
  simp only [show ((0x7B : Byte).val = 0x7B) from rfl, ne_eq, not_true_eq_false, if_false]
  rw [skipSpace_cons 0x22 _ (by decide)]
  simp only [show ((0x22 : Byte).val = 0x22) from rfl, List.length_cons]
  rw [if_neg (by decide)]

/-- The decoder reads the members of the claims of a session token. -/
theorem sessionClaims_scanObject (u : UUID) (iat exp : Time) :
    json.scanObject (sessionClaims u iat exp).Marshal
      = some [(str "iss", .string (str "chirpy")), (str "sub", .string (uuid.String u)),
          (str "exp", .number (time.Unix (time.Truncate exp time.Second))),
          (str "iat", .number (time.Unix (time.Truncate iat time.Second)))] := by
  rw [sessionClaims_marshal, scanObject_members]
  generalize hf : List.length _ = f
  have hf4 : f + 2 = (f - 2) + 3 + 1 := by
    rw [← hf]
    simp only [List.length_cons, List.length_append]
    omega
  rw [hf4,
    scanMembers_comma (f - 2 + 3) (str "iss") _ _ _ plain_iss (valueText_string _ plain_chirpy),
    scanMembers_comma (f - 2 + 2) (str "sub") _ _ _ plain_sub
      (valueText_string _ (plain_uuid_string u)),
    scanMembers_comma (f - 2 + 1) (str "exp") _ _ _ plain_exp (valueText_number _),
    scanMembers_close (f - 2) (str "iat") _ _ plain_iat (valueText_number _)]

/-- The function `json.Unmarshal` reads back the claims of a session token whose dates are
whole seconds. -/
theorem sessionClaims_unmarshal (u : UUID) (tIat tExp : Time) :
    jwt.RegisteredClaims.Unmarshal
        (sessionClaims u (jwt.NewNumericDate tIat) (jwt.NewNumericDate tExp)).Marshal {}
      = some (sessionClaims u (jwt.NewNumericDate tIat) (jwt.NewNumericDate tExp)) := by
  rw [jwt.RegisteredClaims.Unmarshal, sessionClaims_scanObject]
  have k1 : (str "iss").map uuid.toLowerASCII = str "iss" := by decide
  have k2 : (str "sub").map uuid.toLowerASCII = str "sub" := by decide
  have k3 : (str "exp").map uuid.toLowerASCII = str "exp" := by decide
  have k4 : (str "iat").map uuid.toLowerASCII = str "iat" := by decide
  have n1 : str "sub" ≠ str "iss" := by decide
  have n2 : str "exp" ≠ str "iss" := by decide
  have n3 : str "exp" ≠ str "sub" := by decide
  have n4 : str "exp" ≠ str "aud" := by decide
  have n5 : str "iat" ≠ str "iss" := by decide
  have n6 : str "iat" ≠ str "sub" := by decide
  have n7 : str "iat" ≠ str "aud" := by decide
  have n8 : str "iat" ≠ str "exp" := by decide
  have n9 : str "iat" ≠ str "nbf" := by decide
  simp only [List.foldlM, jwt.RegisteredClaims.setField, k1, k2, k3, k4, n1, n2, n3, n4, n5, n6,
    n7, n8, n9, if_true, if_false, Option.bind_eq_bind, Option.some_bind, Option.pure_def,
    jwt.unmarshalString, jwt.unmarshalNumericDate, Option.map_some',
    numericDate_roundtrip, sessionClaims]

/-! ## Parsing and validating a signed session token -/

theorem str_dot : str "." = [0x2E] := by decide

theorem base64_ne_dot (bs : GoString) : ∀ c ∈ base64.EncodeToString bs, c ≠ (0x2E : Byte) := by
  intro c hc h
  exact base64_no_dot bs c hc (by rw [h]; rfl)

theorem header_scanObject :
    json.scanObject (jwt.marshalHeader jwt.newHeader)
      = some [(str "alg", .string (str "HS256")), (str "typ", .string (str "JWT"))] := by
  decide

theorem header_alg :
    jwt.headerAlg [(str "alg", .string (str "HS256")), (str "typ", .string (str "JWT"))]
      = some (str "HS256") := by
  decide

/-- The three segments of a signed token. -/
theorem split_signed (c : jwt.RegisteredClaims) (sig : GoString) :
    strings.Split (jwt.SigningString c ++ str "." ++ jwt.EncodeSegment sig) (str ".")
      = [jwt.EncodeSegment (jwt.marshalHeader jwt.newHeader), jwt.EncodeSegment c.Marshal,
          jwt.EncodeSegment sig] := by
  have e : jwt.SigningString c ++ str "." ++ jwt.EncodeSegment sig
      = jwt.EncodeSegment (jwt.marshalHeader jwt.newHeader) ++ 0x2E :: jwt.EncodeSegment c.Marshal
        ++ 0x2E :: jwt.EncodeSegment sig := by
    simp [jwt.SigningString, str_dot]
  rw [e, str_dot]
  exact split_three 0x2E _ _ _ (base64_ne_dot _) (base64_ne_dot _) (base64_ne_dot _)

theorem intercalate_two (sep a b : GoString) : sep.intercalate [a, b] = a ++ sep ++ b := by
  simp [List.intercalate]

theorem signingString_eq (c : jwt.RegisteredClaims) :
    jwt.EncodeSegment (jwt.marshalHeader jwt.newHeader) ++ str "." ++ jwt.EncodeSegment c.Marshal
      = jwt.SigningString c := rfl

theorem decodeSegment_encodeSegment (b : GoString) :
    jwt.DecodeSegment (jwt.EncodeSegment b) = .ok b :=
  base64_decode_encode b

theorem parseSegments_signed (u : UUID) (tIat tExp : Time) (raw : GoString) :
    jwt.parseSegments raw (jwt.EncodeSegment (jwt.marshalHeader jwt.newHeader))
        (jwt.EncodeSegment (sessionClaims u (jwt.NewNumericDate tIat)
          (jwt.NewNumericDate tExp)).Marshal)
      = .ok { Raw := raw, alg := some (str "HS256"),
              Claims := sessionClaims u (jwt.NewNumericDate tIat) (jwt.NewNumericDate tExp) } := by
  unfold jwt.parseSegments
  simp only [jwt.DecodeSegment, jwt.EncodeSegment, base64_decode_encode]
  simp only [header_scanObject]
  simp only [sessionClaims_unmarshal]
  simp only [header_alg, true_or, if_true]

theorem parseUnverified_signed (u : UUID) (tIat tExp : Time) (sig : GoString) :
    jwt.ParseUnverified
        (jwt.SigningString (sessionClaims u (jwt.NewNumericDate tIat) (jwt.NewNumericDate tExp))
          ++ str "." ++ jwt.EncodeSegment sig)
      = .ok ({ Raw := jwt.SigningString (sessionClaims u (jwt.NewNumericDate tIat)
                  (jwt.NewNumericDate tExp)) ++ str "." ++ jwt.EncodeSegment sig,
                alg := some (str "HS256"),
                Claims := sessionClaims u (jwt.NewNumericDate tIat) (jwt.NewNumericDate tExp) },
              [jwt.EncodeSegment (jwt.marshalHeader jwt.newHeader),
                jwt.EncodeSegment (sessionClaims u (jwt.NewNumericDate tIat)
                  (jwt.NewNumericDate tExp)).Marshal,
                jwt.EncodeSegment sig]) := by
  unfold jwt.ParseUnverified
  rw [split_signed]
  simp only [parseSegments_signed]

/-- The result of `ParseWithClaims` on a token that carries the claims of a session token and
any signature: the signature is compared with the MAC of the signing string
under the key, then the expiry with the clock. -/
theorem parseWithClaims_signed (u : UUID) (tIat tExp : Time) (key sig : GoString) (now : Time) :
    (jwt.ParseWithClaims
        (jwt.SigningString (sessionClaims u (jwt.NewNumericDate tIat) (jwt.NewNumericDate tExp))
          ++ str "." ++ jwt.EncodeSegment sig) (fun _ => .ok key) now).map (·.Claims)
      = if sig = hmac.Sum key
            (jwt.SigningString (sessionClaims u (jwt.NewNumericDate tIat)
              (jwt.NewNumericDate tExp))) then
          if time.Before now (jwt.NewNumericDate tExp) then
            .ok (sessionClaims u (jwt.NewNumericDate tIat) (jwt.NewNumericDate tExp))
          else .error .tokenExpired
        else .error .tokenSignatureInvalid := by
  unfold jwt.ParseWithClaims
  rw [parseUnverified_signed]
  simp only [List.getD_cons_zero, List.getD_cons_succ, List.take, intercalate_two,
    signingString_eq, decodeSegment_encodeSegment]
  simp only [jwt.SigningMethodHS256.Verify, hmac.Equal, jwt.Validate, ne_eq, not_true_eq_false,
    if_false, decide_eq_true_eq]
  by_cases hs : sig = hmac.Sum key
      (jwt.SigningString (sessionClaims u (jwt.NewNumericDate tIat) (jwt.NewNumericDate tExp)))
  · rw [if_pos hs, if_pos hs]
    by_cases hb : time.Before now (jwt.NewNumericDate tExp) = true
    · simp only [sessionClaims, hb, Bool.true_eq_false, if_false, if_true, Except.map]
    · simp only [Bool.not_eq_true] at hb
      simp only [sessionClaims, hb, Bool.true_eq_false, Bool.false_eq_true, if_false, if_true,
        Except.map]
  · rw [if_neg hs, if_neg hs]
    rfl

/-- The token that `MakeJWT` returns. -/
theorem makeJWT_eq (userID : UUID) (tokenSecret : GoString) (nowIat nowExp : Time) :
    auth.MakeJWT userID tokenSecret nowIat nowExp
      = .ok (jwt.SigningString (sessionClaims userID (jwt.NewNumericDate nowIat)
              (jwt.NewNumericDate (time.Add nowExp (time.Hour * 1))))
          ++ str "." ++ jwt.EncodeSegment (hmac.Sum tokenSecret
            (jwt.SigningString (sessionClaims userID (jwt.NewNumericDate nowIat)
              (jwt.NewNumericDate (time.Add nowExp (time.Hour * 1))))))) := by
  simp only [auth.MakeJWT, jwt.SignedString, jwt.SigningMethodHS256.Sign, sessionClaims]

/-- The result of `ValidateJWT` under the secret `s2` on the token that `MakeJWT` makes under
the secret `s1`. -/
theorem validateJWT_makeJWT (userID : UUID) (s1 s2 : GoString) (nowIat nowExp now : Time) :
    (auth.MakeJWT userID s1 nowIat nowExp).bind (fun tok => auth.ValidateJWT tok s2 now)
      = if hmac.Sum s1
            (jwt.SigningString (sessionClaims userID (jwt.NewNumericDate nowIat)
              (jwt.NewNumericDate (time.Add nowExp (time.Hour * 1)))))
          = hmac.Sum s2
            (jwt.SigningString (sessionClaims userID (jwt.NewNumericDate nowIat)
              (jwt.NewNumericDate (time.Add nowExp (time.Hour * 1))))) then
          if time.Before now (jwt.NewNumericDate (time.Add nowExp (time.Hour * 1))) then
            .ok userID
          else .error .tokenExpired
        else .error .tokenSignatureInvalid := by
  rw [makeJWT_eq]
  have h := parseWithClaims_signed userID nowIat (time.Add nowExp (time.Hour * 1)) s2
    (hmac.Sum s1 (jwt.SigningString (sessionClaims userID (jwt.NewNumericDate nowIat)
      (jwt.NewNumericDate (time.Add nowExp (time.Hour * 1)))))) now
  simp only [Except.bind, auth.ValidateJWT]
  revert h
  cases jwt.ParseWithClaims _ _ now with
  | error e =>
    intro h
    simp only [Except.map] at h
    split_ifs at h ⊢ <;> (cases h; rfl)
  | ok token =>
    intro h
    simp only [Except.map] at h
    split_ifs at h ⊢
    simp only [Except.ok.injEq] at h
    simp only [h, sessionClaims, uuid_parse_string]

theorem validateJWT_of_makeJWT (userID : UUID) (s1 s2 : GoString) (nowIat nowExp now : Time)
    (tok : GoString) (h : auth.MakeJWT userID s1 nowIat nowExp = .ok tok) :
    auth.ValidateJWT tok s2 now
      = if hmac.Sum s1
            (jwt.SigningString (sessionClaims userID (jwt.NewNumericDate nowIat)
              (jwt.NewNumericDate (time.Add nowExp (time.Hour * 1)))))
          = hmac.Sum s2
            (jwt.SigningString (sessionClaims userID (jwt.NewNumericDate nowIat)
              (jwt.NewNumericDate (time.Add nowExp (time.Hour * 1))))) then
          if time.Before now (jwt.NewNumericDate (time.Add nowExp (time.Hour * 1))) then
            .ok userID
          else .error .tokenExpired
        else .error .tokenSignatureInvalid := by
  have h2 := validateJWT_makeJWT userID s1 s2 nowIat nowExp now
  rw [h] at h2
  exact h2

/-- HMAC pads a short key with zero bytes: a key of fewer than 64 bytes and the
same key followed by a zero byte give the same MAC. -/
theorem hmac_sum_append_zero (key message : GoString) (h : key.length < 64) :
    hmac.Sum (key ++ [0]) message = hmac.Sum key message := by
  have hk : hmac.blockKey (key ++ [0]) = hmac.blockKey key := by
    have h1 : ¬ key.length > 64 := by omega
    have h2 : ¬ key.length + 1 > 64 := by omega
    have e : 64 - key.length = (64 - (key.length + 1)) + 1 := by omega
    simp only [hmac.blockKey, sha256.BlockSize, List.length_append, List.length_singleton,
      if_neg h1, if_neg h2, List.append_assoc]
    rw [e, List.replicate_succ]
    rfl
  simp only [hmac.Sum, hk]

/-- The MAC depends on the key through its key block only. -/
theorem hmac_sum_of_blockKey (k1 k2 message : GoString) (h : hmac.blockKey k1 = hmac.blockKey k2) :
    hmac.Sum k1 message = hmac.Sum k2 message := by
  simp only [hmac.Sum, h]

/-! ## Session tokens: the claims C1, C2 and C3 -/

/-- C1: for every identity (the nil UUID included) and every secret (the empty
string included), `MakeJWT` succeeds and `ValidateJWT` under the same secret
returns exactly that identity, whenever the validator's clock is before the
expiry instant that `MakeJWT` wrote into the token. -/
theorem makeJWT_validateJWT_roundtrip (userID : UUID) (tokenSecret : GoString)
    (nowIat nowExp now : Time)
    (h : time.Before now (jwt.NewNumericDate (time.Add nowExp (time.Hour * 1))) = true) :
    ∃ tok, auth.MakeJWT userID tokenSecret nowIat nowExp = .ok tok
      ∧ auth.ValidateJWT tok tokenSecret now = .ok userID := by
  refine ⟨_, makeJWT_eq userID tokenSecret nowIat nowExp, ?_⟩
  rw [validateJWT_of_makeJWT userID tokenSecret tokenSecret nowIat nowExp now _
    (makeJWT_eq userID tokenSecret nowIat nowExp), if_pos rfl, if_pos h]

/-- A witness of C1: the nil UUID under the empty secret, issued and validated at
the Unix epoch. -/
theorem makeJWT_validateJWT_roundtrip_witness :
    time.Before 0 (jwt.NewNumericDate (time.Add 0 (time.Hour * 1))) = true
    ∧ ∃ tok, auth.MakeJWT uuid.Nil (str "") 0 0 = .ok tok
      ∧ auth.ValidateJWT tok (str "") 0 = .ok uuid.Nil :=
  ⟨by decide, makeJWT_validateJWT_roundtrip uuid.Nil (str "") 0 0 0 (by decide)⟩

/-- C2, as stated, fails: the empty secret and the secret of one zero byte are
different, and the token that `MakeJWT` makes under the first is accepted by
`ValidateJWT` under the second, which returns the identity. -/
theorem validateJWT_accepts_zero_padded_secret :
    str "" ≠ [0]
    ∧ ∃ tok, auth.MakeJWT uuid.Nil (str "") 0 0 = .ok tok
      ∧ auth.ValidateJWT tok [0] 0 = .ok uuid.Nil := by
  refine ⟨by decide, _, makeJWT_eq uuid.Nil (str "") 0 0, ?_⟩
  rw [validateJWT_of_makeJWT uuid.Nil (str "") [0] 0 0 0 _ (makeJWT_eq uuid.Nil (str "") 0 0),
    if_pos, if_pos (by decide)]
  exact (hmac_sum_append_zero [] _ (by decide)).symm

/-- C2, amended: for every identity and all secrets `s1`, `s2`, `ValidateJWT`
under `s2` of the token that `MakeJWT` makes under `s1` fails with the signature
error exactly when the HMAC-SHA256 of the signing string under `s2` differs from
the one under `s1`; when the two are equal it does what it does under `s1`
(the identity before the expiry, the expiry error from then on), which is so
whenever the two secrets have the same HMAC key block; and it never returns
another identity. -/
theorem validateJWT_under_other_secret (userID : UUID) (s1 s2 : GoString)
    (nowIat nowExp now : Time) :
    ∃ tok, auth.MakeJWT userID s1 nowIat nowExp = .ok tok
      ∧ auth.ValidateJWT tok s2 now
        = (if hmac.Sum s1
              (jwt.SigningString (sessionClaims userID (jwt.NewNumericDate nowIat)
                (jwt.NewNumericDate (time.Add nowExp (time.Hour * 1)))))
            = hmac.Sum s2
              (jwt.SigningString (sessionClaims userID (jwt.NewNumericDate nowIat)
                (jwt.NewNumericDate (time.Add nowExp (time.Hour * 1))))) then
            if time.Before now (jwt.NewNumericDate (time.Add nowExp (time.Hour * 1))) then
              .ok userID
            else .error .tokenExpired
          else .error .tokenSignatureInvalid)
      ∧ (hmac.blockKey s1 = hmac.blockKey s2 →
          auth.ValidateJWT tok s2 now = auth.ValidateJWT tok s1 now)
      ∧ ∀ other, auth.ValidateJWT tok s2 now = .ok other → other = userID := by
  refine ⟨_, makeJWT_eq userID s1 nowIat nowExp, ?_, ?_, ?_⟩
  · exact validateJWT_of_makeJWT userID s1 s2 nowIat nowExp now _ (makeJWT_eq _ _ _ _)
  · intro hk
    rw [validateJWT_of_makeJWT userID s1 s2 nowIat nowExp now _ (makeJWT_eq _ _ _ _),
      validateJWT_of_makeJWT userID s1 s1 nowIat nowExp now _ (makeJWT_eq _ _ _ _),
      hmac_sum_of_blockKey s1 s2 _ hk]
  · intro other
    rw [validateJWT_of_makeJWT userID s1 s2 nowIat nowExp now _ (makeJWT_eq _ _ _ _)]
    split_ifs
    · intro h
      cases h
      rfl
    · intro h
      cases h
    · intro h
      cases h

/-- C3 on the code: `MakeJWT` takes no ttl and always writes the expiry one hour
after its clock reading.  For the token of `TestExpiredToken` (issued at the
instant `t`, where the test asks for a ttl of minus one hour) `ValidateJWT` under
the correct secret succeeds at `t` itself and up to the last nanosecond before
`t` plus one hour, and fails with the expiry error at `t` plus one hour. -/
theorem makeJWT_ignores_ttl :
    ∃ tok, auth.MakeJWT uuid.Nil (str "your-test-secret") 1700000000000000000
        1700000000000000000 = .ok tok
      ∧ auth.ValidateJWT tok (str "your-test-secret") 1700000000000000000 = .ok uuid.Nil
      ∧ auth.ValidateJWT tok (str "your-test-secret") 1700003599999999999 = .ok uuid.Nil
      ∧ auth.ValidateJWT tok (str "your-test-secret") 1700003600000000000
          = .error .tokenExpired := by
  refine ⟨_, makeJWT_eq _ _ _ _, ?_, ?_, ?_⟩
  · rw [validateJWT_of_makeJWT _ _ _ _ _ _ _ (makeJWT_eq _ _ _ _), if_pos rfl,
      if_pos (by decide)]
  · rw [validateJWT_of_makeJWT _ _ _ _ _ _ _ (makeJWT_eq _ _ _ _), if_pos rfl,
      if_pos (by decide)]
  · rw [validateJWT_of_makeJWT _ _ _ _ _ _ _ (makeJWT_eq _ _ _ _), if_pos rfl,
      if_neg (by decide)]

/-! ## Refresh tokens: the claim C10 -/

theorem hextable_range (n : Fin 16) :
    (0x30 ≤ (hex.hextable.getD n.val 0).val ∧ (hex.hextable.getD n.val 0).val ≤ 0x39)
    ∨ (0x61 ≤ (hex.hextable.getD n.val 0).val ∧ (hex.hextable.getD n.val 0).val ≤ 0x66) := by
  revert n
  decide

theorem hex_encode_cons (b : Byte) (bs : GoString) :
    hex.EncodeToString (b :: bs)
      = hex.hextable.getD (b.val / 16) 0 :: hex.hextable.getD (b.val % 16) 0
        :: hex.EncodeToString bs := by
  simp [hex.EncodeToString]

theorem hex_encode_length (bs : GoString) : (hex.EncodeToString bs).length = 2 * bs.length := by
  induction bs with
  | nil => rfl
  | cons b bs ih =>
    rw [hex_encode_cons]
    simp only [List.length_cons, ih]
    omega

theorem hex_encode_digits (bs : GoString) : ∀ c ∈ hex.EncodeToString bs,
    (0x30 ≤ c.val ∧ c.val ≤ 0x39) ∨ (0x61 ≤ c.val ∧ c.val ≤ 0x66) := by
  induction bs with
  | nil => simp [hex.EncodeToString]
  | cons b bs ih =>
    intro c hc
    rw [hex_encode_cons] at hc
    simp only [List.mem_cons] at hc
    rcases hc with rfl | rfl | hc
    · exact hextable_range ⟨b.val / 16, by omega⟩
    · exact hextable_range ⟨b.val % 16, by omega⟩
    · exact ih c hc

/-- The function `hex.DecodeString` reads back what `hex.EncodeToString` writes. -/
theorem hex_decode_encode (bs : GoString) :
    hex.DecodeString (hex.EncodeToString bs) = .ok bs := by
  induction bs with
  | nil => rfl
  | cons b bs ih =>
    have h1 := fromHexChar_hextable ⟨b.val / 16, by omega⟩
    have h2 := fromHexChar_hextable ⟨b.val % 16, by omega⟩
    simp only at h1 h2
    rw [hex_encode_cons, hex.DecodeString, h1, h2]
    simp only [ih, byte]
    congr 2
    apply Fin.ext
    simp only [Fin.ofNat, Fin.val_mk]
    omega

/-- C10: whenever the random source succeeds, `MakeRefreshToken` returns the
hexadecimal encoding of the 32 bytes that it has read from the source, a string
of exactly 64 characters, each of them in `0-9a-f`, from which hexadecimal
decoding recovers the 32 bytes; and `MakeRefreshToken` returns an error exactly
when the random source does, the same error. -/
theorem makeRefreshToken_format (bytes : Nat → Byte) :
    (auth.MakeRefreshToken (.ok bytes) = .ok (hex.EncodeToString ((List.range 32).map bytes))
      ∧ ((List.range 32).map bytes).length = 32
      ∧ (hex.EncodeToString ((List.range 32).map bytes)).length = 64
      ∧ (∀ c ∈ hex.EncodeToString ((List.range 32).map bytes),
          (0x30 ≤ c.val ∧ c.val ≤ 0x39) ∨ (0x61 ≤ c.val ∧ c.val ≤ 0x66))
      ∧ hex.DecodeString (hex.EncodeToString ((List.range 32).map bytes))
          = .ok ((List.range 32).map bytes))
    ∧ ∀ (reader : rand.Reader) (e : GoError),
        auth.MakeRefreshToken reader = .error e ↔ reader = .error e := by
  have hlen : ((List.range 32).map bytes).length = 32 := by
    rw [List.length_map, List.length_range]
  refine ⟨⟨rfl, hlen, ?_, hex_encode_digits _, hex_decode_encode _⟩, ?_⟩
  · rw [hex_encode_length, hlen]
  · intro reader e
    cases reader with
    | error e2 => simp [auth.MakeRefreshToken, rand.Read]
    | ok b => simp [auth.MakeRefreshToken, rand.Read]

/-- A witness of C10: a random source that delivers the bytes `00 01 02 ...`, of
which `MakeRefreshToken` takes the 32 bytes `00 01 ... 1f`. -/
theorem makeRefreshToken_format_witness :
    auth.MakeRefreshToken (.ok fun i => byte i)
      = .ok (str "000102030405060708090a0b0c0d0e0f101112131415161718191a1b1c1d1e1f")
    ∧ hex.DecodeString
        (str "000102030405060708090a0b0c0d0e0f101112131415161718191a1b1c1d1e1f")
      = .ok ((List.range 32).map fun i => byte i) := by
  have h := makeRefreshToken_format (fun i => byte i)
  have e : hex.EncodeToString ((List.range 32).map fun i => byte i)
      = str "000102030405060708090a0b0c0d0e0f101112131415161718191a1b1c1d1e1f" := by decide
  rw [e] at h
  exact ⟨h.1.1, h.1.2.2.2.2⟩

/-! ## A session token as a bearer credential -/

theorem trimSpace_of_ascii_nonspace (s : GoString)
    (h : ∀ b ∈ s, b.val < utf8.RuneSelf ∧ strings.asciiSpace b = false) :
    strings.TrimSpace s = s := by
  cases s with
  | nil => rfl
  | cons c cs =>
    obtain ⟨h1, h2⟩ := h c (List.mem_cons_self _ _)
    rw [strings.TrimSpace, if_neg (by omega), h2]
    simp only [if_true]
    cases hrev : (c :: cs).reverse with
    | nil => simp at hrev
    | cons l r =>
      have hl : l ∈ c :: cs := by
        rw [← List.mem_reverse, hrev]
        exact List.mem_cons_self _ _
      obtain ⟨h3, h4⟩ := h l hl
      rw [strings.trimSpaceStop, if_neg (by omega), h4]
      simp only [if_true]
      rw [← hrev, List.reverse_reverse]

theorem trimSpace_space_cons (s : GoString) :
    strings.TrimSpace (0x20 :: s) = strings.TrimSpace s := by
  rw [strings.TrimSpace, if_neg (by decide)]
  rfl

theorem enc_ascii_nonspace (v : Nat) :
    (base64.enc v).val < utf8.RuneSelf ∧ strings.asciiSpace (base64.enc v) = false := by
  have : ∀ w : Fin 64, (base64.enc w.val).val < utf8.RuneSelf
      ∧ strings.asciiSpace (base64.enc w.val) = false := by decide
  have h := this ⟨v % 64, Nat.mod_lt _ (by decide)⟩
  simpa [base64.enc] using h

theorem base64_ascii_nonspace (bs : GoString) : ∀ c ∈ base64.EncodeToString bs,
    c.val < utf8.RuneSelf ∧ strings.asciiSpace c = false := by
  induction bs using base64.EncodeToString.induct with
  | case1 => simp [base64.EncodeToString]
  | case2 a =>
    intro c hc
    simp only [base64.EncodeToString, List.mem_cons, List.mem_singleton, List.not_mem_nil,
      or_false] at hc
    rcases hc with rfl | rfl <;> exact enc_ascii_nonspace _
  | case3 a b =>
    intro c hc
    simp only [base64.EncodeToString, List.mem_cons, List.mem_singleton, List.not_mem_nil,
      or_false] at hc
    rcases hc with rfl | rfl | rfl <;> exact enc_ascii_nonspace _
  | case4 a b c rest ih =>
    intro x hx
    simp only [base64.EncodeToString, List.mem_cons] at hx
    rcases hx with rfl | rfl | rfl | rfl | hx
    · exact enc_ascii_nonspace _
    · exact enc_ascii_nonspace _
    · exact enc_ascii_nonspace _
    · exact enc_ascii_nonspace _
    · exact ih x hx

theorem header_segment :
    jwt.EncodeSegment (jwt.marshalHeader jwt.newHeader)
      = str "eyJhbGciOiJIUzI1NiIsInR5cCI6IkpXVCJ9" := by
  decide

/-- The token of `MakeJWT` is not empty and consists of ASCII bytes other than
white space. -/
theorem makeJWT_token_bytes (userID : UUID) (tokenSecret : GoString) (nowIat nowExp : Time)
    (tok : GoString) (h : auth.MakeJWT userID tokenSecret nowIat nowExp = .ok tok) :
    tok ≠ [] ∧ ∀ b ∈ tok, b.val < utf8.RuneSelf ∧ strings.asciiSpace b = false := by
  rw [makeJWT_eq] at h
  cases h
  constructor
  · have hh : jwt.EncodeSegment (jwt.marshalHeader jwt.newHeader) ≠ [] := by
      rw [header_segment]
      decide
    simp only [jwt.SigningString, List.append_assoc]
    intro hnil
    exact hh (List.append_eq_nil.1 hnil).1
  · intro b hb
    simp only [jwt.SigningString, jwt.EncodeSegment, str_dot, List.mem_append,
      List.mem_singleton] at hb
    rcases hb with (((hb | hb) | hb) | hb) | hb
    · exact base64_ascii_nonspace _ b hb
    · rw [hb]
      decide
    · exact base64_ascii_nonspace _ b hb
    · rw [hb]
      decide
    · exact base64_ascii_nonspace _ b hb

theorem str_bearer_space (tok : GoString) :
    str "Bearer " ++ tok = 66 :: 101 :: 97 :: 114 :: 101 :: 114 :: 32 :: tok := by
  have : str "Bearer " = [66, 101, 97, 114, 101, 114, 32] := by decide
  rw [this]
  rfl

/-- The function `GetBearerToken` extracts the token of `MakeJWT` from the header value
`Bearer <token>`. -/
theorem getBearerToken_of_makeJWT (userID : UUID) (tokenSecret : GoString)
    (nowIat nowExp : Time) (tok : GoString)
    (h : auth.MakeJWT userID tokenSecret nowIat nowExp = .ok tok) :
    auth.GetBearerToken [(str "Authorization", [str "Bearer " ++ tok])] = .ok tok := by
  obtain ⟨hne, hb⟩ := makeJWT_token_bytes userID tokenSecret nowIat nowExp tok h
  have hget : Header.Get [(str "Authorization", [str "Bearer " ++ tok])] (str "Authorization")
      = str "Bearer " ++ tok := by
    simp [Header.Get, List.lookup]
  have hrem : removeFirstOccurrence (str "Bearer") (str "Bearer " ++ tok) = 0x20 :: tok := by
    rw [str_bearer_space, str_Bearer, removeFirstOccurrence, if_pos]
    · rfl
    · exact ⟨32 :: tok, rfl⟩
  rw [getBearerToken_eq, hget, hrem, trimSpace_space_cons, trimSpace_of_ascii_nonspace tok hb,
    if_neg hne]

theorem makeJWT_sessionToken (userID : UUID) (tokenSecret : GoString) (nowIat nowExp : Time) :
    auth.MakeJWT userID tokenSecret nowIat nowExp
      = .ok (sessionToken userID tokenSecret nowIat nowExp) := by
  rw [sessionToken, makeJWT_eq]

/-! ## Handlers: the claims C6 to C9 -/

theorem status_respondWithError (code : Nat) (msg : GoString) :
    api.status (api.respondWithError [] code msg) = some code := rfl

/-- C6: for every delete request that carries a valid session token of the
identity `a`, against an existing chirp: when `a` is not the owner of the chirp
the status is 403 and the store is left as it was; when `a` is the owner and
the delete query succeeds, the status is 204 and the store is the one after the
delete query. -/
theorem deleteChirp_ownership {σ : Type} (cfg : api.config σ) (db : σ) (req : api.Request)
    (now : Time) (jwtToken : GoString) (a chirpUUID : UUID) (chirp : database.Chirp)
    (htoken : auth.GetBearerToken req.Header = .ok jwtToken)
    (hvalid : auth.ValidateJWT jwtToken cfg.Secret now = .ok a)
    (hid : req.PathValue (str "chirpId") ≠ str "")
    (hparse : uuid.Parse (req.PathValue (str "chirpId")) = .ok chirpUUID)
    (hchirp : cfg.Db.GetChirpById db chirpUUID = .ok chirp) :
    (a ≠ chirp.UserID →
      api.status (api.handlerDeleteChirp cfg db [] req now).1 = some 403
      ∧ (api.handlerDeleteChirp cfg db [] req now).2 = db)
    ∧ (a = chirp.UserID → ∀ db2, cfg.Db.DeleteChirpById db chirpUUID = (none, db2) →
      api.status (api.handlerDeleteChirp cfg db [] req now).1 = some 204
      ∧ (api.handlerDeleteChirp cfg db [] req now).2 = db2) := by
  constructor
  · intro hne
    simp only [api.handlerDeleteChirp, htoken, hid, if_false, hparse, hchirp, hvalid, ne_eq, hne,
      not_false_eq_true, if_true, status_respondWithError, and_self]
  · intro heq db2 hdel
    simp only [api.handlerDeleteChirp, htoken, hid, if_false, hparse, hchirp, hvalid, ne_eq, heq,
      not_true_eq_false, hdel, List.nil_append, api.status, and_self]

/-- A witness of C6 on the in-memory store: the chirp `rowID 0` is owned by the
identity `rowID 1`.  With a session token of `rowID 1` the delete request gets
204 and the chirp is gone; with a session token of `rowID 2` it gets 403 and
the store is unchanged. -/
theorem deleteChirp_ownership_witness :
    (api.status (api.handlerDeleteChirp exampleConfig exampleDb []
        (exampleRequest [str "Bearer " ++ sessionToken (rowID 1) (str "secret") 0 0]
          (uuid.String (rowID 0))) 0).1 = some 204
      ∧ (api.handlerDeleteChirp exampleConfig exampleDb []
        (exampleRequest [str "Bearer " ++ sessionToken (rowID 1) (str "secret") 0 0]
          (uuid.String (rowID 0))) 0).2 = { exampleDb with chirps := [] })
    ∧ (api.status (api.handlerDeleteChirp exampleConfig exampleDb []
        (exampleRequest [str "Bearer " ++ sessionToken (rowID 2) (str "secret") 0 0]
          (uuid.String (rowID 0))) 0).1 = some 403
      ∧ (api.handlerDeleteChirp exampleConfig exampleDb []
        (exampleRequest [str "Bearer " ++ sessionToken (rowID 2) (str "secret") 0 0]
          (uuid.String (rowID 0))) 0).2 = exampleDb) :=
  ⟨(deleteChirp_ownership exampleConfig exampleDb
      (exampleRequest [str "Bearer " ++ sessionToken (rowID 1) (str "secret") 0 0]
        (uuid.String (rowID 0))) 0 (sessionToken (rowID 1) (str "secret") 0 0) (rowID 1)
      (rowID 0) _
      (getBearerToken_of_makeJWT _ _ _ _ _ (makeJWT_sessionToken _ _ _ _))
      (by
        show auth.ValidateJWT _ (str "secret") 0 = _
        rw [validateJWT_of_makeJWT (rowID 1) (str "secret") (str "secret") 0 0 0 _
          (makeJWT_sessionToken _ _ _ _), if_pos rfl, if_pos (by decide)])
      (uuid_string_ne_nil _) (uuid_parse_string _) rfl).2 rfl _ rfl,
   (deleteChirp_ownership exampleConfig exampleDb
      (exampleRequest [str "Bearer " ++ sessionToken (rowID 2) (str "secret") 0 0]
        (uuid.String (rowID 0))) 0 (sessionToken (rowID 2) (str "secret") 0 0) (rowID 2)
      (rowID 0) _
      (getBearerToken_of_makeJWT _ _ _ _ _ (makeJWT_sessionToken _ _ _ _))
      (by
        show auth.ValidateJWT _ (str "secret") 0 = _
        rw [validateJWT_of_makeJWT (rowID 2) (str "secret") (str "secret") 0 0 0 _
          (makeJWT_sessionToken _ _ _ _), if_pos rfl, if_pos (by decide)])
      (uuid_string_ne_nil _) (uuid_parse_string _) rfl).1 (by decide)⟩

theorem status_respondWithError_header (k v : GoString) (code : Nat) (msg : GoString) :
    api.status (api.respondWithError [.HeaderSet k v] code msg) = some code := rfl

/-- C7, as stated, fails.  On the in-memory store: a create request without an
Authorization header whose body does not decode gets 400, not 401; and a delete
request for the existing chirp with the malformed token `abc` gets 403, and 404
when its chirp id is empty. -/
theorem unauthenticated_not_always_401 :
    ((∃ e, auth.GetBearerToken (exampleRequest [] []).Header = .error e)
      ∧ api.status (api.handlerCreateChirp exampleConfig exampleDb []
          (exampleRequest [] []) 0).1 = some 400)
    ∧ (auth.GetBearerToken (exampleRequest [str "Bearer abc"] (uuid.String (rowID 0))).Header
          = .ok (str "abc")
      ∧ auth.ValidateJWT (str "abc") exampleConfig.Secret 0 = .error .tokenMalformed
      ∧ api.status (api.handlerDeleteChirp exampleConfig exampleDb []
          (exampleRequest [str "Bearer abc"] (uuid.String (rowID 0))) 0).1 = some 403
      ∧ api.status (api.handlerDeleteChirp exampleConfig exampleDb []
          (exampleRequest [str "Bearer abc"] []) 0).1 = some 404) := by
  refine ⟨⟨⟨.msg (str "Token not provided"), by decide⟩, by decide⟩, by decide, by decide, ?_,
    by decide⟩
  have h1 : auth.GetBearerToken
      (exampleRequest [str "Bearer abc"] (uuid.String (rowID 0))).Header = .ok (str "abc") := by
    decide
  have h2 : auth.ValidateJWT (str "abc") exampleConfig.Secret 0 = .error .tokenMalformed := by
    decide
  have h3 : (exampleRequest [str "Bearer abc"] (uuid.String (rowID 0))).PathValue (str "chirpId")
      = uuid.String (rowID 0) := by
    decide
  have h4 : exampleConfig.Db.GetChirpById exampleDb (rowID 0)
      = .ok { ID := rowID 0, CreatedAt := memoryTime 0, UpdatedAt := memoryTime 0,
              Body := str "hello", UserID := rowID 1 } := rfl
  have h5 : ¬ uuid.String (rowID 0) = str "" := uuid_string_ne_nil _
  simp only [api.handlerDeleteChirp, h1, h3, h5, if_false, uuid_parse_string, h4, h2,
    status_respondWithError]

/-- C7, amended: for every request whose bearer token is missing (extraction
fails) or invalid (`ValidateJWT` fails), `handlerUpdateUser` answers 401 with the
same response whichever step failed; so does `handlerCreateChirp` once the body
has decoded and passed the length check; `handlerDeleteChirp` answers 401 when
the token is missing; and none of the three handlers changes the store. -/
theorem unauthenticated_requests {σ : Type} (cfg : api.config σ)
    (hashPassword : GoString → Except GoError GoString) (db : σ) (req : api.Request)
    (now : Time)
    (h : (∃ e, auth.GetBearerToken req.Header = .error e)
      ∨ ∃ tok e, auth.GetBearerToken req.Header = .ok tok
          ∧ auth.ValidateJWT tok cfg.Secret now = .error e) :
    (api.handlerUpdateUser cfg hashPassword db [] req now
        = (api.respondWithError [] 401 (str "Invalid token"), db)
      ∧ api.status (api.handlerUpdateUser cfg hashPassword db [] req now).1 = some 401)
    ∧ (∀ body, req.decodeChirp = .ok body → api.isValidChirp body = true →
        api.handlerCreateChirp cfg db [] req now
          = (api.respondWithError [.HeaderSet (str "Content-Type") (str "application/json")] 401
              (str "Unauthorized"), db)
        ∧ api.status (api.handlerCreateChirp cfg db [] req now).1 = some 401)
    ∧ ((∃ e, auth.GetBearerToken req.Header = .error e) →
        api.handlerDeleteChirp cfg db [] req now
          = (api.respondWithError [] 401 (str "Unauthorized"), db)
        ∧ api.status (api.handlerDeleteChirp cfg db [] req now).1 = some 401)
    ∧ (api.handlerCreateChirp cfg db [] req now).2 = db
    ∧ (api.handlerDeleteChirp cfg db [] req now).2 = db := by
  have hupd : api.handlerUpdateUser cfg hashPassword db [] req now
      = (api.respondWithError [] 401 (str "Invalid token"), db) := by
    rcases h with ⟨e, he⟩ | ⟨tok, e, ht, hv⟩
    · simp only [api.handlerUpdateUser, he]
    · simp only [api.handlerUpdateUser, ht, hv]
  have hcreate : ∀ body, req.decodeChirp = .ok body → api.isValidChirp body = true →
      api.handlerCreateChirp cfg db [] req now
        = (api.respondWithError [.HeaderSet (str "Content-Type") (str "application/json")] 401
            (str "Unauthorized"), db) := by
    intro body hb hv
    rcases h with ⟨e, he⟩ | ⟨tok, e, ht, hv2⟩
    · simp only [api.handlerCreateChirp, hb, hv, he, Bool.not_true, Bool.false_eq_true,
        if_false, List.nil_append]
    · simp only [api.handlerCreateChirp, hb, hv, ht, hv2, Bool.not_true, Bool.false_eq_true,
        if_false, List.nil_append]
  have hdel : (∃ e, auth.GetBearerToken req.Header = .error e) →
      api.handlerDeleteChirp cfg db [] req now
        = (api.respondWithError [] 401 (str "Unauthorized"), db) := by
    rintro ⟨e, he⟩
    simp only [api.handlerDeleteChirp, he]
  refine ⟨⟨hupd, ?_⟩, ?_, ?_, ?_, ?_⟩
  · rw [hupd]
    rfl
  · intro body hb hv
    refine ⟨hcreate body hb hv, ?_⟩
    rw [hcreate body hb hv]
    rfl
  · intro hm
    refine ⟨hdel hm, ?_⟩
    rw [hdel hm]
    rfl
  · cases hd : req.decodeChirp with
    | error e => simp only [api.handlerCreateChirp, hd]
    | ok body =>
      by_cases hv : api.isValidChirp body = true
      · rw [hcreate body hd hv]
      · simp only [Bool.not_eq_true] at hv
        simp only [api.handlerCreateChirp, hd, hv, Bool.not_false, if_true]
  · rcases h with ⟨e, he⟩ | ⟨tok, e, ht, hv⟩
    · rw [hdel ⟨e, he⟩]
    · by_cases hid : req.PathValue (str "chirpId") = str ""
      · simp only [api.handlerDeleteChirp, ht, hid, if_true]
      · cases hp : uuid.Parse (req.PathValue (str "chirpId")) with
        | error e2 => simp only [api.handlerDeleteChirp, ht, hid, if_false, hp]
        | ok id =>
          cases hc : cfg.Db.GetChirpById db id with
          | error e3 => simp only [api.handlerDeleteChirp, ht, hid, if_false, hp, hc]
          | ok chirp => simp only [api.handlerDeleteChirp, ht, hid, if_false, hp, hc, hv]

/-- A witness of the amended C7 on the in-memory store: a request without an
Authorization header, and a request with the malformed token `abc`. -/
theorem unauthenticated_requests_witness :
    api.status (api.handlerUpdateUser exampleConfig (fun p => .ok p) exampleDb []
        (exampleRequest [] []) 0).1 = some 401
    ∧ api.status (api.handlerUpdateUser exampleConfig (fun p => .ok p) exampleDb []
        (exampleRequest [str "Bearer abc"] []) 0).1 = some 401
    ∧ api.status (api.handlerDeleteChirp exampleConfig exampleDb []
        (exampleRequest [] []) 0).1 = some 401 :=
  ⟨(unauthenticated_requests exampleConfig (fun p => .ok p) exampleDb (exampleRequest [] []) 0
      (Or.inl ⟨.msg (str "Token not provided"), by decide⟩)).1.2,
   (unauthenticated_requests exampleConfig (fun p => .ok p) exampleDb
      (exampleRequest [str "Bearer abc"] []) 0
      (Or.inr ⟨str "abc", .tokenMalformed, by decide, by decide⟩)).1.2,
   ((unauthenticated_requests exampleConfig (fun p => .ok p) exampleDb (exampleRequest [] []) 0
      (Or.inl ⟨.msg (str "Token not provided"), by decide⟩)).2.2.1
      ⟨.msg (str "Token not provided"), by decide⟩).2⟩

theorem until_le_zero_iff (now t : Time) : time.Until now t ≤ 0 ↔ t ≤ now := by
  unfold time.Until
  exact sub_nonpos

theorem status_respondWithJSON_token (token : GoString) :
    api.status (api.respondWithJSON [] 200 (.token token)) = some 200 := rfl

/-- The response of the refresh handler when the update of the refresh token
fails: on the store whose refresh update fails, the refresh token `abc` has a
record, is not revoked and expires after the current instant; the handler mints
the session token and then answers 500 with the error of the store. -/
theorem refreshToken_update_failure :
    (∃ record, failingConfig.Db.GetRefreshTokenByToken exampleDb (str "abc") = .ok record
      ∧ record.RevokedAt.Valid = false ∧ 0 < record.ExpiresAt.instant)
    ∧ api.status (api.handlerRefreshToken failingConfig exampleDb []
        (exampleRequest [str "Bearer abc"] []) 0 0 0).rw = some 500
    ∧ api.written (api.handlerRefreshToken failingConfig exampleDb []
        (exampleRequest [str "Bearer abc"] []) 0 0 0).rw
        = str "\x7b\"error\":\"driver: bad connection\"\x7d"
    ∧ (api.handlerRefreshToken failingConfig exampleDb []
        (exampleRequest [str "Bearer abc"] []) 0 0 0).minted
        = some (sessionToken (rowID 1) (str "secret") 0 0) := by
  have h1 : auth.GetBearerToken (exampleRequest [str "Bearer abc"] []).Header
      = .ok (str "abc") := by decide
  have h2 : failingConfig.Db.GetRefreshTokenByToken exampleDb (str "abc")
      = .ok { Token := str "abc", CreatedAt := memoryTime 0, UpdatedAt := memoryTime 0,
              UserID := rowID 1, ExpiresAt := memoryTime 100,
              RevokedAt := { Time := memoryTime 0, Valid := false } } := rfl
  have h3 : failingConfig.Db.RefreshTokenByToken exampleDb (str "abc")
      = (some (.msg (str "driver: bad connection")), exampleDb) := rfl
  have h4 : ¬ ((false : Bool) = true ∨ time.Until 0 (memoryTime 100).instant ≤ 0) := by decide
  have hrun : api.handlerRefreshToken failingConfig exampleDb []
      (exampleRequest [str "Bearer abc"] []) 0 0 0
      = ⟨api.respondWithError [] 500 (str "driver: bad connection"), exampleDb,
          some (sessionToken (rowID 1) failingConfig.Secret 0 0)⟩ := by
    simp only [api.handlerRefreshToken, h1, h2, h4, if_false, makeJWT_sessionToken, h3,
      GoError.Error]
  refine ⟨⟨_, h2, rfl, by decide⟩, ?_, ?_, ?_⟩
  · rw [hrun]
    rfl
  · rw [hrun]
    decide
  · rw [hrun]
    rfl

/-- C8: for every request that presents a refresh token, redemption answers 401
and mints no session token whenever the token has no stored record, or its
stored revoked-at is set, or the current instant is at or after its stored
expires-at.  When none of these holds, redemption mints the session token of
`MakeJWT` for the identity stored with the refresh token, which `ValidateJWT`
reads back as that identity until the session token expires; the handler then
answers 200 with that token when the store's update of the refresh token
succeeds, and 500 with the store's error when it fails. -/
theorem refreshToken_redemption {σ : Type} (cfg : api.config σ) (db : σ) (req : api.Request)
    (now nowIat nowExp : Time) (refreshToken : GoString)
    (htoken : auth.GetBearerToken req.Header = .ok refreshToken) :
    (((∃ e, cfg.Db.GetRefreshTokenByToken db refreshToken = .error e)
        ∨ ∃ record, cfg.Db.GetRefreshTokenByToken db refreshToken = .ok record
            ∧ (record.RevokedAt.Valid = true ∨ record.ExpiresAt.instant ≤ now)) →
      api.handlerRefreshToken cfg db [] req now nowIat nowExp
        = ⟨api.respondWithError [] 401 (str "Missing token"), db, none⟩
      ∧ api.status (api.handlerRefreshToken cfg db [] req now nowIat nowExp).rw = some 401
      ∧ (api.handlerRefreshToken cfg db [] req now nowIat nowExp).minted = none)
    ∧ (∀ record, cfg.Db.GetRefreshTokenByToken db refreshToken = .ok record →
        record.RevokedAt.Valid = false → now < record.ExpiresAt.instant →
        ∃ tok, (api.handlerRefreshToken cfg db [] req now nowIat nowExp).minted = some tok
          ∧ auth.MakeJWT record.UserID cfg.Secret nowIat nowExp = .ok tok
          ∧ (∀ t, time.Before t (jwt.NewNumericDate (time.Add nowExp (time.Hour * 1))) = true →
              auth.ValidateJWT tok cfg.Secret t = .ok record.UserID)
          ∧ (∀ db2, cfg.Db.RefreshTokenByToken db refreshToken = (none, db2) →
              api.handlerRefreshToken cfg db [] req now nowIat nowExp
                = ⟨api.respondWithJSON [] 200 (.token tok), db2, some tok⟩
              ∧ api.status (api.handlerRefreshToken cfg db [] req now nowIat nowExp).rw
                  = some 200)
          ∧ (∀ err db2, cfg.Db.RefreshTokenByToken db refreshToken = (some err, db2) →
              api.handlerRefreshToken cfg db [] req now nowIat nowExp
                = ⟨api.respondWithError [] 500 err.Error, db2, some tok⟩)) := by
  constructor
  · intro hrej
    have hrun : api.handlerRefreshToken cfg db [] req now nowIat nowExp
        = ⟨api.respondWithError [] 401 (str "Missing token"), db, none⟩ := by
      rcases hrej with ⟨e, he⟩ | ⟨record, hr, hcond⟩
      · simp only [api.handlerRefreshToken, htoken, he]
      · have hc : record.RevokedAt.Valid = true
            ∨ time.Until now record.ExpiresAt.instant ≤ 0 := by
          rcases hcond with hc | hc
          · exact Or.inl hc
          · exact Or.inr ((until_le_zero_iff _ _).2 hc)
        simp only [api.handlerRefreshToken, htoken, hr, hc, if_true]
    refine ⟨hrun, ?_, ?_⟩
    · rw [hrun]
      rfl
    · rw [hrun]
  · intro record hr hvalid hexp
    have hc : ¬ (record.RevokedAt.Valid = true
        ∨ time.Until now record.ExpiresAt.instant ≤ 0) := by
      simp only [hvalid, Bool.false_eq_true, false_or, until_le_zero_iff]
      exact not_le.2 hexp
    have hok : ∀ db2, cfg.Db.RefreshTokenByToken db refreshToken = (none, db2) →
        api.handlerRefreshToken cfg db [] req now nowIat nowExp
          = ⟨api.respondWithJSON [] 200
              (.token (sessionToken record.UserID cfg.Secret nowIat nowExp)), db2,
              some (sessionToken record.UserID cfg.Secret nowIat nowExp)⟩ := by
      intro db2 hupd
      simp only [api.handlerRefreshToken, htoken, hr, hc, if_false, makeJWT_sessionToken, hupd]
    have hfail : ∀ err db2, cfg.Db.RefreshTokenByToken db refreshToken = (some err, db2) →
        api.handlerRefreshToken cfg db [] req now nowIat nowExp
          = ⟨api.respondWithError [] 500 err.Error, db2,
              some (sessionToken record.UserID cfg.Secret nowIat nowExp)⟩ := by
      intro err db2 hupd
      simp only [api.handlerRefreshToken, htoken, hr, hc, if_false, makeJWT_sessionToken, hupd]
    refine ⟨sessionToken record.UserID cfg.Secret nowIat nowExp, ?_,
      makeJWT_sessionToken _ _ _ _, ?_, ?_, hfail⟩
    · rcases hupd : cfg.Db.RefreshTokenByToken db refreshToken with ⟨_ | err, db2⟩
      · rw [hok db2 hupd]
      · rw [hfail err db2 hupd]
    · intro t ht
      rw [validateJWT_of_makeJWT record.UserID cfg.Secret cfg.Secret nowIat nowExp t _
        (makeJWT_sessionToken _ _ _ _), if_pos rfl, if_pos ht]
    · intro db2 hupd
      refine ⟨hok db2 hupd, ?_⟩
      rw [hok db2 hupd]
      rfl

/-- A witness of C8 on the in-memory store, whose refresh token `abc` of the
identity `rowID 1` expires at the instant 100: redemption at the instant 100
answers 401 and mints nothing, and redemption at the instant 0 mints the session
token of `rowID 1`. -/
theorem refreshToken_redemption_witness :
    (api.status (api.handlerRefreshToken exampleConfig exampleDb []
        (exampleRequest [str "Bearer abc"] []) 100 100 100).rw = some 401
      ∧ (api.handlerRefreshToken exampleConfig exampleDb []
        (exampleRequest [str "Bearer abc"] []) 100 100 100).minted = none)
    ∧ ∃ tok, (api.handlerRefreshToken exampleConfig exampleDb []
        (exampleRequest [str "Bearer abc"] []) 0 0 0).minted = some tok
      ∧ auth.ValidateJWT tok (str "secret") 0 = .ok (rowID 1) := by
  have h1 := (refreshToken_redemption exampleConfig exampleDb
    (exampleRequest [str "Bearer abc"] []) 100 100 100 (str "abc") (by decide)).1
    (Or.inr ⟨_, rfl, Or.inr (by decide)⟩)
  obtain ⟨tok, h2, -, h3, -, -⟩ := (refreshToken_redemption exampleConfig exampleDb
    (exampleRequest [str "Bearer abc"] []) 0 0 0 (str "abc") (by decide)).2 _ rfl rfl
    (by decide)
  exact ⟨h1.2, tok, h2, h3 0 (by decide)⟩

/-- C9: the webhook handler answers 401 exactly when the extraction of the API
key fails or the extracted key differs from the configured key, and then it
leaves the store as it was: it goes past authentication if and only if
`GetApiKey` succeeds with a key equal to the configured one. -/
theorem webhook_key_guard {σ : Type} (cfg : api.config σ) (db : σ) (req : api.Request) :
    (api.status (api.handlerUserUpgradeWebhook cfg db [] req).1 = some 401
      ↔ auth.GetApiKey req.Header ≠ .ok cfg.PolkaKey)
    ∧ (auth.GetApiKey req.Header ≠ .ok cfg.PolkaKey →
        (api.handlerUserUpgradeWebhook cfg db [] req).2 = db) := by
  cases hk : auth.GetApiKey req.Header with
  | error e =>
    simp only [api.handlerUserUpgradeWebhook, hk, status_respondWithError, ne_eq, reduceCtorEq,
      not_false_eq_true, implies_true, and_self]
  | ok key =>
    by_cases hkey : key = cfg.PolkaKey
    · subst hkey
      simp only [ne_eq, not_true_eq_false, iff_false, false_implies, and_true]
      simp only [api.handlerUserUpgradeWebhook, hk, ne_eq, not_true_eq_false, if_false]
      cases req.decodeWebhook with
      | error e => simp [status_respondWithError]
      | ok params =>
        by_cases hev : params.Event = str "user.upgraded"
        · simp only [hev, not_true_eq_false, if_false]
          cases uuid.Parse params.UserId with
          | error e => simp [status_respondWithError]
          | ok parsedId =>
            cases hup : cfg.Db.UpgradeUserById db parsedId with
            | mk res db2 =>
              cases res with
              | error e => simp [hup, status_respondWithError]
              | ok u => simp [hup, api.status]
        · simp [hev, status_respondWithError]
    · have hne : ¬ (Except.ok key : Except GoError GoString) = .ok cfg.PolkaKey := by
        intro h
        cases h
        exact hkey rfl
      simp only [api.handlerUserUpgradeWebhook, hk, ne_eq, hkey, not_false_eq_true, if_true,
        status_respondWithError, hne, implies_true, and_self]

/-- A witness of C9 on the in-memory store: a request with the key `wrong` is
answered 401 and the store is unchanged. -/
theorem webhook_key_guard_witness :
    api.status (api.handlerUserUpgradeWebhook exampleConfig exampleDb []
        (exampleRequest [str "ApiKey wrong"] [])).1 = some 401
    ∧ (api.handlerUserUpgradeWebhook exampleConfig exampleDb []
        (exampleRequest [str "ApiKey wrong"] [])).2 = exampleDb :=
  ⟨(webhook_key_guard exampleConfig exampleDb (exampleRequest [str "ApiKey wrong"] [])).1.2
      (by decide),
   (webhook_key_guard exampleConfig exampleDb (exampleRequest [str "ApiKey wrong"] [])).2
      (by decide)⟩

/-- A witness of the amended C2 with the secrets of `TestInvalidSignature`: the
two MACs differ, and the token made under `original-secret` is rejected under
`wrong-secret` with the signature error. -/
theorem validateJWT_under_other_secret_witness :
    ∃ tok, auth.MakeJWT uuid.Nil (str "original-secret") 0 0 = .ok tok
      ∧ auth.ValidateJWT tok (str "wrong-secret") 0 = .error .tokenSignatureInvalid := by
  obtain ⟨tok, h1, h2, -, -⟩ :=
    validateJWT_under_other_secret uuid.Nil (str "original-secret") (str "wrong-secret") 0 0 0
  refine ⟨tok, h1, ?_⟩
  rw [h2, if_neg]
  set_option maxRecDepth 1000000 in
  set_option maxHeartbeats 4000000 in
  decide

/-! ## Constant-time comparison -/

theorem or_eq_zero_iff (a b : Nat) : a ||| b = 0 ↔ a = 0 ∧ b = 0 := by
  constructor
  · intro h
    have hb : ∀ i, a.testBit i = false ∧ b.testBit i = false := by
      intro i
      have := congrArg (fun n => Nat.testBit n i) h
      simpa using this
    exact ⟨Nat.eq_of_testBit_eq fun i => by simp [(hb i).1],
      Nat.eq_of_testBit_eq fun i => by simp [(hb i).2]⟩
  · rintro ⟨rfl, rfl⟩
    rfl

theorem foldl_or_xor_eq_zero (x y : GoString) (h : x.length = y.length) (v : Nat) :
    (x.zip y).foldl (fun v xy => v ||| (xy.1.val ^^^ xy.2.val)) v = 0 ↔ v = 0 ∧ x = y := by
  induction x generalizing y v with
  | nil =>
    cases y with
    | nil => simp
    | cons b y => simp at h
  | cons a x ih =>
    cases y with
    | nil => simp at h
    | cons b y =>
      simp only [List.length_cons, Nat.add_right_cancel_iff] at h
      simp only [List.zip_cons_cons, List.foldl_cons, ih y h, or_eq_zero_iff, Nat.xor_eq_zero,
        List.cons.injEq, Fin.val_inj]
      tauto

/-- The function `subtle.ConstantTimeCompare` returns 1 exactly on equal
slices. -/
theorem constantTimeCompare_eq_one (x y : GoString) :
    subtle.ConstantTimeCompare x y = 1 ↔ x = y := by
  unfold subtle.ConstantTimeCompare
  by_cases h : x.length = y.length
  · simp only [ne_eq, h, not_true_eq_false, if_false]
    have := foldl_or_xor_eq_zero x y h 0
    constructor
    · intro h1
      by_contra hne
      rw [if_neg (fun h0 => hne (this.1 h0).2)] at h1
      exact absurd h1 (by decide)
    · intro h1
      rw [if_pos (this.2 ⟨rfl, h1⟩)]
  · simp only [ne_eq, h, not_false_eq_true, if_true]
    constructor
    · intro h1
      exact absurd h1 (by decide)
    · intro h1
      exact absurd (congrArg List.length h1) h
/-! ## The base64 encoding of bcrypt -/

theorem bcrypt_enc_mod (v : Nat) : bcrypt.enc (v % 64) = bcrypt.enc v := by
  simp only [bcrypt.enc, Nat.mod_mod]

theorem bcrypt_enc_ne_pad (v : Nat) : ¬ (bcrypt.enc v).val = 0x3D := by
  have h : ∀ w : Fin 64, ¬ (bcrypt.enc w.val).val = 0x3D := by decide
  rw [← bcrypt_enc_mod]
  exact h ⟨v % 64, Nat.mod_lt _ (by decide)⟩

theorem bcrypt_decodeMap_enc (v : Nat) : bcrypt.decodeMap (bcrypt.enc v) = some (v % 64) := by
  have h : ∀ w : Fin 64, bcrypt.decodeMap (bcrypt.enc w.val) = some w.val := by decide
  rw [← bcrypt_enc_mod]
  exact h ⟨v % 64, Nat.mod_lt _ (by decide)⟩

theorem length_eq_twentythree {α : Type} (l : List α) (h : l.length = 23) :
    ∃ b0 b1 b2 b3 b4 b5 b6 b7 b8 b9 b10 b11 b12 b13 b14 b15 b16 b17 b18 b19 b20 b21 b22,
      l = [b0, b1, b2, b3, b4, b5, b6, b7, b8, b9, b10, b11, b12, b13, b14, b15, b16, b17, b18,
        b19, b20, b21, b22] := by
  match l, h with
  | [b0, b1, b2, b3, b4, b5, b6, b7, b8, b9, b10, b11, b12, b13, b14, b15, b16, b17, b18, b19,
      b20, b21, b22], _ =>
    exact ⟨b0, b1, b2, b3, b4, b5, b6, b7, b8, b9, b10, b11, b12, b13, b14, b15, b16, b17, b18,
      b19, b20, b21, b22, rfl⟩

/-- The encoded form of a salt of 16 bytes has 22 characters. -/
theorem base64Encode_salt_length (salt : GoString) (h : salt.length = 16) :
    (bcrypt.base64Encode salt).length = 22 := by
  obtain ⟨b0, b1, b2, b3, b4, b5, b6, b7, b8, b9, b10, b11, b12, b13, b14, b15, rfl⟩ :=
    length_eq_sixteen salt h
  simp only [bcrypt.base64Encode, bcrypt.Encode, List.reverse_cons, List.reverse_nil,
    List.nil_append, List.cons_append, List.dropWhile_cons, bcrypt_enc_ne_pad, decide_True,
    decide_False, if_true, if_false, Fin.isValue, List.length_cons, List.length_nil,
    List.length_reverse, List.length_append]
  rfl
theorem bcrypt_decodeMap_pad : bcrypt.decodeMap 0x3D = none := by decide

/-- The encoded form of a salt of 16 bytes. -/
theorem base64Encode_salt (b0 b1 b2 b3 b4 b5 b6 b7 b8 b9 b10 b11 b12 b13 b14 b15 : Byte) :
    bcrypt.base64Encode [b0, b1, b2, b3, b4, b5, b6, b7, b8, b9, b10, b11, b12, b13, b14, b15]
      = [bcrypt.enc (b0.val / 4), bcrypt.enc (b0.val % 4 * 16 + b1.val / 16),
         bcrypt.enc (b1.val % 16 * 4 + b2.val / 64), bcrypt.enc (b2.val % 64),
         bcrypt.enc (b3.val / 4), bcrypt.enc (b3.val % 4 * 16 + b4.val / 16),
         bcrypt.enc (b4.val % 16 * 4 + b5.val / 64), bcrypt.enc (b5.val % 64),
         bcrypt.enc (b6.val / 4), bcrypt.enc (b6.val % 4 * 16 + b7.val / 16),
         bcrypt.enc (b7.val % 16 * 4 + b8.val / 64), bcrypt.enc (b8.val % 64),
         bcrypt.enc (b9.val / 4), bcrypt.enc (b9.val % 4 * 16 + b10.val / 16),
         bcrypt.enc (b10.val % 16 * 4 + b11.val / 64), bcrypt.enc (b11.val % 64),
         bcrypt.enc (b12.val / 4), bcrypt.enc (b12.val % 4 * 16 + b13.val / 16),
         bcrypt.enc (b13.val % 16 * 4 + b14.val / 64), bcrypt.enc (b14.val % 64),
         bcrypt.enc (b15.val / 4), bcrypt.enc (b15.val % 4 * 16)] := by
  simp only [bcrypt.base64Encode, bcrypt.Encode, List.reverse_cons, List.reverse_nil,
    List.nil_append, List.cons_append, List.dropWhile_cons, bcrypt_enc_ne_pad, decide_True,
    decide_False, if_true, if_false, Fin.isValue]
  rfl

/-- The encoded form of a salt of 16 bytes decodes, to 16 bytes. -/
theorem base64Decode_encode_salt (salt : GoString) (h : salt.length = 16) :
    ∃ csalt, bcrypt.base64Decode (bcrypt.base64Encode salt) = .ok csalt ∧ csalt.length = 16 := by
  obtain ⟨b0, b1, b2, b3, b4, b5, b6, b7, b8, b9, b10, b11, b12, b13, b14, b15, rfl⟩ :=
    length_eq_sixteen salt h
  rw [base64Encode_salt]
  simp only [bcrypt.base64Decode, List.length_cons, List.length_nil, Nat.reduceAdd, Nat.reduceMod,
    Nat.reduceSub, List.replicate, List.cons_append, List.nil_append, bcrypt.decodeLoop,
    bcrypt_decodeMap_enc, bcrypt_decodeMap_pad, Option.map_some']
  refine ⟨_, rfl, rfl⟩
/-- The encoded form of 23 bytes has 31 characters. -/
theorem base64Encode_hash_length (l : GoString) (h : l.length = 23) :
    (bcrypt.base64Encode l).length = 31 := by
  obtain ⟨b0, b1, b2, b3, b4, b5, b6, b7, b8, b9, b10, b11, b12, b13, b14, b15, b16, b17, b18,
    b19, b20, b21, b22, rfl⟩ := length_eq_twentythree l h
  simp only [bcrypt.base64Encode, bcrypt.Encode, List.reverse_cons, List.reverse_nil,
    List.nil_append, List.cons_append, List.dropWhile_cons, bcrypt_enc_ne_pad, decide_True,
    decide_False, if_true, if_false, Fin.isValue, List.length_cons, List.length_nil,
    List.length_reverse, List.length_append]
  rfl

/-! ## The bcrypt hash -/

theorem encryptRepeated_length (c : blowfish.Cipher) (n : Nat) (block : GoString)
    (h : block.length = 8) : (bcrypt.encryptRepeated c n block).length = 8 := by
  induction n generalizing block with
  | zero => exact h
  | succ n ih => exact ih _ rfl

theorem encryptAt_length (c : blowfish.Cipher) (cipherData : GoString) (i : Nat)
    (h : cipherData.length = 24) (hi : i + 8 ≤ 24) :
    (bcrypt.encryptAt c cipherData i).length = 24 := by
  have h8 : ((cipherData.drop i).take 8).length = 8 := by
    simp only [List.length_take, List.length_drop, h]
    omega
  simp only [bcrypt.encryptAt, List.length_append, List.length_take, List.length_drop, h,
    encryptRepeated_length c 64 _ h8]
  omega

/-- The function `bcrypt` does not fail on the encoded form of a salt of 16
bytes, and its result has 31 characters. -/
theorem bcrypt_ok (password : GoString) (cost : Int) (salt : GoString) (h : salt.length = 16) :
    ∃ hsh, bcrypt.bcrypt password cost (bcrypt.base64Encode salt) = .ok hsh
      ∧ hsh.length = 31 := by
  obtain ⟨csalt, hdec, hlen⟩ := base64Decode_encode_salt salt h
  have hsalted : ∃ c, blowfish.NewSaltedCipher (password ++ [0]) csalt = .ok c := by
    simp only [blowfish.NewSaltedCipher, hlen, Nat.reduceEqDiff, if_false, List.length_append,
      List.length_cons, List.length_nil, Nat.lt_one_iff, Nat.add_eq_zero, one_ne_zero, and_false]
    exact ⟨_, rfl⟩
  obtain ⟨c, hc⟩ := hsalted
  simp only [bcrypt.bcrypt, bcrypt.expensiveBlowfishSetup, hdec, hc]
  refine ⟨_, rfl, ?_⟩
  apply base64Encode_hash_length
  have hm : bcrypt.magicCipherData.length = 24 := by decide
  generalize bcrypt.expandRounds (password ++ [0]) csalt _ c = c2
  have h1 := encryptAt_length c2 _ 0 hm (by decide)
  have h2 := encryptAt_length c2 _ 8 h1 (by decide)
  have h3 := encryptAt_length c2 _ 16 h2 (by decide)
  simp only [List.length_take, h3, bcrypt.maxCryptedHashSize]
  rfl
theorem length_eq_twentytwo {α : Type} (l : List α) (h : l.length = 22) :
    ∃ b0 b1 b2 b3 b4 b5 b6 b7 b8 b9 b10 b11 b12 b13 b14 b15 b16 b17 b18 b19 b20 b21,
      l = [b0, b1, b2, b3, b4, b5, b6, b7, b8, b9, b10, b11, b12, b13, b14, b15, b16, b17, b18,
        b19, b20, b21] := by
  match l, h with
  | [b0, b1, b2, b3, b4, b5, b6, b7, b8, b9, b10, b11, b12, b13, b14, b15, b16, b17, b18, b19,
      b20, b21], _ =>
    exact ⟨b0, b1, b2, b3, b4, b5, b6, b7, b8, b9, b10, b11, b12, b13, b14, b15, b16, b17, b18,
      b19, b20, b21, rfl⟩

theorem length_eq_thirtyone {α : Type} (l : List α) (h : l.length = 31) :
    ∃ b0 b1 b2 b3 b4 b5 b6 b7 b8 b9 b10 b11 b12 b13 b14 b15 b16 b17 b18 b19 b20 b21 b22 b23 b24
      b25 b26 b27 b28 b29 b30,
      l = [b0, b1, b2, b3, b4, b5, b6, b7, b8, b9, b10, b11, b12, b13, b14, b15, b16, b17, b18,
        b19, b20, b21, b22, b23, b24, b25, b26, b27, b28, b29, b30] := by
  match l, h with
  | [b0, b1, b2, b3, b4, b5, b6, b7, b8, b9, b10, b11, b12, b13, b14, b15, b16, b17, b18, b19,
      b20, b21, b22, b23, b24, b25, b26, b27, b28, b29, b30], _ =>
    exact ⟨b0, b1, b2, b3, b4, b5, b6, b7, b8, b9, b10, b11, b12, b13, b14, b15, b16, b17, b18,
      b19, b20, b21, b22, b23, b24, b25, b26, b27, b28, b29, b30, rfl⟩

theorem formatCost_ten : bcrypt.formatCost 10 = [0x31, 0x30] := by decide

theorem str_hash_prefix : str "$2a$10$" = [0x24, 0x32, 0x61, 0x24, 0x31, 0x30, 0x24] := by decide

/-- The text of a hash of version `2a` and cost 10: the text `$2a$10$`, the
encoded salt and the encoded hash. -/
theorem hashed_Hash_eq (hash salt : GoString) (hs : salt.length = 22) (hh : hash.length = 31) :
    bcrypt.hashed.Hash { hash := hash, salt := salt, cost := 10, major := 0x32, minor := 0x61 }
      = str "$2a$10$" ++ salt ++ hash := by
  obtain ⟨s0, s1, s2, s3, s4, s5, s6, s7, s8, s9, s10, s11, s12, s13, s14, s15, s16, s17, s18,
    s19, s20, s21, rfl⟩ := length_eq_twentytwo salt hs
  obtain ⟨h0, h1, h2, h3, h4, h5, h6, h7, h8, h9, h10, h11, h12, h13, h14, h15, h16, h17, h18,
    h19, h20, h21, h22, h23, h24, h25, h26, h27, h28, h29, h30, rfl⟩ :=
    length_eq_thirtyone hash hh
  have hminor : ((0x61 : Byte) ≠ 0) = True := by decide
  simp only [bcrypt.hashed.Hash, formatCost_ten, str_hash_prefix, hminor, if_true,
    bcrypt.copyAt, bcrypt.encodedSaltSize, bcrypt.encodedHashSize]
  rfl

/-- The function `newFromHash` reads back the parts of a hash of version `2a` and
cost 10. -/
theorem newFromHash_hash (hash salt : GoString) (hs : salt.length = 22)
    (hh : hash.length = 31) :
    bcrypt.newFromHash (str "$2a$10$" ++ salt ++ hash)
      = .ok { hash := hash, salt := salt, cost := 10, major := 0x32, minor := 0x61 } := by
  obtain ⟨s0, s1, s2, s3, s4, s5, s6, s7, s8, s9, s10, s11, s12, s13, s14, s15, s16, s17, s18,
    s19, s20, s21, rfl⟩ := length_eq_twentytwo salt hs
  obtain ⟨h0, h1, h2, h3, h4, h5, h6, h7, h8, h9, h10, h11, h12, h13, h14, h15, h16, h17, h18,
    h19, h20, h21, h22, h23, h24, h25, h26, h27, h28, h29, h30, rfl⟩ :=
    length_eq_thirtyone hash hh
  rfl

/-! ## The key schedule reads the key through its first 18 words -/

theorem xorKey_congr (k1 k2 : GoString) (n i j1 j2 : Nat) (p : List Nat)
    (h : keyWords k1 n j1 = keyWords k2 n j2) :
    blowfish.xorKey k1 n i j1 p = blowfish.xorKey k2 n i j2 p := by
  induction n generalizing i j1 j2 p with
  | zero => rfl
  | succ n ih =>
    simp only [keyWords, List.cons.injEq] at h
    simp only [blowfish.xorKey, h.1]
    exact ih _ _ _ _ h.2

theorem expandKey_congr (k1 k2 : GoString) (c : blowfish.Cipher)
    (h : keyWords k1 18 0 = keyWords k2 18 0) :
    blowfish.ExpandKey k1 c = blowfish.ExpandKey k2 c := by
  simp only [blowfish.ExpandKey, xorKey_congr k1 k2 18 0 0 0 c.p h]

theorem expandKeyWithSalt_congr (k1 k2 salt : GoString) (c : blowfish.Cipher)
    (h : keyWords k1 18 0 = keyWords k2 18 0) :
    blowfish.expandKeyWithSalt k1 salt c = blowfish.expandKeyWithSalt k2 salt c := by
  simp only [blowfish.expandKeyWithSalt, xorKey_congr k1 k2 18 0 0 0 c.p h]

theorem expandRounds_congr (k1 k2 csalt : GoString) (rounds : Nat) (c : blowfish.Cipher)
    (h : keyWords k1 18 0 = keyWords k2 18 0) :
    bcrypt.expandRounds k1 csalt rounds c = bcrypt.expandRounds k2 csalt rounds c := by
  induction rounds generalizing c with
  | zero => rfl
  | succ n ih => simp only [bcrypt.expandRounds, expandKey_congr k1 k2 c h, ih]

/-- Two passwords whose keys (the password and a zero byte) give the same 18
key words have the same hash under every cost and every salt of 16 bytes. -/
theorem bcrypt_of_keyWords (p1 p2 : GoString) (cost : Int) (salt : GoString)
    (hsalt : salt.length = 16)
    (h : keyWords (p1 ++ [0]) 18 0 = keyWords (p2 ++ [0]) 18 0) :
    bcrypt.bcrypt p1 cost (bcrypt.base64Encode salt)
      = bcrypt.bcrypt p2 cost (bcrypt.base64Encode salt) := by
  obtain ⟨csalt, hdec, hlen⟩ := base64Decode_encode_salt salt hsalt
  have hsalted : ∀ p : GoString, blowfish.NewSaltedCipher (p ++ [0]) csalt
      = .ok (blowfish.expandKeyWithSalt (p ++ [0]) csalt blowfish.initCipher) := by
    intro p
    simp only [blowfish.NewSaltedCipher, hlen, Nat.reduceEqDiff, if_false, List.length_append,
      List.length_cons, List.length_nil, Nat.lt_one_iff, Nat.add_eq_zero, one_ne_zero, and_false]
  simp only [bcrypt.bcrypt, bcrypt.expensiveBlowfishSetup, hdec, hsalted,
    expandKeyWithSalt_congr _ _ csalt _ h, expandRounds_congr _ _ csalt _ _ h]

/-! ## Hashing a password and checking it -/

/-- The function `HashPassword` on a password of at most 72 bytes, when the
random source delivers `bytes`: the text `$2a$10$`, the encoded form of the salt
(the first 16 bytes of the source), and the result of `bcrypt` under the cost
10, of 31 characters. -/
theorem hashPassword_eq (password : GoString) (bytes : Nat → Byte)
    (hlen : password.length ≤ 72) :
    ∃ hsh, bcrypt.bcrypt password 10 (bcrypt.base64Encode ((List.range 16).map bytes))
        = .ok hsh
      ∧ hsh.length = 31
      ∧ auth.HashPassword password (.ok bytes)
          = .ok (str "$2a$10$" ++ bcrypt.base64Encode ((List.range 16).map bytes) ++ hsh) := by
  have hsalt : ((List.range 16).map bytes).length = 16 := by
    rw [List.length_map, List.length_range]
  obtain ⟨hsh, hb, hl⟩ := bcrypt_ok password 10 _ hsalt
  refine ⟨hsh, hb, hl, ?_⟩
  have hcost : (if (0 : Int) < bcrypt.MinCost then bcrypt.DefaultCost else 0) = 10 := by decide
  have hcheck : bcrypt.checkCost 10 = none := by decide
  simp only [auth.HashPassword, bcrypt.GenerateFromPassword, gt_iff_lt, not_lt.2 hlen, if_false,
    bcrypt.newFromPassword, hcost, hcheck, rand.Read, bcrypt.maxSaltSize, List.length_replicate,
    hb, bcrypt.majorVersion, bcrypt.minorVersion,
    hashed_Hash_eq hsh _ (base64Encode_salt_length _ hsalt) hl]

/-- The function `CheckPasswordHash` on a hash of version `2a` and cost 10 with
the encoded form of a salt of 16 bytes: no error exactly when `bcrypt` gives the
stored hash for the password. -/
theorem checkPasswordHash_eq (password salt hsh : GoString) (hsalt : salt.length = 16)
    (hl : hsh.length = 31) :
    auth.CheckPasswordHash password (str "$2a$10$" ++ bcrypt.base64Encode salt ++ hsh)
      = if bcrypt.bcrypt password 10 (bcrypt.base64Encode salt) = .ok hsh then none
        else some bcrypt.ErrMismatchedHashAndPassword := by
  obtain ⟨other, hb, hol⟩ := bcrypt_ok password 10 salt hsalt
  have hs := base64Encode_salt_length salt hsalt
  simp only [auth.CheckPasswordHash, bcrypt.CompareHashAndPassword,
    newFromHash_hash hsh _ hs hl, hb, hashed_Hash_eq hsh _ hs hl, hashed_Hash_eq other _ hs hol,
    constantTimeCompare_eq_one, List.append_cancel_left_eq, Except.ok.injEq]
  by_cases h : hsh = other
  · rw [if_pos h, if_pos h.symm]
  · rw [if_neg h, if_neg (fun h2 => h h2.symm)]

/-- The hash of `HashPassword` for a password accepts that password, and it
accepts any other password exactly when `bcrypt` gives both the same result. -/
theorem checkPasswordHash_hashedPassword (password : GoString) (bytes : Nat → Byte)
    (hlen : password.length ≤ 72) :
    auth.HashPassword password (.ok bytes) = .ok (hashedPassword password bytes)
    ∧ auth.CheckPasswordHash password (hashedPassword password bytes) = none
    ∧ ∀ other, auth.CheckPasswordHash other (hashedPassword password bytes)
        = if bcrypt.bcrypt other 10 (bcrypt.base64Encode ((List.range 16).map bytes))
            = bcrypt.bcrypt password 10 (bcrypt.base64Encode ((List.range 16).map bytes))
          then none
          else some bcrypt.ErrMismatchedHashAndPassword := by
  have hsalt : ((List.range 16).map bytes).length = 16 := by
    rw [List.length_map, List.length_range]
  obtain ⟨hsh, hb, hl, hh⟩ := hashPassword_eq password bytes hlen
  have hp : hashedPassword password bytes
      = str "$2a$10$" ++ bcrypt.base64Encode ((List.range 16).map bytes) ++ hsh := by
    simp only [hashedPassword, hh]
  rw [hp]
  refine ⟨hh, ?_, ?_⟩
  · rw [checkPasswordHash_eq password _ hsh hsalt hl, if_pos hb]
  · intro other
    rw [checkPasswordHash_eq other _ hsh hsalt hl, hb]

/-! ## Login failures: the claim C11 -/

/-- C11: for any two login requests with well-formed bodies, the first failing
because the store has no user for its email and the second failing because
`CheckPasswordHash` rejects its password against the stored hash, the calls on
the response writer are the same, the status is 401, the body is the same, no
session token is minted and the store is left as it was (no refresh token is
inserted).  The two runs may differ in the store state, the clock and the
random source. -/
theorem login_failures_indistinguishable {σ : Type} (cfg : api.config σ) (db1 db2 : σ)
    (req1 req2 : api.Request) (p1 p2 : api.UserParameters) (user : database.User)
    (e1 e2 : GoError) (iat1 exp1 iat2 exp2 : Time) (random1 random2 : rand.Reader)
    (hbody1 : req1.decodeUser = .ok p1) (hbody2 : req2.decodeUser = .ok p2)
    (hemail : cfg.Db.GetUserByEmail db1 p1.Email = .error e1)
    (huser : cfg.Db.GetUserByEmail db2 p2.Email = .ok user)
    (hpassword : auth.CheckPasswordHash p2.Password user.HashedPassword = some e2) :
    (api.handlerLogin cfg db1 [] req1 iat1 exp1 random1).rw
        = (api.handlerLogin cfg db2 [] req2 iat2 exp2 random2).rw
    ∧ api.status (api.handlerLogin cfg db1 [] req1 iat1 exp1 random1).rw = some 401
    ∧ api.status (api.handlerLogin cfg db2 [] req2 iat2 exp2 random2).rw = some 401
    ∧ api.written (api.handlerLogin cfg db1 [] req1 iat1 exp1 random1).rw
        = api.written (api.handlerLogin cfg db2 [] req2 iat2 exp2 random2).rw
    ∧ (api.handlerLogin cfg db1 [] req1 iat1 exp1 random1).minted = none
    ∧ (api.handlerLogin cfg db2 [] req2 iat2 exp2 random2).minted = none
    ∧ (api.handlerLogin cfg db1 [] req1 iat1 exp1 random1).db = db1
    ∧ (api.handlerLogin cfg db2 [] req2 iat2 exp2 random2).db = db2 := by
  have h1 : api.handlerLogin cfg db1 [] req1 iat1 exp1 random1
      = ⟨api.respondWithError [] 401 (str "Incorrect email or password"), db1, none⟩ := by
    simp only [api.handlerLogin, hbody1, hemail]
  have h2 : api.handlerLogin cfg db2 [] req2 iat2 exp2 random2
      = ⟨api.respondWithError [] 401 (str "Incorrect email or password"), db2, none⟩ := by
    simp only [api.handlerLogin, hbody2, huser, hpassword]
  rw [h1, h2]
  exact ⟨rfl, rfl, rfl, rfl, rfl, rfl, rfl, rfl⟩

/-- A witness of C11 on the in-memory store: a login for an email that has no
user, and a login for the user `ada@example.com` with a password that the stored
hash rejects, get the same response, with the status 401 and the body
`\x7b"error":"Incorrect email or password"\x7d`. -/
theorem login_failures_indistinguishable_witness :
    (api.handlerLogin exampleConfig legacyDb []
        (loginRequest (str "eve@example.com") (str "letmein")) 0 0 (.ok fun _ => 0)).rw
      = (api.handlerLogin exampleConfig legacyDb []
        (loginRequest (str "ada@example.com") (str "letmein")) 0 0 (.ok fun _ => 0)).rw
    ∧ api.status (api.handlerLogin exampleConfig legacyDb []
        (loginRequest (str "ada@example.com") (str "letmein")) 0 0 (.ok fun _ => 0)).rw = some 401
    ∧ api.written (api.handlerLogin exampleConfig legacyDb []
        (loginRequest (str "ada@example.com") (str "letmein")) 0 0 (.ok fun _ => 0)).rw
      = str "\x7b\"error\":\"Incorrect email or password\"\x7d" := by
  have h := login_failures_indistinguishable exampleConfig legacyDb legacyDb
    (loginRequest (str "eve@example.com") (str "letmein"))
    (loginRequest (str "ada@example.com") (str "letmein"))
    { Email := str "eve@example.com", Password := str "letmein" }
    { Email := str "ada@example.com", Password := str "letmein" }
    { ID := rowID 1, CreatedAt := memoryTime 0, UpdatedAt := memoryTime 0,
      Email := str "ada@example.com", HashedPassword := str "hunter2",
      IsChirpyRed := { Valid := true, Bool := false } }
    ErrNoRows bcrypt.ErrHashTooShort 0 0 0 0 (.ok fun _ => 0) (.ok fun _ => 0) rfl rfl
    (by decide) (by decide)
    (by decide)
  refine ⟨h.1, h.2.2.1, ?_⟩
  rw [← h.1]
  decide

/-! ## Failures of the refresh token store: the claim C12 -/

theorem written_respondWithError (code : Nat) (msg : GoString) :
    api.written (api.respondWithError [] code msg)
      = str "\x7b\"error\":" ++ json.encodeString msg ++ str "\x7d" := by
  simp only [api.respondWithError, api.marshalError, List.nil_append, List.cons_append,
    api.written, List.append_nil]

/-- C12, as stated, fails.  On the store whose writes fail, two revoke requests
that differ only in the message of the store's error both get the status 500,
with different bodies: each body carries the message of the error. -/
theorem storage_failure_body_depends_on_error :
    auth.GetBearerToken (exampleRequest [str "Bearer abc"] []).Header = .ok (str "abc")
    ∧ api.status (api.handlerRevokeToken (brokenConfig (.msg (str "driver: bad connection")))
        exampleDb [] (exampleRequest [str "Bearer abc"] [])).1 = some 500
    ∧ api.status (api.handlerRevokeToken (brokenConfig (.msg (str "pq: deadlock detected")))
        exampleDb [] (exampleRequest [str "Bearer abc"] [])).1 = some 500
    ∧ api.written (api.handlerRevokeToken (brokenConfig (.msg (str "driver: bad connection")))
        exampleDb [] (exampleRequest [str "Bearer abc"] [])).1
        = str "\x7b\"error\":\"driver: bad connection\"\x7d"
    ∧ api.written (api.handlerRevokeToken (brokenConfig (.msg (str "pq: deadlock detected")))
        exampleDb [] (exampleRequest [str "Bearer abc"] [])).1
        = str "\x7b\"error\":\"pq: deadlock detected\"\x7d"
    ∧ api.written (api.handlerRevokeToken (brokenConfig (.msg (str "driver: bad connection")))
        exampleDb [] (exampleRequest [str "Bearer abc"] [])).1
        ≠ api.written (api.handlerRevokeToken (brokenConfig (.msg (str "pq: deadlock detected")))
          exampleDb [] (exampleRequest [str "Bearer abc"] [])).1 := by
  have h1 : auth.GetBearerToken (exampleRequest [str "Bearer abc"] []).Header
      = .ok (str "abc") := by decide
  have hrun : ∀ err : GoError, api.handlerRevokeToken (brokenConfig err) exampleDb []
      (exampleRequest [str "Bearer abc"] [])
      = (api.respondWithError [] 500 err.Error, exampleDb) := by
    intro err
    have h2 : (brokenConfig err).Db.RevokeRefreshTokenByToken exampleDb (str "abc")
        = (some err, exampleDb) := rfl
    simp only [api.handlerRevokeToken, h1, h2]
  simp only [hrun, status_respondWithError, written_respondWithError, GoError.Error]
  refine ⟨h1, trivial, trivial, by decide, by decide, by decide⟩

/-- C12, amended: whenever a refresh token store operation fails (the insert at
login, the update on refresh, the set-revoked on revoke) with the error `err`,
the response is that of `respondWithError` with the code 500 and the message
`err.Error()`: its status is 500, and its body is the JSON object whose field
`error` holds the message of the store's error. -/
theorem storage_failure_response {σ : Type} (cfg : api.config σ) (db db2 : σ)
    (req : api.Request) (err : GoError) :
    (∀ params user refreshToken nowIat nowExp random,
      req.decodeUser = .ok params →
      cfg.Db.GetUserByEmail db params.Email = .ok user →
      auth.CheckPasswordHash params.Password user.HashedPassword = none →
      auth.MakeRefreshToken random = .ok refreshToken →
      cfg.Db.CreateRefreshToken db { Token := refreshToken, UserID := user.ID }
        = (.error err, db2) →
      (api.handlerLogin cfg db [] req nowIat nowExp random).rw
        = api.respondWithError [] 500 err.Error)
    ∧ (∀ refreshToken record now nowIat nowExp,
      auth.GetBearerToken req.Header = .ok refreshToken →
      cfg.Db.GetRefreshTokenByToken db refreshToken = .ok record →
      record.RevokedAt.Valid = false → now < record.ExpiresAt.instant →
      cfg.Db.RefreshTokenByToken db refreshToken = (some err, db2) →
      (api.handlerRefreshToken cfg db [] req now nowIat nowExp).rw
        = api.respondWithError [] 500 err.Error)
    ∧ (∀ token,
      auth.GetBearerToken req.Header = .ok token →
      cfg.Db.RevokeRefreshTokenByToken db token = (some err, db2) →
      (api.handlerRevokeToken cfg db [] req).1 = api.respondWithError [] 500 err.Error)
    ∧ api.status (api.respondWithError [] 500 err.Error) = some 500
    ∧ api.written (api.respondWithError [] 500 err.Error)
        = str "\x7b\"error\":" ++ json.encodeString err.Error ++ str "\x7d" := by
  refine ⟨?_, ?_, ?_, rfl, written_respondWithError _ _⟩
  · intro params user refreshToken nowIat nowExp random hbody huser hpass hrefresh hstore
    simp only [api.handlerLogin, hbody, huser, hpass, makeJWT_sessionToken, hrefresh, hstore]
  · intro refreshToken record now nowIat nowExp htoken hrecord hrevoked hexpires hstore
    have hcond : ¬ (record.RevokedAt.Valid = true
        ∨ time.Until now record.ExpiresAt.instant ≤ 0) := by
      rw [until_le_zero_iff, hrevoked]
      simp only [Bool.false_eq_true, false_or, not_le]
      exact hexpires
    simp only [api.handlerRefreshToken, htoken, hrecord, hcond, if_false, makeJWT_sessionToken,
      hstore]
  · intro token htoken hstore
    simp only [api.handlerRevokeToken, htoken, hstore]

/-- A witness of C12 on the store whose writes fail with the error
`driver: bad connection`: the login of `ada@example.com` with her password, the
redemption of the refresh token `abc` and its revocation each get the status 500
and the body `\x7b"error":"driver: bad connection"\x7d`. -/
theorem storage_failure_response_witness :
    api.status (api.respondWithError [] 500 (str "driver: bad connection")) = some 500
    ∧ api.written (api.respondWithError [] 500 (str "driver: bad connection"))
        = str "\x7b\"error\":\"driver: bad connection\"\x7d"
    ∧ (api.handlerLogin (brokenConfig (.msg (str "driver: bad connection"))) accountDb []
        (loginRequest (str "ada@example.com") (str "hunter2")) 0 0
        (.ok fun _ => 0)).rw
        = api.respondWithError [] 500 (str "driver: bad connection")
    ∧ (api.handlerRefreshToken (brokenConfig (.msg (str "driver: bad connection"))) accountDb []
        (exampleRequest [str "Bearer abc"] []) 0 0 0).rw
        = api.respondWithError [] 500 (str "driver: bad connection")
    ∧ (api.handlerRevokeToken (brokenConfig (.msg (str "driver: bad connection"))) accountDb []
        (exampleRequest [str "Bearer abc"] [])).1
        = api.respondWithError [] 500 (str "driver: bad connection") := by
  have hbearer : auth.GetBearerToken (exampleRequest [str "Bearer abc"] []).Header
      = .ok (str "abc") := by decide
  have hlogin := (storage_failure_response (brokenConfig (.msg (str "driver: bad connection")))
    accountDb accountDb (loginRequest (str "ada@example.com") (str "hunter2"))
    (.msg (str "driver: bad connection"))).1
    { Email := str "ada@example.com", Password := str "hunter2" }
    { ID := rowID 1, CreatedAt := memoryTime 0, UpdatedAt := memoryTime 0,
      Email := str "ada@example.com",
      HashedPassword := hashedPassword (str "hunter2") (fun _ => 0),
      IsChirpyRed := { Valid := true, Bool := false } }
    (hex.EncodeToString ((List.range 32).map fun _ => 0)) 0 0 (.ok fun _ => 0) rfl rfl
    (checkPasswordHash_hashedPassword (str "hunter2") (fun _ => 0) (by decide)).2.1 rfl rfl
  have hrest := (storage_failure_response (brokenConfig (.msg (str "driver: bad connection")))
    accountDb accountDb (exampleRequest [str "Bearer abc"] [])
    (.msg (str "driver: bad connection"))).2
  exact ⟨rfl, by decide, hlogin,
    hrest.1 (str "abc")
      { Token := str "abc", CreatedAt := memoryTime 0, UpdatedAt := memoryTime 0,
        UserID := rowID 1, ExpiresAt := memoryTime 100,
        RevokedAt := { Time := memoryTime 0, Valid := false } }
      0 0 0 hbearer rfl rfl (by decide) rfl,
    hrest.2.1 (str "abc") hbearer rfl⟩

/-! ## Passwords: the claim C13 -/

/-- C13, as stated, fails.  The hash that `HashPassword` returns for the
password `a` (under the all-zero salt) is accepted by `CheckPasswordHash` for
the different password `a\x00a`: both keys, the password followed by a zero
byte, repeat to the same 18 key words.  And `HashPassword` does not succeed on
every password: it fails on a password of 73 bytes. -/
theorem checkPasswordHash_accepts_other_password :
    auth.HashPassword (str "a") (.ok fun _ => 0) = .ok (hashedPassword (str "a") (fun _ => 0))
    ∧ str "a\x00a" ≠ str "a"
    ∧ auth.CheckPasswordHash (str "a\x00a") (hashedPassword (str "a") (fun _ => 0)) = none
    ∧ auth.HashPassword (List.replicate 73 0x61) (.ok fun _ => 0)
        = .error bcrypt.ErrPasswordTooLong := by
  obtain ⟨h1, -, h3⟩ := checkPasswordHash_hashedPassword (str "a") (fun _ => 0) (by decide)
  refine ⟨h1, by decide, ?_, by decide⟩
  rw [h3, if_pos]
  exact bcrypt_of_keyWords _ _ 10 _ (by decide) (by decide)

/-- C13, amended: `HashPassword` fails on a password of more than 72 bytes.  For
every password `P` of at most 72 bytes and all bytes that the random source
delivers, of which the first 16 are the salt, `HashPassword(P)` succeeds with
some hash `H`, and `CheckPasswordHash(P, H)` returns no error.  For every
password `P'`, `CheckPasswordHash(P', H)` returns the error of a mismatch exactly
when `bcrypt`, under the cost and the salt of `H`, gives `P'` another result than
`P`; it returns no error when the keys of `P'` and `P` (the password followed by
a zero byte) give the same 18 key words. -/
theorem password_roundtrip (password : GoString) (bytes : Nat → Byte) :
    (72 < password.length →
      ∀ reader, auth.HashPassword password reader = .error bcrypt.ErrPasswordTooLong)
    ∧ (password.length ≤ 72 →
      ∃ H, auth.HashPassword password (.ok bytes) = .ok H
        ∧ auth.CheckPasswordHash password H = none
        ∧ ∀ other,
          auth.CheckPasswordHash other H
            = (if bcrypt.bcrypt other 10 (bcrypt.base64Encode ((List.range 16).map bytes))
                = bcrypt.bcrypt password 10 (bcrypt.base64Encode ((List.range 16).map bytes))
              then none
              else some bcrypt.ErrMismatchedHashAndPassword)
          ∧ (keyWords (other ++ [0]) 18 0 = keyWords (password ++ [0]) 18 0 →
              auth.CheckPasswordHash other H = none)) := by
  constructor
  · intro hlong reader
    simp only [auth.HashPassword, bcrypt.GenerateFromPassword, gt_iff_lt, hlong, if_true]
  · intro hlen
    have hsalt : ((List.range 16).map bytes).length = 16 := by
      rw [List.length_map, List.length_range]
    obtain ⟨h1, h2, h3⟩ := checkPasswordHash_hashedPassword password bytes hlen
    refine ⟨_, h1, h2, fun other => ⟨h3 other, fun hk => ?_⟩⟩
    rw [h3, if_pos (bcrypt_of_keyWords _ _ 10 _ hsalt hk)]

/-- A witness of C13: the password `hunter2` under the all-zero salt. -/
theorem password_roundtrip_witness :
    ∃ H, auth.HashPassword (str "hunter2") (.ok fun _ => 0) = .ok H
      ∧ auth.CheckPasswordHash (str "hunter2") H = none := by
  obtain ⟨H, h1, h2, -⟩ := (password_roundtrip (str "hunter2") (fun _ => 0)).2 (by decide)
  exact ⟨H, h1, h2⟩

/-! ## One response for each request: the claim C14 -/

theorem writeHeaderCalls_append (a b : api.ResponseWriter) :
    api.writeHeaderCalls (a ++ b) = api.writeHeaderCalls a + api.writeHeaderCalls b := by
  simp only [api.writeHeaderCalls, List.filter_append, List.length_append]

/-- The function `respondWithError` calls `WriteHeader` once. -/
theorem writeHeaderCalls_respondWithError (rw : api.ResponseWriter) (code : Nat)
    (msg : GoString) :
    api.writeHeaderCalls (api.respondWithError rw code msg) = api.writeHeaderCalls rw + 1 := by
  simp only [api.respondWithError, api.marshalError, writeHeaderCalls_append]
  rfl

/-- The function `respondWithJSON` calls `WriteHeader` once. -/
theorem writeHeaderCalls_respondWithJSON (rw : api.ResponseWriter) (code : Nat)
    (payload : api.Payload) :
    api.writeHeaderCalls (api.respondWithJSON rw code payload) = api.writeHeaderCalls rw + 1 := by
  unfold api.respondWithJSON
  cases api.marshallJSON payload <;> simp only [writeHeaderCalls_append] <;> rfl

theorem writeHeaderCalls_nil : api.writeHeaderCalls [] = 0 := rfl

theorem writeHeaderCalls_header (k v : GoString) :
    api.writeHeaderCalls [.HeaderSet k v] = 0 := rfl

theorem writeHeaderCalls_writeHeader (code : Nat) :
    api.writeHeaderCalls ([] ++ [.WriteHeader code]) = 1 := rfl

/-- The handler `handlerGetChirp` calls `WriteHeader` once. -/
theorem writeHeaderCalls_handlerGetChirp {σ : Type} (cfg : api.config σ) (db : σ)
    (req : api.Request) : api.writeHeaderCalls (api.handlerGetChirp cfg db [] req) = 1 := by
  unfold api.handlerGetChirp
  simp only []
  repeat' split
  all_goals simp only [writeHeaderCalls_respondWithError, writeHeaderCalls_respondWithJSON,
    writeHeaderCalls_nil]

/-- The handler `handlerGetAllChirps` calls `WriteHeader` once. -/
theorem writeHeaderCalls_handlerGetAllChirps {σ : Type} (cfg : api.config σ) (db : σ)
    (req : api.Request) : api.writeHeaderCalls (api.handlerGetAllChirps cfg db [] req) = 1 := by
  unfold api.handlerGetAllChirps api.respondWithChirps
  simp only []
  repeat' split
  all_goals simp only [writeHeaderCalls_respondWithError, writeHeaderCalls_respondWithJSON,
    writeHeaderCalls_nil]

/-- The handler `handlerDeleteChirp` calls `WriteHeader` once. -/
theorem writeHeaderCalls_handlerDeleteChirp {σ : Type} (cfg : api.config σ) (db : σ)
    (req : api.Request) (now : Time) :
    api.writeHeaderCalls (api.handlerDeleteChirp cfg db [] req now).1 = 1 := by
  unfold api.handlerDeleteChirp
  simp only []
  repeat' split
  all_goals simp only [writeHeaderCalls_respondWithError, writeHeaderCalls_respondWithJSON,
    writeHeaderCalls_nil, writeHeaderCalls_writeHeader]

/-- The handler `handlerCreateChirp` calls `WriteHeader` once, except when the
run reaches the query `CreateChirp` and the query fails: then it calls it
twice, first for the error response and then for the success response. -/
theorem writeHeaderCalls_handlerCreateChirp {σ : Type} (cfg : api.config σ) (db : σ)
    (req : api.Request) (now : Time) :
    (api.writeHeaderCalls (api.handlerCreateChirp cfg db [] req now).1 = 1
      ∨ api.writeHeaderCalls (api.handlerCreateChirp cfg db [] req now).1 = 2)
    ∧ (api.writeHeaderCalls (api.handlerCreateChirp cfg db [] req now).1 = 2 ↔
      ∃ body token id err, req.decodeChirp = .ok body ∧ api.isValidChirp body = true
        ∧ auth.GetBearerToken req.Header = .ok token
        ∧ auth.ValidateJWT token cfg.Secret now = .ok id
        ∧ (cfg.Db.CreateChirp db { Body := (api.cleanChirp body).1, UserID := id }).1.2
            = some err) := by
  cases h1 : req.decodeChirp with
  | error e =>
    simp [api.handlerCreateChirp, h1, writeHeaderCalls_respondWithError, writeHeaderCalls_header]
  | ok body =>
    cases h2 : api.isValidChirp body with
    | false =>
      simp [api.handlerCreateChirp, h1, h2, writeHeaderCalls_respondWithError,
        writeHeaderCalls_header]
    | true =>
      cases h3 : auth.GetBearerToken req.Header with
      | error e =>
        simp [api.handlerCreateChirp, h1, h2, h3, writeHeaderCalls_respondWithError,
          writeHeaderCalls_header]
      | ok token =>
        cases h4 : auth.ValidateJWT token cfg.Secret now with
        | error e =>
          simp [api.handlerCreateChirp, h1, h2, h3, h4, writeHeaderCalls_respondWithError,
            writeHeaderCalls_header]
        | ok id =>
          rcases h5 : cfg.Db.CreateChirp db { Body := (api.cleanChirp body).1, UserID := id }
            with ⟨⟨chirp, err⟩, db2⟩
          cases err with
          | none =>
            simp [api.handlerCreateChirp, h1, h2, h3, h4, h5, writeHeaderCalls_respondWithJSON,
              writeHeaderCalls_header]
          | some err =>
            simp [api.handlerCreateChirp, h1, h2, h3, h4, h5, writeHeaderCalls_respondWithJSON,
              writeHeaderCalls_respondWithError, writeHeaderCalls_header]

/-- The run of `handlerCreateChirp` that reaches the query `CreateChirp` when the
query fails: the error response is written, and then the success response. -/
theorem handlerCreateChirp_store_failure {σ : Type} (cfg : api.config σ) (db db2 : σ)
    (req : api.Request) (now : Time) (body token : GoString) (id : UUID)
    (chirp : database.Chirp) (err : GoError)
    (hbody : req.decodeChirp = .ok body) (hvalid : api.isValidChirp body = true)
    (htoken : auth.GetBearerToken req.Header = .ok token)
    (hid : auth.ValidateJWT token cfg.Secret now = .ok id)
    (hstore : cfg.Db.CreateChirp db { Body := (api.cleanChirp body).1, UserID := id }
      = ((chirp, some err), db2)) :
    api.handlerCreateChirp cfg db [] req now
      = (api.respondWithJSON
          (api.respondWithError [.HeaderSet (str "Content-Type") (str "application/json")] 500
            err.Error) 201
          (.chirp { Id := chirp.ID, CreatedAt := chirp.CreatedAt, UpdatedAt := chirp.UpdatedAt,
                    Body := chirp.Body, UserId := chirp.UserID }), db2) := by
  simp only [api.handlerCreateChirp, hbody, hvalid, Bool.not_true, Bool.false_eq_true, if_false,
    htoken, hid, hstore, List.nil_append]

/-- C14: the handlers `handlerGetChirp`, `handlerGetAllChirps` and
`handlerDeleteChirp` call `WriteHeader` once on every request and for every
outcome of the store (each of `respondWithError`, `respondWithJSON` and
`WriteHeader` is one such call), and so does `handlerCreateChirp` unless its run
reaches the query `CreateChirp` and the query fails.  Then it calls it twice:
on the store whose writes fail with `driver: bad connection`, a create request
with a valid session token and the body `hello` gets the error response with
the status 500 and, after it, the header, the status 201 and the payload of the
success response, made from the zero chirp. -/
theorem createChirp_responds_twice :
    (api.handlerCreateChirp (brokenConfig (.msg (str "driver: bad connection"))) exampleDb []
        (chirpRequest [str "Bearer " ++ sessionToken (rowID 1) (str "secret") 0 0] (str "hello"))
        0).1
      = [.HeaderSet (str "Content-Type") (str "application/json"),
         .WriteHeader 500,
         .HeaderSet (str "Content-Type") (str "application/json"),
         .Write (str "\x7b\"error\":\"driver: bad connection\"\x7d"),
         .HeaderSet (str "Content-Type") (str "application/json"),
         .WriteHeader 201,
         .Write (str ("\x7b\"id\":\"00000000-0000-0000-0000-000000000000\","
           ++ "\"created_at\":\"0001-01-01T00:00:00Z\",\"updated_at\":\"0001-01-01T00:00:00Z\","
           ++ "\"body\":\"\",\"user_id\":\"00000000-0000-0000-0000-000000000000\"\x7d"))]
    ∧ api.writeHeaderCalls
        (api.handlerCreateChirp (brokenConfig (.msg (str "driver: bad connection"))) exampleDb []
          (chirpRequest [str "Bearer " ++ sessionToken (rowID 1) (str "secret") 0 0]
            (str "hello")) 0).1 = 2
    ∧ ∀ (σ : Type) (cfg : api.config σ) (db : σ) (req : api.Request) (now : Time),
        api.writeHeaderCalls (api.handlerGetChirp cfg db [] req) = 1
        ∧ api.writeHeaderCalls (api.handlerGetAllChirps cfg db [] req) = 1
        ∧ api.writeHeaderCalls (api.handlerDeleteChirp cfg db [] req now).1 = 1
        ∧ (api.writeHeaderCalls (api.handlerCreateChirp cfg db [] req now).1 = 1
          ∨ api.writeHeaderCalls (api.handlerCreateChirp cfg db [] req now).1 = 2)
        ∧ (api.writeHeaderCalls (api.handlerCreateChirp cfg db [] req now).1 = 2 ↔
          ∃ body token id err, req.decodeChirp = .ok body ∧ api.isValidChirp body = true
            ∧ auth.GetBearerToken req.Header = .ok token
            ∧ auth.ValidateJWT token cfg.Secret now = .ok id
            ∧ (cfg.Db.CreateChirp db { Body := (api.cleanChirp body).1, UserID := id }).1.2
                = some err) := by
  have hrun := handlerCreateChirp_store_failure
    (brokenConfig (.msg (str "driver: bad connection"))) exampleDb exampleDb
    (chirpRequest [str "Bearer " ++ sessionToken (rowID 1) (str "secret") 0 0] (str "hello")) 0
    (str "hello") (sessionToken (rowID 1) (str "secret") 0 0) (rowID 1) zeroChirp
    (.msg (str "driver: bad connection")) rfl (by decide)
    (getBearerToken_of_makeJWT _ _ _ _ _ (makeJWT_sessionToken _ _ _ _))
    (by
      show auth.ValidateJWT _ (str "secret") 0 = _
      rw [validateJWT_of_makeJWT (rowID 1) (str "secret") (str "secret") 0 0 0 _
        (makeJWT_sessionToken _ _ _ _), if_pos rfl, if_pos (by decide)])
    rfl
  refine ⟨?_, ?_, fun σ cfg db req now =>
    ⟨writeHeaderCalls_handlerGetChirp cfg db req, writeHeaderCalls_handlerGetAllChirps cfg db req,
      writeHeaderCalls_handlerDeleteChirp cfg db req now,
      writeHeaderCalls_handlerCreateChirp cfg db req now⟩⟩
  · rw [hrun]
    set_option maxRecDepth 100000 in
    decide
  · rw [hrun]
    set_option maxRecDepth 100000 in
    decide

end GoHttpServer
